import Mathlib

/-!
# ZetaRay: render-graph registration by pass owners, scheduling and barriers

The owners `GBuffer` and `PostProcessor` are embedded from their sources
(`GBuffer.cpp`, `PostProcessor.cpp`).  The `RenderGraph` class they call into is
not among the sources; its registry, dependency graph, scheduler and barrier
synthesizer are modelled from the specification and marked as such.
-/

namespace ZetaRay

/-! ## Data model -/

/-- The `D3D12_RESOURCE_STATES` values that occur in the sources. -/
inductive D3D12_RESOURCE_STATES where
  | COMMON
  | ALL_SHADER_RESOURCE
  | UNORDERED_ACCESS
  | RENDER_TARGET
  | RAYTRACING_ACCELERATION_STRUCTURE
  deriving DecidableEq, Repr

/-- Kind of a render node, `RENDER_NODE_TYPE` in the sources. -/
inductive RENDER_NODE_TYPE where
  | RENDER
  | COMPUTE
  deriving DecidableEq, Repr

/-- Outputs of the TAA pass, `TAA::SHADER_OUT_RES`. -/
inductive TAA_SHADER_OUT_RES where
  | OUTPUT_A
  | OUTPUT_B
  deriving DecidableEq, Repr

/-- Outputs of the SVGF pass named in `PostProcessor.cpp`, `SVGF::SHADER_OUT_RES`. -/
inductive SVGF_SHADER_OUT_RES where
  | TEMPORAL_CACHE_COL_LUM_A
  | TEMPORAL_CACHE_COL_LUM_B
  | SPATIAL_VAR
  deriving DecidableEq, Repr

/-- Modelled from the spec: the reserved synthetic resource identifiers
`RenderGraph::DUMMY_RES` (the enum declaration is not among the sources; these
are the members the sources name). -/
inductive DUMMY_RES where
  | RES_1
  | RES_2
  deriving DecidableEq, Repr

/-- The path id of a resource.  Path ids are computed outside the sources; a
resource is identified here by the object whose `GetPathID()` / `ID()` the
source passes to the render graph, and distinct objects have distinct ids. -/
inductive PathID where
  | GBufferNormal (i : Nat)
  | GBufferDepth (i : Nat)
  | GBufferMetallicRoughness (i : Nat)
  | GBufferBaseColor (i : Nat)
  | GBufferMotionVec
  | GBufferEmissiveColor
  | GBufferCurvature
  | TLAS
  | HdrLightAccumTex
  | TaaOutput (r : TAA_SHADER_OUT_RES)
  | Fsr2Upscaled
  | LumReductionAvgLum
  | BackBuffer (i : Nat)
  | IndirectDiffuseLi
  | SvgfOutput (r : SVGF_SHADER_OUT_RES)
  | Dummy (d : DUMMY_RES)
  deriving DecidableEq, Repr

/-- A pass handle: the position of the pass in the registration order. -/
abbrev PassHandle := Nat

/-- Direction of an edge: `AddInput` or `AddOutput`. -/
inductive Direction where
  | input
  | output
  deriving DecidableEq, Repr

/-- An edge: (pass, resource, required state, direction). -/
structure Edge (ρ : Type) where
  pass : PassHandle
  res : ρ
  state : D3D12_RESOURCE_STATES
  dir : Direction
  deriving DecidableEq, Repr

/-- A registered resource: identifier, storage handle (`none` is the null
handle of a synthetic resource) and tracked state. -/
structure FrameResource (ρ : Type) where
  id : ρ
  handle : Option ρ
  state : D3D12_RESOURCE_STATES
  deriving DecidableEq, Repr

/-- A registered pass: name and kind (the recording callback is not modelled). -/
structure RenderNode where
  name : String
  type : RENDER_NODE_TYPE
  deriving DecidableEq, Repr

/-- Modelled from the spec: the `RenderGraph` registry (ResourceTable
registrations, PassRegistry and the flat edge list), each in the order of the
calls that filled it.  The class is not among the sources. -/
structure RenderGraph (ρ : Type) where
  passes : List RenderNode
  resources : List (FrameResource ρ)
  edges : List (Edge ρ)
  deriving DecidableEq, Repr

namespace RenderGraph

variable {ρ : Type}

/-- The graph at the start of a frame: nothing registered. -/
def empty : RenderGraph ρ := ⟨[], [], []⟩

/-- Modelled from the spec: `RegisterPass(name, kind, callback) → pass_handle`;
passes are appended in caller-supplied order and the handle is the position. -/
def RegisterRenderPass (rg : RenderGraph ρ) (name : String) (type : RENDER_NODE_TYPE) :
    PassHandle × RenderGraph ρ :=
  (rg.passes.length, { rg with passes := rg.passes ++ [⟨name, type⟩] })

/-- Modelled from the spec: `RegisterResource(id, handle, initial_state)`
records the registration; the state defaults to `COMMON` at the call sites that
pass none. -/
def RegisterResource (rg : RenderGraph ρ) (handle : Option ρ) (id : ρ)
    (initState : D3D12_RESOURCE_STATES) : RenderGraph ρ :=
  { rg with resources := rg.resources ++ [⟨id, handle, initState⟩] }

/-- Modelled from the spec: `AddInput(pass_handle, resource_id, required_state)`
appends an input edge. -/
def AddInput (rg : RenderGraph ρ) (h : PassHandle) (id : ρ) (st : D3D12_RESOURCE_STATES) :
    RenderGraph ρ :=
  { rg with edges := rg.edges ++ [⟨h, id, st, .input⟩] }

/-- Modelled from the spec: `AddOutput(pass_handle, resource_id, required_state)`
appends an output edge. -/
def AddOutput (rg : RenderGraph ρ) (h : PassHandle) (id : ρ) (st : D3D12_RESOURCE_STATES) :
    RenderGraph ρ :=
  { rg with edges := rg.edges ++ [⟨h, id, st, .output⟩] }

end RenderGraph

/-! ## Frame inputs of the owners -/

/-- The fields of `RenderSettings` read by `PostProcessor`. -/
structure RenderSettings where
  TAA : Bool
  Fsr2 : Bool
  RTIndirectDiffuse : Bool
  DenoiseIndirectDiffuse : Bool
  deriving DecidableEq, Repr

/-- What the owners read from `App` in a frame: `GetTimer().GetTotalFrameCount()`,
`GetRenderer().CurrOutIdx()` (`GlobaIdxForDoubleBufferedResources()` in
`GBuffer.cpp`) and which swap-chain buffer `GetCurrBackBuffer()` returns. -/
structure App where
  TotalFrameCount : Nat
  CurrOutIdx : Nat
  CurrBackBuffer : Nat
  deriving DecidableEq, Repr

/-- What the owners read from `RayTracerData`: `RtAS.IsReady()` and
`RtAS.GetTLAS().IsInitialized()`. -/
structure RayTracerData where
  RtASIsReady : Bool
  TLASIsInitialized : Bool
  deriving DecidableEq, Repr

/-! ## GBuffer (GBuffer.cpp) -/

/-- The pass handle kept in `GBufferData`. -/
structure GBufferData where
  GBufferPassHandle : PassHandle
  deriving DecidableEq, Repr

namespace GBuffer

/-- The body of the loop `for (int i = 0; i < 2; i++)` of `GBuffer::Register`. -/
def RegisterLoopBody (rg : RenderGraph PathID) (i : Nat) : RenderGraph PathID :=
  let initDepthState := D3D12_RESOURCE_STATES.COMMON
  let rg := rg.RegisterResource (some (.GBufferNormal i)) (.GBufferNormal i) .COMMON
  let rg := rg.RegisterResource (some (.GBufferDepth i)) (.GBufferDepth i) initDepthState
  let rg := rg.RegisterResource (some (.GBufferMetallicRoughness i)) (.GBufferMetallicRoughness i) .COMMON
  rg.RegisterResource (some (.GBufferBaseColor i)) (.GBufferBaseColor i) .COMMON

/-- `GBuffer::Register`. -/
def Register (data : GBufferData) (rayTracerData : RayTracerData) (renderGraph : RenderGraph PathID) :
    GBufferData × RenderGraph PathID :=
  let tlasReady := rayTracerData.RtASIsReady
  if !tlasReady then
    (data, renderGraph)
  else
    let (h, rg) := renderGraph.RegisterRenderPass "GBuffer" .COMPUTE
    let data := { data with GBufferPassHandle := h }
    let rg := (List.range 2).foldl RegisterLoopBody rg
    let rg := rg.RegisterResource (some .GBufferMotionVec) .GBufferMotionVec .COMMON
    let rg := rg.RegisterResource (some .GBufferEmissiveColor) .GBufferEmissiveColor .COMMON
    let rg := rg.RegisterResource (some .GBufferCurvature) .GBufferCurvature .COMMON
    (data, rg)

/-- `GBuffer::DeclareAdjacencies`. -/
def DeclareAdjacencies (app : App) (data : GBufferData) (rayTracerData : RayTracerData)
    (renderGraph : RenderGraph PathID) : RenderGraph PathID :=
  let outIdx := app.CurrOutIdx
  let tlasReady := rayTracerData.RtASIsReady
  if !tlasReady then
    renderGraph
  else
    let gbufferOutState := D3D12_RESOURCE_STATES.UNORDERED_ACCESS
    let depthBuffOutState := D3D12_RESOURCE_STATES.UNORDERED_ACCESS
    let rg := renderGraph.AddInput data.GBufferPassHandle .TLAS .RAYTRACING_ACCELERATION_STRUCTURE
    let rg := rg.AddOutput data.GBufferPassHandle (.GBufferBaseColor outIdx) gbufferOutState
    let rg := rg.AddOutput data.GBufferPassHandle (.GBufferNormal outIdx) gbufferOutState
    let rg := rg.AddOutput data.GBufferPassHandle (.GBufferMetallicRoughness outIdx) gbufferOutState
    let rg := rg.AddOutput data.GBufferPassHandle .GBufferMotionVec gbufferOutState
    let rg := rg.AddOutput data.GBufferPassHandle .GBufferEmissiveColor gbufferOutState
    let rg := rg.AddOutput data.GBufferPassHandle (.GBufferDepth outIdx) depthBuffOutState
    rg.AddOutput data.GBufferPassHandle .GBufferCurvature gbufferOutState

end GBuffer

/-! ## PostProcessor (PostProcessor.cpp) -/

/-- The pass handles kept in `PostProcessData`. -/
structure PostProcessData where
  TaaHandle : PassHandle
  Fsr2PassHandle : PassHandle
  LumReductionPassHandle : PassHandle
  FinalPassHandle : PassHandle
  ImGuiPassHandle : PassHandle
  deriving DecidableEq, Repr

namespace PostProcessor

/-- `PostProcessor::Register`. -/
def Register (app : App) (settings : RenderSettings) (data : PostProcessData)
    (renderGraph : RenderGraph PathID) : PostProcessData × RenderGraph PathID :=
  let (data, rg) :=
    if app.TotalFrameCount > 2 then
      if settings.TAA then
        let (h, rg) := renderGraph.RegisterRenderPass "TAA" .COMPUTE
        let data := { data with TaaHandle := h }
        let rg := rg.RegisterResource (some (.TaaOutput .OUTPUT_A)) (.TaaOutput .OUTPUT_A) .COMMON
        let rg := rg.RegisterResource (some (.TaaOutput .OUTPUT_B)) (.TaaOutput .OUTPUT_B) .COMMON
        (data, rg)
      else if settings.Fsr2 then
        let (h, rg) := renderGraph.RegisterRenderPass "FSR2" .COMPUTE
        let data := { data with Fsr2PassHandle := h }
        let rg := rg.RegisterResource (some .Fsr2Upscaled) .Fsr2Upscaled .COMMON
        (data, rg)
      else (data, renderGraph)
    else (data, renderGraph)
  -- Lum Reduction
  let (h, rg) := rg.RegisterRenderPass "LuminanceReduction" .COMPUTE
  let data := { data with LumReductionPassHandle := h }
  let rg := rg.RegisterResource (some .LumReductionAvgLum) .LumReductionAvgLum .COMMON
  -- Final
  let (h, rg) := rg.RegisterRenderPass "FinalPass" .RENDER
  let data := { data with FinalPassHandle := h }
  -- ImGui
  let (h, rg) := rg.RegisterRenderPass "GuiPass" .RENDER
  let data := { data with ImGuiPassHandle := h }
  -- register backbuffer
  let rg := rg.RegisterResource (some (.BackBuffer app.CurrBackBuffer)) (.BackBuffer app.CurrBackBuffer) .COMMON
  -- dummy resource
  let rg := rg.RegisterResource none (.Dummy .RES_1) .COMMON
  (data, rg)

/-- `PostProcessor::DeclareAdjacencies`. -/
def DeclareAdjacencies (app : App) (settings : RenderSettings) (rayTracerData : RayTracerData)
    (postData : PostProcessData) (renderGraph : RenderGraph PathID) : RenderGraph PathID :=
  let outIdx := app.CurrOutIdx
  let rg :=
    if app.TotalFrameCount > 2 then
      if settings.TAA then
        let taaCurrOutIdx :=
          if outIdx = 0 then TAA_SHADER_OUT_RES.OUTPUT_B else TAA_SHADER_OUT_RES.OUTPUT_A
        let taaPrevOutIdx :=
          if outIdx = 0 then TAA_SHADER_OUT_RES.OUTPUT_A else TAA_SHADER_OUT_RES.OUTPUT_B
        let rg := renderGraph.AddInput postData.TaaHandle (.GBufferDepth outIdx) .ALL_SHADER_RESOURCE
        let rg := rg.AddInput postData.TaaHandle .HdrLightAccumTex .ALL_SHADER_RESOURCE
        let rg := rg.AddInput postData.TaaHandle (.TaaOutput taaPrevOutIdx) .ALL_SHADER_RESOURCE
        let rg := rg.AddOutput postData.TaaHandle (.TaaOutput taaCurrOutIdx) .UNORDERED_ACCESS
        -- make TAA dependant on compositing
        let rg := rg.AddInput postData.TaaHandle (.Dummy .RES_2) .UNORDERED_ACCESS
        -- Final
        rg.AddInput postData.FinalPassHandle (.TaaOutput taaCurrOutIdx) .ALL_SHADER_RESOURCE
      else if settings.Fsr2 then
        let rg := renderGraph.AddInput postData.Fsr2PassHandle (.GBufferDepth outIdx) .ALL_SHADER_RESOURCE
        let rg := rg.AddInput postData.Fsr2PassHandle .HdrLightAccumTex .ALL_SHADER_RESOURCE
        let rg := rg.AddInput postData.Fsr2PassHandle .GBufferMotionVec .ALL_SHADER_RESOURCE
        -- make FSR2 dependant on compositing
        let rg := rg.AddInput postData.Fsr2PassHandle (.Dummy .RES_2) .UNORDERED_ACCESS
        let rg := rg.AddOutput postData.Fsr2PassHandle .Fsr2Upscaled .UNORDERED_ACCESS
        -- Final
        rg.AddInput postData.FinalPassHandle .Fsr2Upscaled .ALL_SHADER_RESOURCE
      else renderGraph
    else renderGraph
  -- lum-reduction
  let rg := rg.AddInput postData.LumReductionPassHandle (.Dummy .RES_2) .UNORDERED_ACCESS
  let rg := rg.AddInput postData.LumReductionPassHandle .HdrLightAccumTex .ALL_SHADER_RESOURCE
  let rg := rg.AddOutput postData.LumReductionPassHandle .LumReductionAvgLum .UNORDERED_ACCESS
  -- Final
  let rg := rg.AddInput postData.FinalPassHandle .LumReductionAvgLum .ALL_SHADER_RESOURCE
  let rg :=
    if settings.RTIndirectDiffuse && rayTracerData.TLASIsInitialized then
      let rg := rg.AddInput postData.FinalPassHandle .IndirectDiffuseLi .ALL_SHADER_RESOURCE
      if settings.DenoiseIndirectDiffuse then
        let temporalCacheIdx :=
          if outIdx = 0 then SVGF_SHADER_OUT_RES.TEMPORAL_CACHE_COL_LUM_B
          else SVGF_SHADER_OUT_RES.TEMPORAL_CACHE_COL_LUM_A
        let rg := rg.AddInput postData.FinalPassHandle (.SvgfOutput temporalCacheIdx) .ALL_SHADER_RESOURCE
        rg.AddInput postData.FinalPassHandle (.SvgfOutput .SPATIAL_VAR) .ALL_SHADER_RESOURCE
      else rg
    else rg
  let rg := rg.AddOutput postData.FinalPassHandle (.BackBuffer app.CurrBackBuffer) .RENDER_TARGET
  -- For GUI-Pass
  let rg := rg.AddOutput postData.FinalPassHandle (.Dummy .RES_1) .UNORDERED_ACCESS
  -- ImGui, due to blending, it should go last
  let rg := rg.AddInput postData.ImGuiPassHandle (.Dummy .RES_1) .UNORDERED_ACCESS
  rg.AddOutput postData.ImGuiPassHandle (.BackBuffer app.CurrBackBuffer) .RENDER_TARGET

end PostProcessor

/-! ## DependencyGraph, Scheduler and Build (modelled from the specification) -/

namespace DependencyGraph

variable {ρ : Type} [DecidableEq ρ]

/-- Some edge of the list is an output on the resource: the resource has a
producer of record. -/
def produced (seen : List (Edge ρ)) (res : ρ) : Bool :=
  seen.any (fun e => decide (e.res = res) && decide (e.dir = Direction.output))

/-- The edge `e2` is declared after the edges `seen`, of which `e` is one, on the
same resource, and the two put pass `a` before pass `b`.  When the resource has
a producer among `seen`, the passes are ordered by declaration, `e` on `a` and
`e2` on `b`, provided one of the two edges is an output (read-after-write,
write-after-write, write-after-read; read-after-read is not ordered).  When it has
none, `e` is an input and an output `e2` is the first producer of the resource:
its pass `a` comes before the pass `b` of the input. -/
def orders (seen : List (Edge ρ)) (e e2 : Edge ρ) (a b : PassHandle) : Bool :=
  decide (e2.res = e.res) &&
    (match produced seen e2.res with
      | true =>
        decide (e.pass = a) && decide (e2.pass = b) &&
          (decide (e.dir = Direction.output) || decide (e2.dir = Direction.output))
      | false =>
        decide (e.pass = b) && decide (e2.pass = a) && decide (e2.dir = Direction.output))

/-- The adjacency over the edges still to come, `seen` being the edges declared
so far: each edge is paired with every edge declared before it. -/
def adjacentFrom (seen : List (Edge ρ)) : List (Edge ρ) → PassHandle → PassHandle → Bool
  | [], _, _ => false
  | e2 :: rest, a, b =>
    (decide (a ≠ b) && seen.any (fun e => orders seen e e2 a b)) ||
      adjacentFrom (seen ++ [e2]) rest a b

/-- Modelled from the spec: the pass adjacency of the DependencyGraph, which is
not among the sources.  "For each resource, the ordered list of passes that
touch it (producers and consumers), in registration order.  An edge from pass A
to pass B is implied whenever A outputs a resource that B subsequently inputs or
outputs, in registration order" (4.3, subsequently being later in the flat edge
list); "write-after-read and write-after-write are ordered by registration
sequence among passes sharing the resource", read-after-read is not (3); the
order guarantees "that every input edge of a pass is satisfied ... by a
preceding producer" (4.4), so an input declared before the resource has any
producer is satisfied by the first output declared on it, whose pass comes
first.  A pass that inputs and outputs the same resource gets no edge to
itself. -/
def adjacent (es : List (Edge ρ)) (a b : PassHandle) : Bool :=
  adjacentFrom [] es a b

end DependencyGraph

namespace Scheduler

/-- A pass is ready when none of the passes still to be scheduled is one of
its predecessors. -/
def ready (adj : PassHandle → PassHandle → Bool) (remaining : List PassHandle)
    (p : PassHandle) : Bool :=
  remaining.all (fun q => !adj q p)

/-- Modelled from the spec: the Scheduler, which is not among the sources.  A
topological sort in the style of Kahn: the first ready pass in registration
order is emitted next (registration order is the tie-break); when passes remain
and none is ready the graph has a cycle and the result is `none` (fatal). -/
def sortLoop (adj : PassHandle → PassHandle → Bool) :
    Nat → List PassHandle → List PassHandle → Option (List PassHandle)
  | 0, remaining, sorted => if remaining.isEmpty then some sorted else none
  | fuel + 1, remaining, sorted =>
    match remaining.find? (ready adj remaining) with
    | some p => sortLoop adj fuel (remaining.erase p) (sorted ++ [p])
    | none => if remaining.isEmpty then some sorted else none

/-- Sort the passes `0 .. n-1`; one round per pass. -/
def sort (adj : PassHandle → PassHandle → Bool) (n : Nat) : Option (List PassHandle) :=
  sortLoop adj n (List.range n) []

end Scheduler

namespace RenderGraph

variable {ρ : Type} [DecidableEq ρ]

/-- Modelled from the spec: `Build() → ExecutionOrder` "runs Scheduler; fails
fatally on cycle".  `none` is the fatal failure; an edge on a handle that
`RegisterPass` never returned is fatal as well. -/
def Build (rg : RenderGraph ρ) : Option (List PassHandle) :=
  if rg.edges.all (fun e => decide (e.pass < rg.passes.length)) then
    Scheduler.sort (DependencyGraph.adjacent rg.edges) rg.passes.length
  else none

/-- Pass `B` depends on pass `A` in the graph: the adjacency as a proposition. -/
def DependsOn (rg : RenderGraph ρ) (a b : PassHandle) : Prop :=
  DependencyGraph.adjacent rg.edges a b = true

/-- The graph has a cyclic dependency: some pass reaches itself along edges. -/
def Cyclic (rg : RenderGraph ρ) : Prop :=
  ∃ p, Relation.TransGen (DependsOn rg) p p

/-- Every edge was declared on a handle returned by `RegisterRenderPass`. -/
def HandlesRegistered (rg : RenderGraph ρ) : Prop :=
  ∀ e ∈ rg.edges, e.pass < rg.passes.length

end RenderGraph

/-- Pass `a` comes before pass `b` in the order `l`: both occur in it and the
position of `a` is the smaller one. -/
def Precedes (l : List PassHandle) (a b : PassHandle) : Prop :=
  a ∈ l ∧ b ∈ l ∧ l.indexOf a < l.indexOf b

/-! ## ResourceTable and BarrierSynthesizer (modelled from the specification) -/

/-- A barrier instruction. -/
inductive Barrier (ρ : Type) where
  | Transition (res : ρ) (before after : D3D12_RESOURCE_STATES)
  | UAV (res : ρ)
  deriving DecidableEq, Repr

/-- Modelled from the spec: the ResourceTable, "mapping an opaque resource
identifier to its current GPU-visible state and underlying storage handle (or a
null/synthetic marker)". -/
abbrev ResourceTable (ρ : Type) := List (FrameResource ρ)

namespace ResourceTable

variable {ρ : Type} [DecidableEq ρ]

/-- The entry of a resource, if it was registered. -/
def entry (tbl : ResourceTable ρ) (id : ρ) : Option (FrameResource ρ) :=
  List.find? (fun r => decide (r.id = id)) tbl

/-- Modelled from the spec: `Register(resource_id, initial_state, handle)`
"inserts or overwrites a resource's tracked state for the current frame; fails
if called twice for the same id within a frame with a different handle". -/
def Register (tbl : ResourceTable ρ) (id : ρ) (initState : D3D12_RESOURCE_STATES)
    (handle : Option ρ) : Option (ResourceTable ρ) :=
  match entry tbl id with
  | none => some (tbl ++ [⟨id, handle, initState⟩])
  | some r =>
    if r.handle = handle then
      some (tbl.map (fun x => if x.id = id then ⟨id, handle, initState⟩ else x))
    else none

/-- Modelled from the spec: `CurrentState(resource_id) → state`; `none` is the
fatal case of a resource that was never registered. -/
def CurrentState (tbl : ResourceTable ρ) (id : ρ) : Option D3D12_RESOURCE_STATES :=
  (entry tbl id).map (fun r => r.state)

/-- Modelled from the spec: `SetState(resource_id, state)`. -/
def SetState (tbl : ResourceTable ρ) (id : ρ) (st : D3D12_RESOURCE_STATES) :
    ResourceTable ρ :=
  tbl.map (fun r => if r.id = id then { r with state := st } else r)

/-- The table built from the registrations of a frame, in call order. -/
def ofRegistrations : List (FrameResource ρ) → ResourceTable ρ → Option (ResourceTable ρ)
  | [], tbl => some tbl
  | r :: rs, tbl =>
    match Register tbl r.id r.state r.handle with
    | none => none
    | some tbl1 => ofRegistrations rs tbl1

end ResourceTable

namespace BarrierSynthesizer

variable {ρ : Type} [DecidableEq ρ]

/-- Modelled from the spec: the BarrierSynthesizer step for one edge, which is
not among the sources.  "Read `CurrentState(resource_id)`; if it differs from
the edge's `required_state`, emit a transition instruction (resource_id,
old_state → new_state) ..., then call `SetState(resource_id, required_state)`.
If old_state == new_state == unordered-access ..., emit a UAV synchronization
barrier instead of a state transition ...  Synthetic resources never produce a
hardware barrier instruction."  A synthetic resource is one registered with the
null handle. -/
def edge (tbl : ResourceTable ρ) (e : Edge ρ) :
    Option (ResourceTable ρ × List (Barrier ρ)) :=
  match tbl.entry e.res with
  | none => none
  | some r =>
    if r.state ≠ e.state then
      some (tbl.SetState e.res e.state,
        if r.handle.isSome then [Barrier.Transition e.res r.state e.state] else [])
    else if e.state = D3D12_RESOURCE_STATES.UNORDERED_ACCESS then
      some (tbl, if r.handle.isSome then [Barrier.UAV e.res] else [])
    else some (tbl, [])

/-- The barriers of a sequence of edges, processed in order; they form the batch
recorded immediately before the commands of the pass the edges belong to. -/
def edges (tbl : ResourceTable ρ) :
    List (Edge ρ) → Option (ResourceTable ρ × List (Barrier ρ))
  | [] => some (tbl, [])
  | e :: es =>
    match edge tbl e with
    | none => none
    | some (tbl1, b1) =>
      match edges tbl1 es with
      | none => none
      | some (tbl2, b2) => some (tbl2, b1 ++ b2)

/-- The edges of a pass, in order of declaration. -/
def passEdges (es : List (Edge ρ)) (p : PassHandle) : List (Edge ρ) :=
  es.filter (fun e => decide (e.pass = p))

/-- Modelled from the spec: barrier synthesis "for each pass in sorted order,
and for each of its edges"; the result pairs every pass of the order with the
batch of barriers recorded before its commands. -/
def run (es : List (Edge ρ)) (tbl : ResourceTable ρ) :
    List PassHandle → Option (ResourceTable ρ × List (PassHandle × List (Barrier ρ)))
  | [] => some (tbl, [])
  | p :: ps =>
    match edges tbl (passEdges es p) with
    | none => none
    | some (tbl1, b) =>
      match run es tbl1 ps with
      | none => none
      | some (tbl2, out) => some (tbl2, (p, b) :: out)

/-- A barrier is a state transition of resource `R`. -/
def isTransitionOf (R : ρ) : Barrier ρ → Bool
  | Barrier.Transition res _ _ => decide (res = R)
  | Barrier.UAV _ => false

end BarrierSynthesizer

/-! ## Scenarios of the specification -/

namespace Scenario

/-- The three-pass scenario: A outputs X as unordered-access; B inputs X as
shader-resource and outputs Y as render-target; C inputs and outputs Y as
render-target.  Resources are named by strings. -/
def threePass : RenderGraph String :=
  let rg : RenderGraph String := RenderGraph.empty
  let (a, rg) := rg.RegisterRenderPass "A" .COMPUTE
  let (b, rg) := rg.RegisterRenderPass "B" .RENDER
  let (c, rg) := rg.RegisterRenderPass "C" .RENDER
  let rg := rg.RegisterResource (some "X") "X" .COMMON
  let rg := rg.RegisterResource (some "Y") "Y" .COMMON
  let rg := rg.AddOutput a "X" .UNORDERED_ACCESS
  let rg := rg.AddInput b "X" .ALL_SHADER_RESOURCE
  let rg := rg.AddOutput b "Y" .RENDER_TARGET
  let rg := rg.AddInput c "Y" .RENDER_TARGET
  rg.AddOutput c "Y" .RENDER_TARGET

/-- The three-pass scenario with the passes registered in the order C, B, A
(handles 0, 1, 2) and the edges declared from producer to consumer. -/
def threePassReversed : RenderGraph String :=
  let rg : RenderGraph String := RenderGraph.empty
  let (c, rg) := rg.RegisterRenderPass "C" .RENDER
  let (b, rg) := rg.RegisterRenderPass "B" .RENDER
  let (a, rg) := rg.RegisterRenderPass "A" .COMPUTE
  let rg := rg.RegisterResource (some "X") "X" .COMMON
  let rg := rg.RegisterResource (some "Y") "Y" .COMMON
  let rg := rg.AddOutput a "X" .UNORDERED_ACCESS
  let rg := rg.AddInput b "X" .ALL_SHADER_RESOURCE
  let rg := rg.AddOutput b "Y" .RENDER_TARGET
  let rg := rg.AddInput c "Y" .RENDER_TARGET
  rg.AddOutput c "Y" .RENDER_TARGET

/-- The cyclic scenario: P writes R1 and reads R2 while Q writes R2 and reads
R1, declared pass by pass. -/
def cyclicPair : RenderGraph String :=
  let rg : RenderGraph String := RenderGraph.empty
  let (p, rg) := rg.RegisterRenderPass "P" .COMPUTE
  let (q, rg) := rg.RegisterRenderPass "Q" .COMPUTE
  let rg := rg.RegisterResource (some "R1") "R1" .COMMON
  let rg := rg.RegisterResource (some "R2") "R2" .COMMON
  let rg := rg.AddOutput p "R1" .UNORDERED_ACCESS
  let rg := rg.AddInput p "R2" .ALL_SHADER_RESOURCE
  let rg := rg.AddOutput q "R2" .UNORDERED_ACCESS
  rg.AddInput q "R1" .ALL_SHADER_RESOURCE

/-- The cyclic scenario with both writes declared before both reads. -/
def cyclicPairWritesFirst : RenderGraph String :=
  let rg : RenderGraph String := RenderGraph.empty
  let (p, rg) := rg.RegisterRenderPass "P" .COMPUTE
  let (q, rg) := rg.RegisterRenderPass "Q" .COMPUTE
  let rg := rg.RegisterResource (some "R1") "R1" .COMMON
  let rg := rg.RegisterResource (some "R2") "R2" .COMMON
  let rg := rg.AddOutput p "R1" .UNORDERED_ACCESS
  let rg := rg.AddOutput q "R2" .UNORDERED_ACCESS
  let rg := rg.AddInput p "R2" .ALL_SHADER_RESOURCE
  rg.AddInput q "R1" .ALL_SHADER_RESOURCE

/-- A reader declared before the producer: P reads R, then Q writes R. -/
def readerFirst : RenderGraph String :=
  let rg : RenderGraph String := RenderGraph.empty
  let (p, rg) := rg.RegisterRenderPass "P" .COMPUTE
  let (q, rg) := rg.RegisterRenderPass "Q" .COMPUTE
  let rg := rg.RegisterResource (some "R") "R" .COMMON
  let rg := rg.AddInput p "R" .ALL_SHADER_RESOURCE
  rg.AddOutput q "R" .UNORDERED_ACCESS

/-- A write after a read: the passes are registered as C, B, A (handles 0, 1, 2);
A writes R, then B reads R, then C writes R. -/
def writeAfterRead : RenderGraph String :=
  let rg : RenderGraph String := RenderGraph.empty
  let (c, rg) := rg.RegisterRenderPass "C" .COMPUTE
  let (b, rg) := rg.RegisterRenderPass "B" .COMPUTE
  let (a, rg) := rg.RegisterRenderPass "A" .COMPUTE
  let rg := rg.RegisterResource (some "R") "R" .COMMON
  let rg := rg.AddOutput a "R" .UNORDERED_ACCESS
  let rg := rg.AddInput b "R" .ALL_SHADER_RESOURCE
  rg.AddOutput c "R" .UNORDERED_ACCESS

end Scenario

namespace Scenario

/-- A single producer and two consumers of one state: pass 0 outputs X as
unordered-access, passes 1 and 2 input X as shader-resource. -/
def fanOut : RenderGraph String :=
  let rg : RenderGraph String := RenderGraph.empty
  let (p, rg) := rg.RegisterRenderPass "Producer" .COMPUTE
  let (c1, rg) := rg.RegisterRenderPass "Consumer1" .COMPUTE
  let (c2, rg) := rg.RegisterRenderPass "Consumer2" .COMPUTE
  let rg := rg.RegisterResource (some "X") "X" .COMMON
  let rg := rg.AddOutput p "X" .UNORDERED_ACCESS
  let rg := rg.AddInput c1 "X" .ALL_SHADER_RESOURCE
  rg.AddInput c2 "X" .ALL_SHADER_RESOURCE

/-- The resource table of `fanOut` once its producer has run: X is recorded in
the producer's output state. -/
def fanOutProduced : ResourceTable String :=
  [⟨"X", some "X", .UNORDERED_ACCESS⟩]

/-- A resource U with storage, registered in unordered-access state, written as
unordered-access by pass 0 and then by pass 1 and read as shader-resource by
pass 2. -/
def uavWritersThenReader : RenderGraph String :=
  let rg : RenderGraph String := RenderGraph.empty
  let (w1, rg) := rg.RegisterRenderPass "Writer1" .COMPUTE
  let (w2, rg) := rg.RegisterRenderPass "Writer2" .COMPUTE
  let (rd, rg) := rg.RegisterRenderPass "Reader" .COMPUTE
  let rg := rg.RegisterResource (some "U") "U" .UNORDERED_ACCESS
  let rg := rg.AddOutput w1 "U" .UNORDERED_ACCESS
  let rg := rg.AddOutput w2 "U" .UNORDERED_ACCESS
  rg.AddInput rd "U" .ALL_SHADER_RESOURCE

/-- The resource table of `uavWritersThenReader` after its registration. -/
def uavWritersTable : ResourceTable String :=
  [⟨"U", some "U", .UNORDERED_ACCESS⟩]

/-- The table holding the dummy resource as `PostProcessor::Register` registers
it: null handle, default state. -/
def dummyTable : ResourceTable PathID :=
  [⟨.Dummy .RES_1, none, .COMMON⟩]

/-- The edge `PostProcessor::DeclareAdjacencies` declares first on the dummy
resource: an output in unordered-access state. -/
def dummyEdge : Edge PathID :=
  ⟨1, .Dummy .RES_1, .UNORDERED_ACCESS, .output⟩

/-- A synthetic resource (null handle) registered in unordered-access state and
written as unordered-access by pass 0 and then by pass 1. -/
def syntheticWriters : RenderGraph PathID :=
  let rg : RenderGraph PathID := RenderGraph.empty
  let (w1, rg) := rg.RegisterRenderPass "Writer1" .COMPUTE
  let (w2, rg) := rg.RegisterRenderPass "Writer2" .COMPUTE
  let rg := rg.RegisterResource none (.Dummy .RES_2) .UNORDERED_ACCESS
  let rg := rg.AddOutput w1 (.Dummy .RES_2) .UNORDERED_ACCESS
  rg.AddOutput w2 (.Dummy .RES_2) .UNORDERED_ACCESS

/-- The resource table of `syntheticWriters` after its registration. -/
def syntheticWritersTable : ResourceTable PathID :=
  [⟨.Dummy .RES_2, none, .UNORDERED_ACCESS⟩]

end Scenario

/-! ## What an owner adds to the render graph in a frame -/

namespace PostProcessor

/-- The graph after `Register` followed by `DeclareAdjacencies` in one frame;
`DeclareAdjacencies` sees the `PostProcessData` left by `Register`. -/
def frame (app : App) (settings : RenderSettings) (rayTracerData : RayTracerData)
    (data : PostProcessData) (renderGraph : RenderGraph PathID) : RenderGraph PathID :=
  let r := Register app settings data renderGraph
  DeclareAdjacencies app settings rayTracerData r.1 r.2

/-- The `PostProcessData` left by `Register`. -/
def registered (app : App) (settings : RenderSettings) (data : PostProcessData)
    (renderGraph : RenderGraph PathID) : PostProcessData :=
  (Register app settings data renderGraph).1

/-- The passes `Register` appends to the graph, in registration order. -/
def registeredPasses (app : App) (settings : RenderSettings) (data : PostProcessData)
    (renderGraph : RenderGraph PathID) : List RenderNode :=
  (Register app settings data renderGraph).2.passes.drop renderGraph.passes.length

/-- The resources `Register` registers, in call order. -/
def registeredResources (app : App) (settings : RenderSettings) (data : PostProcessData)
    (renderGraph : RenderGraph PathID) : List (FrameResource PathID) :=
  (Register app settings data renderGraph).2.resources.drop renderGraph.resources.length

/-- The edges `DeclareAdjacencies` declares in the frame, in order of
declaration. -/
def declaredEdges (app : App) (settings : RenderSettings) (rayTracerData : RayTracerData)
    (data : PostProcessData) (renderGraph : RenderGraph PathID) : List (Edge PathID) :=
  (frame app settings rayTracerData data renderGraph).edges.drop renderGraph.edges.length

end PostProcessor

namespace GBuffer

/-- The graph after `Register` followed by `DeclareAdjacencies` in one frame. -/
def frame (app : App) (rayTracerData : RayTracerData) (data : GBufferData)
    (renderGraph : RenderGraph PathID) : RenderGraph PathID :=
  let r := Register data rayTracerData renderGraph
  DeclareAdjacencies app r.1 rayTracerData r.2

/-- The resources `Register` registers, in call order. -/
def registeredResources (rayTracerData : RayTracerData) (data : GBufferData)
    (renderGraph : RenderGraph PathID) : List (FrameResource PathID) :=
  (Register data rayTracerData renderGraph).2.resources.drop renderGraph.resources.length

/-- The edges `DeclareAdjacencies` declares in the frame, in order of
declaration. -/
def declaredEdges (app : App) (rayTracerData : RayTracerData) (data : GBufferData)
    (renderGraph : RenderGraph PathID) : List (Edge PathID) :=
  (frame app rayTracerData data renderGraph).edges.drop renderGraph.edges.length

end GBuffer

/-! ## Material (Material.h) -/

/-- The enumerators of `Material::ALPHA_MODE` (an `enum class` over `uint8_t`). -/
inductive ALPHA_MODE where
  | OPAQUE
  | MASK
  | BLEND
  | COUNT
  deriving DecidableEq, Repr

/-- The value of an enumerator: `OPAQUE = 0`, then counting up. -/
def ALPHA_MODE.toNat : ALPHA_MODE → Nat
  | .OPAQUE => 0
  | .MASK => 1
  | .BLEND => 2
  | .COUNT => 3

/-- The `Packed` field of `Material`, a `uint32_t`; the setters and getters of
the struct touch no other field. -/
structure Material where
  Packed : Nat
  deriving DecidableEq, Repr

namespace Material

/-- The constructor `Material()`: `Packed = 0`. -/
def ctor : Material := ⟨0⟩

/-- `Material::SetGpuBufferIndex`: `Packed |= idx`; the `Assert` on
`idx < 1'000'000` is its precondition. -/
def SetGpuBufferIndex (m : Material) (idx : Nat) : Material :=
  ⟨(m.Packed ||| idx) % 2 ^ 32⟩

/-- `Material::SetAlphaMode`: `Packed |= (uint32_t)(mode) << 28`. -/
def SetAlphaMode (m : Material) (mode : ALPHA_MODE) : Material :=
  ⟨(m.Packed ||| (mode.toNat <<< 28) % 2 ^ 32) % 2 ^ 32⟩

/-- `Material::SetDoubleSided`: `Packed |= (uint32_t)(b) << 30`. -/
def SetDoubleSided (m : Material) (b : Bool) : Material :=
  ⟨(m.Packed ||| (b.toNat <<< 30) % 2 ^ 32) % 2 ^ 32⟩

/-- `Material::GpuBufferIndex`: `Packed & 0x0fffffff`. -/
def GpuBufferIndex (m : Material) : Nat :=
  m.Packed &&& 0x0fffffff

/-- `Material::IsDoubleSided`: `Packed & (1 << 30)`, read as a `bool`. -/
def IsDoubleSided (m : Material) : Bool :=
  (m.Packed &&& (1 <<< 30)) != 0

end Material

/-! ## DirectLighting (DirectLighting.h) -/

/-- The two fields of the constant buffer `cb_ReSTIR_DI_SpatioTemporal` that
`SetLightPresamplingEnabled` writes; the struct declaration is not among the
sources, the fields hold the `uint16_t` values assigned to them. -/
structure cb_ReSTIR_DI_SpatioTemporal where
  NumSampleSets : Nat
  SampleSetSize : Nat
  deriving DecidableEq, Repr

/-- The members of `DirectLighting` that `SetLightPresamplingEnabled` writes. -/
structure DirectLighting where
  m_preSampling : Bool
  m_cbSpatioTemporal : cb_ReSTIR_DI_SpatioTemporal
  deriving DecidableEq, Repr

namespace DirectLighting

/-- The conversion `(uint16_t)x` of an `int`: the value modulo 2^16. -/
def toUint16 (x : Int) : Nat :=
  (x % 65536).toNat

/-- The condition of the `Assert` in `SetLightPresamplingEnabled`:
`!b || (b && numSampleSets && sampleSetSize)`. -/
def presamplingAssert (b : Bool) (numSampleSets sampleSetSize : Int) : Bool :=
  !b || (b && decide (numSampleSets ≠ 0) && decide (sampleSetSize ≠ 0))

/-- `DirectLighting::SetLightPresamplingEnabled`. -/
def SetLightPresamplingEnabled (self : DirectLighting) (b : Bool)
    (numSampleSets sampleSetSize : Int) : DirectLighting :=
  { self with
    m_preSampling := b
    m_cbSpatioTemporal :=
      { self.m_cbSpatioTemporal with
        NumSampleSets := if b then toUint16 numSampleSets else 0
        SampleSetSize := if b then toUint16 sampleSetSize else 0 } }

end DirectLighting

/-! ## PostProcessor::Update (PostProcessor.cpp) -/

/-- A descriptor table of one SRV: either empty (never allocated, or reset) or
allocated, holding the texture whose SRV was last created in it, if any. -/
inductive DescriptorTable where
  | empty
  | allocated (srv : Option PathID)
  deriving DecidableEq, Repr

namespace DescriptorTable

/-- `DescriptorTable::IsEmpty`. -/
def IsEmpty : DescriptorTable → Bool
  | .empty => true
  | .allocated _ => false

/-- `CreateTexture2DSRV(tex, table.CPUHandle(0))`: the allocated table then
holds the SRV of `tex`; an empty table has no descriptor to write. -/
def CreateTexture2DSRV (tex : PathID) : DescriptorTable → DescriptorTable
  | .empty => .empty
  | .allocated _ => .allocated (some tex)

/-- The texture whose SRV the table holds. -/
def texture : DescriptorTable → Option PathID
  | .empty => none
  | .allocated srv => srv

end DescriptorTable

/-- The descriptor tables of `PostProcessData` that `FinalPass` can be bound to. -/
inductive SrvTable where
  | TaaOrFsr2OutSRV
  | HdrLightAccumSRV
  deriving DecidableEq, Repr

/-- The passes and descriptor tables kept in `PostProcessData` that
`UpdatePasses`, `UpdateDescriptors` and the FINAL_LIGHTING binding of `Update`
read and write: whether the TAA and FSR2 passes are initialized (the upscaled
output of the FSR2 pass is initialized exactly when the pass is), the two SRV
tables, and the table bound as FINAL_LIGHTING of the final pass. -/
structure PostProcessPasses where
  TaaPassIsInitialized : Bool
  Fsr2PassIsInitialized : Bool
  TaaOrFsr2OutSRV : DescriptorTable
  HdrLightAccumSRV : DescriptorTable
  FinalLighting : Option SrvTable
  deriving DecidableEq, Repr

namespace PostProcessPasses

/-- The members as constructed: passes not initialized, tables empty, nothing
bound. -/
def ctor : PostProcessPasses :=
  ⟨false, false, .empty, .empty, none⟩

/-- The texture whose SRV is bound as FINAL_LIGHTING of the final pass. -/
def finalLightingTexture (postData : PostProcessPasses) : Option PathID :=
  match postData.FinalLighting with
  | none => none
  | some .TaaOrFsr2OutSRV => postData.TaaOrFsr2OutSRV.texture
  | some .HdrLightAccumSRV => postData.HdrLightAccumSRV.texture

end PostProcessPasses

namespace PostProcessor

/-- `PostProcessor::Init`, as far as the SRV tables go: `HdrLightAccumSRV` is
allocated and the SRV of the HDR light-accumulation texture created in it. -/
def Init (postData : PostProcessPasses) : PostProcessPasses :=
  { postData with
    HdrLightAccumSRV :=
      (DescriptorTable.allocated none).CreateTexture2DSRV .HdrLightAccumTex }

/-- `PostProcessor::UpdatePasses`. -/
def UpdatePasses (settings : RenderSettings) (postData : PostProcessPasses) :
    PostProcessPasses :=
  let postData :=
    if !settings.Fsr2 && postData.Fsr2PassIsInitialized then
      { postData with Fsr2PassIsInitialized := false, TaaOrFsr2OutSRV := .empty }
    else postData
  let postData :=
    if !settings.TAA && postData.TaaPassIsInitialized then
      { postData with TaaPassIsInitialized := false, TaaOrFsr2OutSRV := .empty }
    else postData
  if settings.TAA then
    let postData :=
      if !postData.TaaPassIsInitialized then { postData with TaaPassIsInitialized := true }
      else postData
    if postData.TaaOrFsr2OutSRV.IsEmpty then
      { postData with TaaOrFsr2OutSRV := .allocated none }
    else postData
  else if settings.Fsr2 then
    let postData :=
      if !postData.Fsr2PassIsInitialized then { postData with Fsr2PassIsInitialized := true }
      else postData
    if postData.TaaOrFsr2OutSRV.IsEmpty then
      { postData with TaaOrFsr2OutSRV := .allocated none }
    else postData
  else postData

/-- `PostProcessor::UpdateDescriptors`; `none` when one of the two `Assert`s of
the FSR2 branch fails. -/
def UpdateDescriptors (app : App) (settings : RenderSettings) (postData : PostProcessPasses) :
    Option PostProcessPasses :=
  if settings.Fsr2 then
    -- Assert(upscaled.IsInitialized())
    if !postData.Fsr2PassIsInitialized then none
    -- Assert(!postData.TaaOrFsr2OutSRV.IsEmpty())
    else if postData.TaaOrFsr2OutSRV.IsEmpty then none
    else
      some { postData with
        TaaOrFsr2OutSRV := postData.TaaOrFsr2OutSRV.CreateTexture2DSRV .Fsr2Upscaled }
  else if settings.TAA then
    let outIdx := app.CurrOutIdx
    let taaOutIdx :=
      if outIdx = 0 then TAA_SHADER_OUT_RES.OUTPUT_B else TAA_SHADER_OUT_RES.OUTPUT_A
    some { postData with
      TaaOrFsr2OutSRV := postData.TaaOrFsr2OutSRV.CreateTexture2DSRV (.TaaOutput taaOutIdx) }
  else some postData

/-- `PostProcessor::Update`: `UpdatePasses`, `UpdateDescriptors`, then the
FINAL_LIGHTING binding of the final pass (the other descriptors `Update` sets are
not modelled).  `none` when an `Assert` of `UpdateDescriptors` fails. -/
def Update (app : App) (settings : RenderSettings) (data : PostProcessPasses) :
    Option PostProcessPasses :=
  let data := UpdatePasses settings data
  match UpdateDescriptors app settings data with
  | none => none
  | some data =>
    if settings.TAA then
      some { data with FinalLighting := some .TaaOrFsr2OutSRV }
    else if settings.Fsr2 then
      some { data with FinalLighting := some .TaaOrFsr2OutSRV }
    else
      some { data with FinalLighting := some .HdrLightAccumSRV }

end PostProcessor

/-! ## Scheduler: lemmas -/

namespace Scheduler

/-- Whatever `sortLoop` returns extends the passes emitted so far by an
arrangement of the remaining ones in which no pass is a predecessor of an
earlier one. -/
theorem sortLoop_some (adj : PassHandle → PassHandle → Bool) :
    ∀ (fuel : Nat) (remaining sorted out : List PassHandle),
      sortLoop adj fuel remaining sorted = some out →
      ∃ rest, out = sorted ++ rest ∧ rest.Perm remaining ∧
        rest.Pairwise (fun x y => adj y x = false) := by
  intro fuel
  induction fuel with
  | zero =>
    intro remaining sorted out h
    simp only [sortLoop] at h
    split at h
    · rename_i hemp
      have hnil : remaining = [] := by simpa using hemp
      refine ⟨[], ?_, ?_, List.Pairwise.nil⟩
      · simpa using (Option.some.inj h).symm
      · simp [hnil]
    · cases h
  | succ fuel ih =>
    intro remaining sorted out h
    simp only [sortLoop] at h
    split at h
    · rename_i p hp
      obtain ⟨rest, hout, hperm, hpw⟩ := ih _ _ _ h
      have hmem : p ∈ remaining := List.mem_of_find?_eq_some hp
      have hready : ready adj remaining p = true := List.find?_some hp
      refine ⟨p :: rest, ?_, ?_, ?_⟩
      · simp [hout]
      · exact (List.Perm.cons p hperm).trans (List.perm_cons_erase hmem).symm
      · refine List.Pairwise.cons ?_ hpw
        intro b hb
        have hb2 : b ∈ remaining := List.mem_of_mem_erase (hperm.subset hb)
        have := (List.all_eq_true.mp hready) b hb2
        simpa using this
    · split at h
      · rename_i hemp
        have hnil : remaining = [] := by simpa using hemp
        refine ⟨[], ?_, ?_, List.Pairwise.nil⟩
        · simpa using (Option.some.inj h).symm
        · simp [hnil]
      · cases h

/-- In an arrangement where no pass is a predecessor of an earlier one, a
predecessor comes first. -/
theorem indexOf_lt_of_pairwise (adj : PassHandle → PassHandle → Bool) (a b : PassHandle)
    (hab : adj a b = true) (hne : a ≠ b) :
    ∀ l : List PassHandle, l.Pairwise (fun x y => adj y x = false) → a ∈ l → b ∈ l →
      l.indexOf a < l.indexOf b := by
  intro l
  induction l with
  | nil => intro _ ha; cases ha
  | cons x l ih =>
    intro hpw ha hb
    rw [List.pairwise_cons] at hpw
    by_cases hxa : x = a
    · subst hxa
      rw [List.indexOf_cons_self, List.indexOf_cons_ne _ hne]
      exact Nat.succ_pos _
    · have ha2 : a ∈ l := by
        rcases List.mem_cons.mp ha with h | h
        · exact absurd h.symm hxa
        · exact h
      by_cases hxb : x = b
      · subst hxb
        have := hpw.1 a ha2
        rw [hab] at this
        cases this
      · have hb2 : b ∈ l := by
          rcases List.mem_cons.mp hb with h | h
          · exact absurd h.symm hxb
          · exact h
        rw [List.indexOf_cons_ne _ hxa, List.indexOf_cons_ne _ hxb]
        exact Nat.succ_lt_succ (ih hpw.2 ha2 hb2)

/-- A nonempty list of passes has a pass that no pass of the list reaches,
when no pass reaches itself. -/
theorem exists_minimal (T : PassHandle → PassHandle → Prop)
    (htrans : ∀ a b c, T a b → T b c → T a c) (hirr : ∀ a, ¬ T a a) :
    ∀ l : List PassHandle, l ≠ [] → ∃ m ∈ l, ∀ q ∈ l, ¬ T q m := by
  intro l
  induction l with
  | nil => intro h; exact absurd rfl h
  | cons a l ih =>
    intro _
    by_cases hl : l = []
    · subst hl
      refine ⟨a, List.mem_cons_self _ _, ?_⟩
      intro q hq
      have : q = a := by simpa using hq
      subst this
      exact hirr q
    · obtain ⟨m, hm, hmin⟩ := ih hl
      by_cases ham : T a m
      · refine ⟨a, List.mem_cons_self _ _, ?_⟩
        intro q hq
        rcases List.mem_cons.mp hq with h | h
        · subst h; exact hirr q
        · exact fun hqa => hmin q h (htrans _ _ _ hqa ham)
      · refine ⟨m, List.mem_cons_of_mem _ hm, ?_⟩
        intro q hq
        rcases List.mem_cons.mp hq with h | h
        · subst h; exact ham
        · exact hmin q h

/-- Without a cycle every nonempty list of passes has a ready pass. -/
theorem exists_ready (adj : PassHandle → PassHandle → Bool)
    (hacyc : ∀ p, ¬ Relation.TransGen (fun a b => adj a b = true) p p)
    (l : List PassHandle) (hl : l ≠ []) : ∃ p ∈ l, ready adj l p = true := by
  obtain ⟨m, hm, hmin⟩ := exists_minimal (Relation.TransGen (fun a b => adj a b = true))
    (fun _ _ _ h1 h2 => Relation.TransGen.trans h1 h2) hacyc l hl
  refine ⟨m, hm, ?_⟩
  unfold ready
  rw [List.all_eq_true]
  intro q hq
  have : ¬ adj q m = true := fun h => hmin q hq (Relation.TransGen.single h)
  simpa using this

/-- Without a cycle `sortLoop` returns an order when it has one round per
remaining pass. -/
theorem sortLoop_isSome (adj : PassHandle → PassHandle → Bool)
    (hacyc : ∀ p, ¬ Relation.TransGen (fun a b => adj a b = true) p p) :
    ∀ (fuel : Nat) (remaining sorted : List PassHandle), remaining.length = fuel →
      ∃ out, sortLoop adj fuel remaining sorted = some out := by
  intro fuel
  induction fuel with
  | zero =>
    intro remaining sorted hlen
    have hnil : remaining = [] := List.length_eq_zero.mp hlen
    exact ⟨sorted, by simp [sortLoop, hnil]⟩
  | succ fuel ih =>
    intro remaining sorted hlen
    have hne : remaining ≠ [] := by
      intro h; rw [h] at hlen; cases hlen
    obtain ⟨p, hp, hready⟩ := exists_ready adj hacyc remaining hne
    have hsome : (remaining.find? (ready adj remaining)).isSome = true :=
      List.find?_isSome.mpr ⟨p, hp, hready⟩
    obtain ⟨q, hq⟩ := Option.isSome_iff_exists.mp hsome
    have hqmem : q ∈ remaining := List.mem_of_find?_eq_some hq
    have hlen2 : (remaining.erase q).length = fuel := by
      rw [List.length_erase_of_mem hqmem, hlen]; rfl
    obtain ⟨out, hout⟩ := ih (remaining.erase q) (sorted ++ [q]) hlen2
    exact ⟨out, by simp only [sortLoop, hq]; exact hout⟩

end Scheduler

namespace DependencyGraph

variable {ρ : Type} [DecidableEq ρ]

/-- An output edge on a resource among the edges makes the resource produced. -/
theorem produced_of_mem (seen : List (Edge ρ)) (e : Edge ρ) (res : ρ) (he : e ∈ seen)
    (hres : e.res = res) (hdir : e.dir = Direction.output) : produced seen res = true := by
  unfold produced
  rw [List.any_eq_true]
  exact ⟨e, he, by simp [hres, hdir]⟩

/-- When a resource is not produced, every edge on it is an input. -/
theorem input_of_not_produced (seen : List (Edge ρ)) (res : ρ)
    (h : produced seen res = false) :
    ∀ e ∈ seen, e.res = res → e.dir = Direction.input := by
  intro e he hres
  cases hd : e.dir with
  | input => rfl
  | output => rw [produced_of_mem seen e res he hres hd] at h; cases h

/-- A resource without an output edge among the edges is not produced. -/
theorem not_produced (seen : List (Edge ρ)) (res : ρ)
    (h : ∀ e ∈ seen, e.dir = Direction.output → e.res ≠ res) : produced seen res = false := by
  cases hp : produced seen res with
  | false => rfl
  | true =>
    unfold produced at hp
    rw [List.any_eq_true] at hp
    obtain ⟨e, he, hh⟩ := hp
    simp only [Bool.and_eq_true, decide_eq_true_eq] at hh
    exact absurd hh.1 (h e he hh.2)

/-- A produced resource has a first output edge. -/
theorem exists_first_output (res : ρ) : ∀ es : List (Edge ρ), produced es res = true →
    ∃ pre e0 post, es = pre ++ e0 :: post ∧ e0.res = res ∧ e0.dir = Direction.output ∧
      produced pre res = false := by
  intro es
  induction es with
  | nil => intro h; simp [produced] at h
  | cons x rest ih =>
    intro h
    by_cases hx : x.res = res ∧ x.dir = Direction.output
    · exact ⟨[], x, rest, rfl, hx.1, hx.2, rfl⟩
    · have hrest : produced rest res = true := by
        unfold produced at h ⊢
        rw [List.any_cons, Bool.or_eq_true] at h
        rcases h with h | h
        · simp only [Bool.and_eq_true, decide_eq_true_eq] at h
          exact absurd h hx
        · exact h
      obtain ⟨pre, e0, post, hsplit, hres, hdir, hfirst⟩ := ih hrest
      refine ⟨x :: pre, e0, post, by rw [hsplit]; rfl, hres, hdir, ?_⟩
      unfold produced at hfirst ⊢
      rw [List.any_cons, hfirst, Bool.or_false]
      cases hd : (decide (x.res = res) && decide (x.dir = Direction.output)) with
      | false => rfl
      | true =>
        simp only [Bool.and_eq_true, decide_eq_true_eq] at hd
        exact absurd hd hx

/-- Adjacency over the rest of the edge list, spelled out: some edge of the rest
orders the two passes with an edge declared before it. -/
theorem adjacentFrom_iff (es : List (Edge ρ)) : ∀ (seen : List (Edge ρ)) (a b : PassHandle),
    adjacentFrom seen es a b = true ↔
      a ≠ b ∧ ∃ pre e2 post, es = pre ++ e2 :: post ∧
        ∃ e ∈ seen ++ pre, orders (seen ++ pre) e e2 a b = true := by
  induction es with
  | nil => intro seen a b; simp [adjacentFrom]
  | cons x rest ih =>
    intro seen a b
    simp only [adjacentFrom, Bool.or_eq_true, Bool.and_eq_true, decide_eq_true_eq,
      List.any_eq_true]
    rw [ih (seen ++ [x]) a b]
    constructor
    · rintro (⟨hne, e, he, h⟩ | ⟨hne, pre, e2, post, hsplit, e, he, h⟩)
      · exact ⟨hne, [], x, rest, rfl, e, by simpa using he, by simpa using h⟩
      · exact ⟨hne, x :: pre, e2, post, by rw [hsplit]; rfl, e, by simpa using he,
          by simpa using h⟩
    · rintro ⟨hne, pre, e2, post, hsplit, e, he, h⟩
      cases pre with
      | nil =>
        simp only [List.nil_append, List.cons.injEq] at hsplit
        obtain ⟨rfl, rfl⟩ := hsplit
        exact Or.inl ⟨hne, e, by simpa using he, by simpa using h⟩
      | cons y pre =>
        simp only [List.cons_append, List.cons.injEq] at hsplit
        obtain ⟨rfl, rfl⟩ := hsplit
        exact Or.inr ⟨hne, pre, e2, post, rfl, e, by simpa using he, by simpa using h⟩

/-- Adjacency spelled out: some edge orders the two passes with an edge declared
before it. -/
theorem adjacent_iff (es : List (Edge ρ)) (a b : PassHandle) :
    adjacent es a b = true ↔
      a ≠ b ∧ ∃ pre e2 post, es = pre ++ e2 :: post ∧
        ∃ e ∈ pre, orders pre e e2 a b = true := by
  unfold adjacent
  rw [adjacentFrom_iff]
  simp

/-- Adjacent passes are two different passes that both have an edge. -/
theorem adjacent_mem (es : List (Edge ρ)) (a b : PassHandle)
    (h : adjacent es a b = true) :
    a ≠ b ∧ (∃ e ∈ es, e.pass = a) ∧ (∃ e ∈ es, e.pass = b) := by
  obtain ⟨hne, pre, e2, post, hsplit, e, he, ho⟩ := (adjacent_iff es a b).mp h
  have hmem : e ∈ es := by rw [hsplit]; exact List.mem_append_left _ he
  have hmem2 : e2 ∈ es := by rw [hsplit]; simp
  unfold orders at ho
  cases hp : produced pre e2.res with
  | true =>
    simp only [hp, Bool.and_eq_true, decide_eq_true_eq] at ho
    exact ⟨hne, ⟨e, hmem, ho.2.1.1⟩, ⟨e2, hmem2, ho.2.1.2⟩⟩
  | false =>
    simp only [hp, Bool.and_eq_true, decide_eq_true_eq] at ho
    exact ⟨hne, ⟨e2, hmem2, ho.2.1.2⟩, ⟨e, hmem, ho.2.1.1⟩⟩

/-- An output edge of pass `a` followed, later in the flat edge list, by an edge
of another pass `b` on the same resource makes `b` adjacent to `a`. -/
theorem adjacent_of_append (pre mid post : List (Edge ρ)) (eq ep : Edge ρ)
    (hdir : eq.dir = Direction.output) (hres : ep.res = eq.res) (hne : eq.pass ≠ ep.pass) :
    adjacent (pre ++ eq :: (mid ++ ep :: post)) eq.pass ep.pass = true := by
  rw [adjacent_iff]
  refine ⟨hne, pre ++ eq :: mid, ep, post, by simp, eq, by simp, ?_⟩
  have hp : produced (pre ++ eq :: mid) eq.res = true :=
    produced_of_mem _ eq _ (by simp) rfl hdir
  simp [orders, hp, hres, hdir]

/-- An edge of pass `a` on a resource that has a producer, followed later in the
flat edge list by an output edge of another pass `b` on the same resource,
makes `b` adjacent to `a`. -/
theorem adjacent_of_later_output (pre mid post : List (Edge ρ)) (er ew : Edge ρ)
    (hdir : ew.dir = Direction.output) (hres : ew.res = er.res) (hne : er.pass ≠ ew.pass)
    (hp : produced (pre ++ er :: mid) ew.res = true) :
    adjacent (pre ++ er :: (mid ++ ew :: post)) er.pass ew.pass = true := by
  rw [adjacent_iff]
  refine ⟨hne, pre ++ er :: mid, ew, post, by simp, er, by simp, ?_⟩
  rw [hres] at hp
  simp [orders, hp, hres, hdir]

/-- The pass of the first output edge on a resource is adjacent to every other
pass that inputs the resource, whichever of the two edges was declared first. -/
theorem adjacent_of_first_output (pre post : List (Edge ρ)) (eo ei : Edge ρ)
    (hdo : eo.dir = Direction.output) (hfirst : produced pre eo.res = false)
    (hi : ei ∈ pre ++ eo :: post) (hdi : ei.dir = Direction.input) (hres : ei.res = eo.res)
    (hne : eo.pass ≠ ei.pass) :
    adjacent (pre ++ eo :: post) eo.pass ei.pass = true := by
  rcases List.mem_append.mp hi with h | h
  · rw [adjacent_iff]
    refine ⟨hne, pre, eo, post, rfl, ei, h, ?_⟩
    simp [orders, hfirst, hres, hdo]
  · rcases List.mem_cons.mp h with h | h
    · rw [h, hdo] at hdi; cases hdi
    · obtain ⟨p1, p2, hp⟩ := List.append_of_mem h
      rw [hp]
      have := adjacent_of_append pre p1 p2 eo ei hdo hres hne
      simpa using this

/-- The only pass that outputs a resource is adjacent to every other pass that
inputs it, whichever of the two edges was declared first. -/
theorem adjacent_of_sole_producer (es : List (Edge ρ)) (eo ei : Edge ρ)
    (ho : eo ∈ es) (hi : ei ∈ es) (hdo : eo.dir = Direction.output)
    (hdi : ei.dir = Direction.input) (hres : ei.res = eo.res) (hne : eo.pass ≠ ei.pass)
    (hsole : ∀ e ∈ es, e.dir = Direction.output → e.res = eo.res → e.pass = eo.pass) :
    adjacent es eo.pass ei.pass = true := by
  obtain ⟨pre, e0, post, hsplit, hres0, hdir0, hfirst⟩ :=
    exists_first_output eo.res es (produced_of_mem es eo _ ho rfl hdo)
  have hmem0 : e0 ∈ es := by rw [hsplit]; simp
  have hpass : e0.pass = eo.pass := hsole e0 hmem0 hdir0 hres0
  have h := adjacent_of_first_output pre post e0 ei hdir0 (by rw [hres0]; exact hfirst)
    (by rw [← hsplit]; exact hi) hdi (by rw [hres, hres0]) (by rw [hpass]; exact hne)
  rw [← hsplit, hpass] at h
  exact h

end DependencyGraph

namespace RenderGraph

variable {ρ : Type} [DecidableEq ρ]

/-- An order returned by `Build` lists the registered passes and puts every
pass after the passes it depends on. -/
theorem Build_some (rg : RenderGraph ρ) (order : List PassHandle)
    (h : rg.Build = some order) :
    order.Perm (List.range rg.passes.length) ∧
      ∀ a b, rg.DependsOn a b → Precedes order a b := by
  unfold Build at h
  split at h
  · rename_i hreg
    obtain ⟨rest, hout, hperm, hpw⟩ := Scheduler.sortLoop_some _ _ _ _ _ h
    have hout2 : order = rest := by simpa using hout
    subst hout2
    refine ⟨hperm, ?_⟩
    intro a b hab
    obtain ⟨hne, ⟨e1, he1, h1⟩, ⟨e2, he2, h2⟩⟩ := DependencyGraph.adjacent_mem _ _ _ hab
    have hall := List.all_eq_true.mp hreg
    have ha : a ∈ order := by
      apply hperm.symm.subset
      have := hall e1 he1
      rw [List.mem_range]
      simpa [h1] using this
    have hb : b ∈ order := by
      apply hperm.symm.subset
      have := hall e2 he2
      rw [List.mem_range]
      simpa [h2] using this
    exact ⟨ha, hb, Scheduler.indexOf_lt_of_pairwise _ a b hab hne order hpw ha hb⟩
  · cases h

/-- A dependency path is reflected by positions in a returned order. -/
theorem indexOf_lt_of_transGen (rg : RenderGraph ρ) (order : List PassHandle)
    (h : rg.Build = some order) (a b : PassHandle)
    (hab : Relation.TransGen (DependsOn rg) a b) : order.indexOf a < order.indexOf b := by
  induction hab with
  | single h1 => exact ((Build_some rg order h).2 _ _ h1).2.2
  | tail _ h2 ih => exact Nat.lt_trans ih ((Build_some rg order h).2 _ _ h2).2.2

/-- When every dependency goes from a lower to a higher handle there is no
cycle. -/
theorem not_cyclic_of_lt (rg : RenderGraph ρ)
    (h : ∀ a b, rg.DependsOn a b → a < b) : ¬ rg.Cyclic := by
  rintro ⟨p, hp⟩
  have key : ∀ a b, Relation.TransGen (DependsOn rg) a b → a < b := by
    intro a b hab
    induction hab with
    | single h1 => exact h _ _ h1
    | tail _ h2 ih => exact Nat.lt_trans ih (h _ _ h2)
  exact Nat.lt_irrefl _ (key p p hp)

/-- Dependencies go from lower to higher handles as soon as they do so among
the handles below a bound on the handles of all edges. -/
theorem dependsOn_lt_of_bounded (rg : RenderGraph ρ) (n : Nat)
    (hreg : ∀ e ∈ rg.edges, e.pass < n)
    (hchk : ∀ a < n, ∀ b < n, DependencyGraph.adjacent rg.edges a b = true → a < b) :
    ∀ a b, rg.DependsOn a b → a < b := by
  intro a b hab
  obtain ⟨_, ⟨e1, he1, h1⟩, ⟨e2, he2, h2⟩⟩ := DependencyGraph.adjacent_mem _ _ _ hab
  exact hchk a (h1 ▸ hreg e1 he1) b (h2 ▸ hreg e2 he2) hab

end RenderGraph

namespace RenderGraph

variable {ρ : Type} [DecidableEq ρ]

/-- A graph that `Build` orders has no cyclic dependency. -/
theorem not_cyclic_of_Build_some (rg : RenderGraph ρ) (order : List PassHandle)
    (h : rg.Build = some order) : ¬ rg.Cyclic := by
  rintro ⟨p, hp⟩
  exact absurd (indexOf_lt_of_transGen rg order h p p hp) (Nat.lt_irrefl _)

/-- Two passes each of which reads what only the other writes depend on each
other, in whatever order the four edges were declared. -/
theorem cyclic_of_mutual_dependency (rg : RenderGraph ρ) (P Q : PassHandle) (R1 R2 : ρ)
    (s1 s2 s3 s4 : D3D12_RESOURCE_STATES) (hne : P ≠ Q)
    (h1 : (⟨P, R1, s1, Direction.output⟩ : Edge ρ) ∈ rg.edges)
    (h2 : (⟨P, R2, s2, Direction.input⟩ : Edge ρ) ∈ rg.edges)
    (h3 : (⟨Q, R2, s3, Direction.output⟩ : Edge ρ) ∈ rg.edges)
    (h4 : (⟨Q, R1, s4, Direction.input⟩ : Edge ρ) ∈ rg.edges)
    (hsole1 : ∀ e ∈ rg.edges, e.dir = Direction.output → e.res = R1 → e.pass = P)
    (hsole2 : ∀ e ∈ rg.edges, e.dir = Direction.output → e.res = R2 → e.pass = Q) :
    rg.Cyclic := by
  have hPQ : rg.DependsOn P Q :=
    DependencyGraph.adjacent_of_sole_producer rg.edges _ _ h1 h4 rfl rfl rfl hne hsole1
  have hQP : rg.DependsOn Q P :=
    DependencyGraph.adjacent_of_sole_producer rg.edges _ _ h3 h2 rfl rfl rfl
      (fun h => hne h.symm) hsole2
  exact ⟨P, Relation.TransGen.tail (Relation.TransGen.single hPQ) hQP⟩

end RenderGraph

/-! ## Claims on Build -/

/-- C1: for every acyclic graph whose edges are declared on registered passes,
`Build` returns an order of the registered passes in which every pass comes
after the passes it depends on.  A pass with an edge on a resource declared
after an output edge of another pass on it (it reads or writes R after Q
produced R) comes after that pass.  Every pass that inputs a resource comes
after the pass of the first output edge declared on it, whichever of the two
edges was declared first (every input edge is satisfied by a preceding
producer).  A pass that outputs a resource which has a producer comes after the
other passes with an edge on it declared before that output (write-after-read
and write-after-write in order of declaration). -/
theorem Build_orders_producer_first {ρ : Type} [DecidableEq ρ] (rg : RenderGraph ρ)
    (hreg : rg.HandlesRegistered) (hacyc : ¬ rg.Cyclic) :
    ∃ order, rg.Build = some order ∧ order.Perm (List.range rg.passes.length) ∧
      (∀ Q P, rg.DependsOn Q P → Precedes order Q P) ∧
      (∀ (pre mid post : List (Edge ρ)) (eq ep : Edge ρ),
        rg.edges = pre ++ eq :: (mid ++ ep :: post) → eq.dir = Direction.output →
        ep.res = eq.res → eq.pass ≠ ep.pass → Precedes order eq.pass ep.pass) ∧
      (∀ (pre post : List (Edge ρ)) (eo ei : Edge ρ),
        rg.edges = pre ++ eo :: post → eo.dir = Direction.output →
        (∀ x ∈ pre, x.dir = Direction.output → x.res ≠ eo.res) →
        ei ∈ rg.edges → ei.dir = Direction.input → ei.res = eo.res → eo.pass ≠ ei.pass →
        Precedes order eo.pass ei.pass) ∧
      ∀ (pre mid post : List (Edge ρ)) (er ew : Edge ρ),
        rg.edges = pre ++ er :: (mid ++ ew :: post) → ew.dir = Direction.output →
        ew.res = er.res → er.pass ≠ ew.pass →
        (∃ x ∈ pre ++ er :: mid, x.dir = Direction.output ∧ x.res = ew.res) →
        Precedes order er.pass ew.pass := by
  have hall : rg.edges.all (fun e => decide (e.pass < rg.passes.length)) = true := by
    rw [List.all_eq_true]
    intro e he
    simpa using hreg e he
  have hac : ∀ p, ¬ Relation.TransGen
      (fun a b => DependencyGraph.adjacent rg.edges a b = true) p p :=
    fun p hp => hacyc ⟨p, hp⟩
  obtain ⟨out, hout⟩ := Scheduler.sortLoop_isSome _ hac rg.passes.length
    (List.range rg.passes.length) [] (List.length_range _)
  have hbuild : rg.Build = some out := by
    unfold RenderGraph.Build
    rw [if_pos hall]
    exact hout
  obtain ⟨hperm, hdep⟩ := RenderGraph.Build_some rg out hbuild
  refine ⟨out, hbuild, hperm, hdep, ?_, ?_, ?_⟩
  · intro pre mid post eq ep hes hdir hres hne
    apply hdep
    unfold RenderGraph.DependsOn
    rw [hes]
    exact DependencyGraph.adjacent_of_append pre mid post eq ep hdir hres hne
  · intro pre post eo ei hes hdo hfirst hi hdi hres hne
    apply hdep
    unfold RenderGraph.DependsOn
    rw [hes]
    exact DependencyGraph.adjacent_of_first_output pre post eo ei hdo
      (DependencyGraph.not_produced pre eo.res hfirst) (by rw [← hes]; exact hi) hdi hres hne
  · intro pre mid post er ew hes hdir hres hne hprod
    apply hdep
    unfold RenderGraph.DependsOn
    rw [hes]
    obtain ⟨x, hx, hxd, hxr⟩ := hprod
    exact DependencyGraph.adjacent_of_later_output pre mid post er ew hdir hres hne
      (DependencyGraph.produced_of_mem _ x _ hx hxr hxd)

/-- C1, three-pass scenario: A (outputs X), B (inputs X, outputs Y), C (inputs
and outputs Y).  Registered as A, B, C it is built in the order A, B, C; with
the passes registered as C, B, A (handles 0, 1, 2) it is acyclic as well and is
built in the order 2, 1, 0, which again is A, B, C.  A reader declared before
its producer is built after it, and a writer declared after a reader of a
produced resource is built after the reader. -/
theorem Build_orders_producer_first_witness :
    Scenario.threePass.Build = some [0, 1, 2] ∧
      Scenario.readerFirst.Build = some [1, 0] ∧
      Scenario.writeAfterRead.Build = some [2, 1, 0] ∧
      Scenario.threePassReversed.HandlesRegistered ∧ ¬ Scenario.threePassReversed.Cyclic ∧
      Scenario.threePassReversed.Build = some [2, 1, 0] ∧
      ∃ order, Scenario.threePassReversed.Build = some order ∧
        order.Perm (List.range Scenario.threePassReversed.passes.length) ∧
        (∀ Q P, Scenario.threePassReversed.DependsOn Q P → Precedes order Q P) ∧
        (∀ (pre mid post : List (Edge String)) (eq ep : Edge String),
          Scenario.threePassReversed.edges = pre ++ eq :: (mid ++ ep :: post) →
          eq.dir = Direction.output → ep.res = eq.res → eq.pass ≠ ep.pass →
          Precedes order eq.pass ep.pass) ∧
        (∀ (pre post : List (Edge String)) (eo ei : Edge String),
          Scenario.threePassReversed.edges = pre ++ eo :: post →
          eo.dir = Direction.output →
          (∀ x ∈ pre, x.dir = Direction.output → x.res ≠ eo.res) →
          ei ∈ Scenario.threePassReversed.edges → ei.dir = Direction.input →
          ei.res = eo.res → eo.pass ≠ ei.pass → Precedes order eo.pass ei.pass) ∧
        ∀ (pre mid post : List (Edge String)) (er ew : Edge String),
          Scenario.threePassReversed.edges = pre ++ er :: (mid ++ ew :: post) →
          ew.dir = Direction.output → ew.res = er.res → er.pass ≠ ew.pass →
          (∃ x ∈ pre ++ er :: mid, x.dir = Direction.output ∧ x.res = ew.res) →
          Precedes order er.pass ew.pass :=
  have hreg : Scenario.threePassReversed.HandlesRegistered := by
    unfold RenderGraph.HandlesRegistered; decide
  have hbuild : Scenario.threePassReversed.Build = some [2, 1, 0] := by decide
  have hacyc : ¬ Scenario.threePassReversed.Cyclic :=
    RenderGraph.not_cyclic_of_Build_some _ _ hbuild
  ⟨by decide, by decide, by decide, hreg, hacyc, hbuild,
    Build_orders_producer_first Scenario.threePassReversed hreg hacyc⟩

/-- C2: for every graph with a cyclic dependency `Build` fails: it returns no
execution order.  In particular, when a pass P writes R1 and reads R2 while
another pass Q writes R2 and reads R1, P being the only pass that writes R1 and
Q the only pass that writes R2, the dependency is cyclic and `Build` fails, in
whatever order the edges were declared. -/
theorem Build_fails_on_cycle {ρ : Type} [DecidableEq ρ] (rg : RenderGraph ρ) :
    (rg.Cyclic → rg.Build = none) ∧
    ∀ (P Q : PassHandle) (R1 R2 : ρ) (s1 s2 s3 s4 : D3D12_RESOURCE_STATES), P ≠ Q →
      (⟨P, R1, s1, Direction.output⟩ : Edge ρ) ∈ rg.edges →
      (⟨P, R2, s2, Direction.input⟩ : Edge ρ) ∈ rg.edges →
      (⟨Q, R2, s3, Direction.output⟩ : Edge ρ) ∈ rg.edges →
      (⟨Q, R1, s4, Direction.input⟩ : Edge ρ) ∈ rg.edges →
      (∀ e ∈ rg.edges, e.dir = Direction.output → e.res = R1 → e.pass = P) →
      (∀ e ∈ rg.edges, e.dir = Direction.output → e.res = R2 → e.pass = Q) →
      rg.Cyclic ∧ rg.Build = none := by
  have key : rg.Cyclic → rg.Build = none := by
    rintro ⟨p, hp⟩
    cases h : rg.Build with
    | none => rfl
    | some order =>
      exact absurd (RenderGraph.indexOf_lt_of_transGen rg order h p p hp) (Nat.lt_irrefl _)
  refine ⟨key, ?_⟩
  intro P Q R1 R2 s1 s2 s3 s4 hne h1 h2 h3 h4 hs1 hs2
  have hc := RenderGraph.cyclic_of_mutual_dependency rg P Q R1 R2 s1 s2 s3 s4 hne h1 h2 h3 h4
    hs1 hs2
  exact ⟨hc, key hc⟩

/-- C2, the scenario of two passes P and Q where P writes R1 and reads R2 while Q
writes R2 and reads R1: declared pass by pass, or with both writes declared
before both reads, the dependency is cyclic and `Build` returns no order. -/
theorem Build_fails_on_cycle_witness :
    (Scenario.cyclicPair.Cyclic ∧ Scenario.cyclicPair.Build = none) ∧
      Scenario.cyclicPairWritesFirst.Build = none :=
  ⟨(Build_fails_on_cycle Scenario.cyclicPair).2 0 1 "R1" "R2" .UNORDERED_ACCESS
      .ALL_SHADER_RESOURCE .UNORDERED_ACCESS .ALL_SHADER_RESOURCE (by decide)
      (by decide) (by decide) (by decide) (by decide) (by decide) (by decide),
    by decide⟩

/-! ## BarrierSynthesizer: lemmas -/

namespace ResourceTable

variable {ρ : Type} [DecidableEq ρ]

/-- The entry found for an identifier carries that identifier. -/
theorem entry_id (tbl : ResourceTable ρ) (id : ρ) (r : FrameResource ρ)
    (h : tbl.entry id = some r) : r.id = id := by
  have := List.find?_some h
  simpa using this

/-- `SetState` changes the state of the entries of one identifier and nothing
else. -/
theorem entry_SetState (tbl : ResourceTable ρ) (id id2 : ρ) (st : D3D12_RESOURCE_STATES) :
    (tbl.SetState id st).entry id2 =
      (tbl.entry id2).map (fun r => if r.id = id then { r with state := st } else r) := by
  unfold SetState entry
  rw [List.find?_map]
  congr 1
  congr 1
  funext r
  by_cases h : r.id = id <;> simp [h]

end ResourceTable

namespace BarrierSynthesizer

variable {ρ : Type} [DecidableEq ρ]

/-- The step for an edge on a registered resource: the table afterwards and the
barriers, spelled out. -/
theorem edge_of_entry (tbl : ResourceTable ρ) (e : Edge ρ) (r : FrameResource ρ)
    (h : tbl.entry e.res = some r) :
    ∃ tbl1 bs, edge tbl e = some (tbl1, bs) ∧
      tbl1.entry e.res = some { r with state := e.state } ∧
      (∀ id, id ≠ e.res → tbl1.entry id = tbl.entry id) ∧
      (r.state ≠ e.state →
        bs = if r.handle.isSome then [Barrier.Transition e.res r.state e.state] else []) ∧
      (r.state = e.state → e.state = D3D12_RESOURCE_STATES.UNORDERED_ACCESS →
        bs = if r.handle.isSome then [Barrier.UAV e.res] else []) ∧
      (r.state = e.state → e.state ≠ D3D12_RESOURCE_STATES.UNORDERED_ACCESS → bs = []) := by
  have hid := ResourceTable.entry_id tbl e.res r h
  by_cases hst : r.state = e.state
  · by_cases huav : e.state = D3D12_RESOURCE_STATES.UNORDERED_ACCESS
    · refine ⟨tbl, if r.handle.isSome then [Barrier.UAV e.res] else [],
        by simp [edge, h, hst, huav], ?_, fun _ _ => rfl, ?_, ?_, ?_⟩
      · rw [h, ← hst]
      · intro hne; exact absurd hst hne
      · intro _ _; rfl
      · intro _ hne; exact absurd huav hne
    · refine ⟨tbl, [], by simp [edge, h, hst, huav], ?_, fun _ _ => rfl, ?_, ?_, ?_⟩
      · rw [h, ← hst]
      · intro hne; exact absurd hst hne
      · intro _ hu; exact absurd hu huav
      · intro _ _; rfl
  · refine ⟨tbl.SetState e.res e.state,
      if r.handle.isSome then [Barrier.Transition e.res r.state e.state] else [],
      by simp [edge, h, hst], ?_, ?_, ?_, ?_, ?_⟩
    · rw [ResourceTable.entry_SetState, h]; simp [hid]
    · intro id hne
      rw [ResourceTable.entry_SetState]
      cases hent : tbl.entry id with
      | none => rfl
      | some r2 =>
        have := ResourceTable.entry_id tbl id r2 hent
        simp [this, hne]
    · intro _; rfl
    · intro h1; exact absurd h1 hst
    · intro h1; exact absurd h1 hst

/-- The step for an edge keeps every resource registered, and counts: at most
one transition of a resource, none for another resource than the edge's, none
when the recorded state already is the required one. -/
theorem edge_facts (tbl : ResourceTable ρ) (e : Edge ρ) (r : FrameResource ρ)
    (h : tbl.entry e.res = some r) (R : ρ) :
    ∃ tbl1 bs, edge tbl e = some (tbl1, bs) ∧
      tbl1.entry e.res = some { r with state := e.state } ∧
      (∀ id, id ≠ e.res → tbl1.entry id = tbl.entry id) ∧
      (∀ id, (tbl1.entry id).isSome = (tbl.entry id).isSome) ∧
      bs.countP (isTransitionOf R) ≤ 1 ∧
      (e.res ≠ R → bs.countP (isTransitionOf R) = 0 ∧ Barrier.UAV R ∉ bs) ∧
      (r.state = e.state → bs.countP (isTransitionOf R) = 0) ∧
      (r.state = e.state → e.state = D3D12_RESOURCE_STATES.UNORDERED_ACCESS →
        r.handle.isSome = true → bs = [Barrier.UAV e.res]) := by
  obtain ⟨tbl1, bs, hedge, hsame, hother, h1, h2, h3⟩ := edge_of_entry tbl e r h
  refine ⟨tbl1, bs, hedge, hsame, hother, ?_, ?_, ?_, ?_,
    fun hst huav hh => by rw [h2 hst huav, if_pos hh]⟩
  · intro id
    by_cases hid : id = e.res
    · subst hid; rw [hsame, h]; rfl
    · rw [hother id hid]
  · by_cases hst : r.state = e.state
    · by_cases huav : e.state = D3D12_RESOURCE_STATES.UNORDERED_ACCESS
      · rw [h2 hst huav]; split <;> simp [isTransitionOf]
      · rw [h3 hst huav]; simp
    · rw [h1 hst]; split
      · by_cases hR : e.res = R <;> simp [isTransitionOf, hR]
      · simp
  · intro hR
    by_cases hst : r.state = e.state
    · by_cases huav : e.state = D3D12_RESOURCE_STATES.UNORDERED_ACCESS
      · rw [h2 hst huav]; split
        · simp [isTransitionOf]; exact fun hh => hR hh.symm
        · simp
      · rw [h3 hst huav]; simp
    · rw [h1 hst]; split <;> simp [isTransitionOf, hR]
  · intro hst
    by_cases huav : e.state = D3D12_RESOURCE_STATES.UNORDERED_ACCESS
    · rw [h2 hst huav]; split <;> simp [isTransitionOf]
    · rw [h3 hst huav]; simp

/-- Consumers of one state: when every edge on `R` in a sequence requires the
state `S`, the sequence emits at most one transition of `R`, none when `R`
already is in state `S`, and leaves `R` in state `S` once it has an edge on it. -/
theorem edges_same_state (R : ρ) (S : D3D12_RESOURCE_STATES) :
    ∀ (es : List (Edge ρ)) (tbl : ResourceTable ρ),
      (∀ e ∈ es, (tbl.entry e.res).isSome = true) →
      (∀ e ∈ es, e.res = R → e.state = S) →
      ∃ tbl1 bs, edges tbl es = some (tbl1, bs) ∧
        (∀ id, (tbl1.entry id).isSome = (tbl.entry id).isSome) ∧
        bs.countP (isTransitionOf R) ≤ 1 ∧
        (tbl.CurrentState R = some S →
          bs.countP (isTransitionOf R) = 0 ∧ tbl1.CurrentState R = some S) ∧
        ((∃ e ∈ es, e.res = R) → tbl1.CurrentState R = some S) := by
  intro es
  induction es with
  | nil =>
    intro tbl _ _
    exact ⟨tbl, [], rfl, fun _ => rfl, by simp, fun h => ⟨by simp, h⟩, by simp⟩
  | cons e es ih =>
    intro tbl hreg hsame
    obtain ⟨r, hr⟩ := Option.isSome_iff_exists.mp (hreg e (List.mem_cons_self _ _))
    obtain ⟨tbl1, b1, hedge, hent, hother, hsome1, hle1, hne1, heq1, _⟩ := edge_facts tbl e r hr R
    have hreg1 : ∀ e2 ∈ es, (tbl1.entry e2.res).isSome = true := by
      intro e2 he2
      rw [hsome1]
      exact hreg e2 (List.mem_cons_of_mem _ he2)
    have hsame1 : ∀ e2 ∈ es, e2.res = R → e2.state = S :=
      fun e2 he2 => hsame e2 (List.mem_cons_of_mem _ he2)
    obtain ⟨tbl2, b2, hedges, hsome2, hle2, hcur2, hex2⟩ := ih tbl1 hreg1 hsame1
    refine ⟨tbl2, b1 ++ b2, by simp [edges, hedge, hedges], ?_, ?_, ?_, ?_⟩
    · intro id; rw [hsome2, hsome1]
    · rw [List.countP_append]
      by_cases hR : e.res = R
      · have hS : e.state = S := hsame e (List.mem_cons_self _ _) hR
        have hcur1 : tbl1.CurrentState R = some S := by
          unfold ResourceTable.CurrentState
          rw [← hR, hent, ← hS]; rfl
        have := (hcur2 hcur1).1
        omega
      · have := (hne1 hR).1
        omega
    · intro hcur
      by_cases hR : e.res = R
      · have hS : e.state = S := hsame e (List.mem_cons_self _ _) hR
        have hcur1 : tbl1.CurrentState R = some S := by
          unfold ResourceTable.CurrentState
          rw [← hR, hent, ← hS]; rfl
        have hrS : r.state = e.state := by
          unfold ResourceTable.CurrentState at hcur
          rw [← hR, hr] at hcur
          simpa [hS] using hcur
        rw [List.countP_append, heq1 hrS, (hcur2 hcur1).1]
        exact ⟨rfl, (hcur2 hcur1).2⟩
      · have hcur1 : tbl1.CurrentState R = some S := by
          unfold ResourceTable.CurrentState
          rw [hother R (fun hh => hR hh.symm)]
          exact hcur
        rw [List.countP_append, (hne1 hR).1, (hcur2 hcur1).1]
        exact ⟨rfl, (hcur2 hcur1).2⟩
    · rintro ⟨e2, he2, hres2⟩
      by_cases hR : e.res = R
      · have hS : e.state = S := hsame e (List.mem_cons_self _ _) hR
        have hcur1 : tbl1.CurrentState R = some S := by
          unfold ResourceTable.CurrentState
          rw [← hR, hent, ← hS]; rfl
        exact (hcur2 hcur1).2
      · rcases List.mem_cons.mp he2 with h | h
        · subst h; exact absurd hres2 hR
        · exact hex2 ⟨e2, h, hres2⟩

/-- Passes that use `R` in the state it already has: barrier synthesis runs
through, pairs every pass with its batch and emits no transition of `R`. -/
theorem run_same_state (es : List (Edge ρ)) (R : ρ) (S : D3D12_RESOURCE_STATES) :
    ∀ (ps : List PassHandle) (tbl : ResourceTable ρ),
      (∀ p ∈ ps, ∀ e ∈ passEdges es p, (tbl.entry e.res).isSome = true) →
      (∀ p ∈ ps, ∀ e ∈ passEdges es p, e.res = R → e.state = S) →
      tbl.CurrentState R = some S →
      ∃ tbl1 out, run es tbl ps = some (tbl1, out) ∧ out.map Prod.fst = ps ∧
        (∀ pb ∈ out, pb.2.countP (isTransitionOf R) = 0) ∧
        tbl1.CurrentState R = some S := by
  intro ps
  induction ps with
  | nil =>
    intro tbl _ _ hcur
    exact ⟨tbl, [], rfl, rfl, by simp, hcur⟩
  | cons p ps ih =>
    intro tbl hreg hsame hcur
    obtain ⟨tbl1, b, hedges, hsome1, _, hcur1, _⟩ :=
      edges_same_state R S (passEdges es p) tbl (hreg p (List.mem_cons_self _ _))
        (hsame p (List.mem_cons_self _ _))
    have hreg1 : ∀ q ∈ ps, ∀ e ∈ passEdges es q, (tbl1.entry e.res).isSome = true := by
      intro q hq e he
      rw [hsome1]
      exact hreg q (List.mem_cons_of_mem _ hq) e he
    obtain ⟨tbl2, out, hrun, hmap, hzero, hcur2⟩ :=
      ih tbl1 hreg1 (fun q hq => hsame q (List.mem_cons_of_mem _ hq)) (hcur1 hcur).2
    refine ⟨tbl2, (p, b) :: out, by simp [run, hedges, hrun], by simp [hmap], ?_, hcur2⟩
    intro pb hpb
    rcases List.mem_cons.mp hpb with h | h
    · subst h; exact (hcur1 hcur).1
    · exact hzero pb h

end BarrierSynthesizer

namespace BarrierSynthesizer

variable {ρ : Type} [DecidableEq ρ]

/-- Edges on a resource with storage that is recorded as unordered-access and
only used as unordered-access: the entry stays as it is and an edge on the
resource puts a UAV barrier into the batch. -/
theorem edges_uav (R : ρ) (r : FrameResource ρ) (hhandle : r.handle.isSome = true)
    (hstate : r.state = D3D12_RESOURCE_STATES.UNORDERED_ACCESS) :
    ∀ (es : List (Edge ρ)) (tbl : ResourceTable ρ),
      (∀ e ∈ es, (tbl.entry e.res).isSome = true) →
      (∀ e ∈ es, e.res = R → e.state = D3D12_RESOURCE_STATES.UNORDERED_ACCESS) →
      tbl.entry R = some r →
      ∃ tbl1 bs, edges tbl es = some (tbl1, bs) ∧
        (∀ id, (tbl1.entry id).isSome = (tbl.entry id).isSome) ∧
        tbl1.entry R = some r ∧
        ((∃ e ∈ es, e.res = R) → Barrier.UAV R ∈ bs) := by
  intro es
  induction es with
  | nil =>
    intro tbl _ _ hent
    exact ⟨tbl, [], rfl, fun _ => rfl, hent, by simp⟩
  | cons e es ih =>
    intro tbl hreg huav hent
    obtain ⟨r2, hr2⟩ := Option.isSome_iff_exists.mp (hreg e (List.mem_cons_self _ _))
    obtain ⟨tbl1, b1, hedge, hsame, hother, hsome1, _, _, _, hb1⟩ := edge_facts tbl e r2 hr2 R
    have hent1 : tbl1.entry R = some r := by
      by_cases hR : e.res = R
      · have hS := huav e (List.mem_cons_self _ _) hR
        have hrr : r2 = r := by
          rw [hR, hent] at hr2
          exact (Option.some.inj hr2).symm
        rw [← hR, hsame, hrr, hS, ← hstate]
      · rw [hother R (fun hh => hR hh.symm)]
        exact hent
    have hreg1 : ∀ e2 ∈ es, (tbl1.entry e2.res).isSome = true := by
      intro e2 he2
      rw [hsome1]
      exact hreg e2 (List.mem_cons_of_mem _ he2)
    obtain ⟨tbl2, b2, hedges, hsome2, hent2, hex2⟩ :=
      ih tbl1 hreg1 (fun e2 he2 => huav e2 (List.mem_cons_of_mem _ he2)) hent1
    refine ⟨tbl2, b1 ++ b2, by simp [edges, hedge, hedges], ?_, hent2, ?_⟩
    · intro id; rw [hsome2, hsome1]
    · rintro ⟨e2, he2, hres2⟩
      rw [List.mem_append]
      rcases List.mem_cons.mp he2 with h | h
      · subst h
        have hS := huav e2 (List.mem_cons_self _ _) hres2
        have hrr : r2 = r := by
          rw [hres2, hent] at hr2
          exact (Option.some.inj hr2).symm
        left
        rw [hb1 (by rw [hrr, hstate, hS]) hS (by rw [hrr]; exact hhandle), hres2]
        exact List.mem_singleton.mpr rfl
      · exact Or.inr (hex2 ⟨e2, h, hres2⟩)

/-- Passes over a resource with storage that is recorded as unordered-access
and only used as unordered-access: the entry stays as it is and every pass with
an edge on it gets a UAV barrier in its batch. -/
theorem run_uav (es : List (Edge ρ)) (R : ρ) (r : FrameResource ρ)
    (hhandle : r.handle.isSome = true)
    (hstate : r.state = D3D12_RESOURCE_STATES.UNORDERED_ACCESS) :
    ∀ (ps : List PassHandle) (tbl : ResourceTable ρ),
      (∀ p ∈ ps, ∀ e ∈ passEdges es p, (tbl.entry e.res).isSome = true) →
      (∀ p ∈ ps, ∀ e ∈ passEdges es p, e.res = R →
        e.state = D3D12_RESOURCE_STATES.UNORDERED_ACCESS) →
      tbl.entry R = some r →
      ∃ tbl1 out, run es tbl ps = some (tbl1, out) ∧ out.map Prod.fst = ps ∧
        (∀ id, (tbl1.entry id).isSome = (tbl.entry id).isSome) ∧
        tbl1.entry R = some r ∧
        ∀ pb ∈ out, (∃ e ∈ passEdges es pb.1, e.res = R) → Barrier.UAV R ∈ pb.2 := by
  intro ps
  induction ps with
  | nil =>
    intro tbl _ _ hent
    exact ⟨tbl, [], rfl, rfl, fun _ => rfl, hent, by simp⟩
  | cons p ps ih =>
    intro tbl hreg huav hent
    obtain ⟨tbl1, b, hedges, hsome1, hent1, hex1⟩ :=
      edges_uav R r hhandle hstate (passEdges es p) tbl (hreg p (List.mem_cons_self _ _))
        (huav p (List.mem_cons_self _ _)) hent
    have hreg1 : ∀ q ∈ ps, ∀ e ∈ passEdges es q, (tbl1.entry e.res).isSome = true := by
      intro q hq e he
      rw [hsome1]
      exact hreg q (List.mem_cons_of_mem _ hq) e he
    obtain ⟨tbl2, out, hrun, hmap, hsome2, hent2, hout⟩ :=
      ih tbl1 hreg1 (fun q hq => huav q (List.mem_cons_of_mem _ hq)) hent1
    refine ⟨tbl2, (p, b) :: out, by simp [run, hedges, hrun], by simp [hmap], ?_, hent2, ?_⟩
    · intro id; rw [hsome2, hsome1]
    · intro pb hpb
      rcases List.mem_cons.mp hpb with h | h
      · subst h; exact hex1
      · exact hout pb h

end BarrierSynthesizer

namespace BarrierSynthesizer

variable {ρ : Type} [DecidableEq ρ]

/-- Two sequences of edges processed one after the other. -/
theorem edges_append_some (xs ys : List (Edge ρ)) :
    ∀ (tbl t1 t2 : ResourceTable ρ) (b1 b2 : List (Barrier ρ)),
      edges tbl xs = some (t1, b1) → edges t1 ys = some (t2, b2) →
      edges tbl (xs ++ ys) = some (t2, b1 ++ b2) := by
  induction xs with
  | nil =>
    intro tbl t1 t2 b1 b2 h1 h2
    simp only [edges, Option.some.injEq, Prod.mk.injEq] at h1
    obtain ⟨rfl, rfl⟩ := h1
    simpa using h2
  | cons x xs ih =>
    intro tbl t1 t2 b1 b2 h1 h2
    simp only [edges] at h1
    cases hx : edge tbl x with
    | none => simp [hx] at h1
    | some p =>
      obtain ⟨ta, ba⟩ := p
      rw [hx] at h1
      cases hxs : edges ta xs with
      | none => simp [hxs] at h1
      | some q =>
        obtain ⟨tb, bb⟩ := q
        simp only [hxs, Option.some.injEq, Prod.mk.injEq] at h1
        obtain ⟨rfl, rfl⟩ := h1
        simp [edges, hx, ih ta tb t2 bb b2 hxs h2]

/-- Two lists of passes processed one after the other. -/
theorem run_append_some (es : List (Edge ρ)) (ps qs : List PassHandle) :
    ∀ (tbl t1 t2 : ResourceTable ρ) (o1 o2 : List (PassHandle × List (Barrier ρ))),
      run es tbl ps = some (t1, o1) → run es t1 qs = some (t2, o2) →
      run es tbl (ps ++ qs) = some (t2, o1 ++ o2) := by
  induction ps with
  | nil =>
    intro tbl t1 t2 o1 o2 h1 h2
    simp only [run, Option.some.injEq, Prod.mk.injEq] at h1
    obtain ⟨rfl, rfl⟩ := h1
    simpa using h2
  | cons p ps ih =>
    intro tbl t1 t2 o1 o2 h1 h2
    simp only [run] at h1
    cases hx : edges tbl (passEdges es p) with
    | none => simp [hx] at h1
    | some w =>
      obtain ⟨ta, ba⟩ := w
      rw [hx] at h1
      cases hxs : run es ta ps with
      | none => simp [hxs] at h1
      | some q =>
        obtain ⟨tb, ob⟩ := q
        simp only [hxs, Option.some.injEq, Prod.mk.injEq] at h1
        obtain ⟨rfl, rfl⟩ := h1
        simp [run, hx, ih ta tb t2 ob o2 hxs h2]

/-- A sequence of edges on registered resources is processed to the end; the
entries keep their identifier and handle, an entry without an edge on it is
untouched, and the state recorded for a resource is the one required by the
last edge on it. -/
theorem edges_total : ∀ (es : List (Edge ρ)) (tbl : ResourceTable ρ),
    (∀ e ∈ es, (tbl.entry e.res).isSome = true) →
    ∃ tbl1 bs, edges tbl es = some (tbl1, bs) ∧
      (∀ id, (tbl1.entry id).isSome = (tbl.entry id).isSome) ∧
      (∀ id r, tbl.entry id = some r → ∃ st, tbl1.entry id = some { r with state := st }) ∧
      (∀ id, (∀ e ∈ es, e.res ≠ id) → tbl1.entry id = tbl.entry id) ∧
      (∀ p0 e0 mid, es = p0 ++ e0 :: mid → (∀ m ∈ mid, m.res ≠ e0.res) →
        tbl1.CurrentState e0.res = some e0.state) := by
  intro es
  induction es with
  | nil =>
    intro tbl _
    refine ⟨tbl, [], rfl, fun _ => rfl, fun id r h => ⟨r.state, h⟩, fun _ _ => rfl, ?_⟩
    intro p0 e0 mid h
    simp at h
  | cons e es ih =>
    intro tbl hreg
    obtain ⟨r, hr⟩ := Option.isSome_iff_exists.mp (hreg e (List.mem_cons_self _ _))
    obtain ⟨tbl1, b1, hedge, hent, hother, hsome1, _⟩ := edge_facts tbl e r hr e.res
    have hreg1 : ∀ e2 ∈ es, (tbl1.entry e2.res).isSome = true := by
      intro e2 he2
      rw [hsome1]
      exact hreg e2 (List.mem_cons_of_mem _ he2)
    obtain ⟨tbl2, b2, hedges, hsome2, hkeep2, hun2, hlast2⟩ := ih tbl1 hreg1
    refine ⟨tbl2, b1 ++ b2, by simp [edges, hedge, hedges], ?_, ?_, ?_, ?_⟩
    · intro id; rw [hsome2, hsome1]
    · intro id r0 h0
      by_cases hid : id = e.res
      · rw [hid, hr] at h0
        obtain rfl := Option.some.inj h0
        obtain ⟨st, hst⟩ := hkeep2 e.res _ hent
        exact ⟨st, by rw [hid]; exact hst⟩
      · exact hkeep2 id r0 (by rw [hother id hid]; exact h0)
    · intro id hno
      rw [hun2 id (fun e2 he2 => hno e2 (List.mem_cons_of_mem _ he2)),
        hother id (fun h => hno e (List.mem_cons_self _ _) h.symm)]
    · intro p0 e0 mid hsplit hmid
      cases p0 with
      | nil =>
        simp only [List.nil_append, List.cons.injEq] at hsplit
        obtain ⟨rfl, rfl⟩ := hsplit
        unfold ResourceTable.CurrentState
        rw [hun2 e.res hmid, hent]
        rfl
      | cons x p1 =>
        simp only [List.cons_append, List.cons.injEq] at hsplit
        obtain ⟨rfl, rfl⟩ := hsplit
        exact hlast2 p1 e0 mid rfl hmid

/-- A list of passes whose edges are on registered resources is processed to the
end, one batch per pass; the entries keep their identifier and handle. -/
theorem run_total (es : List (Edge ρ)) : ∀ (ps : List PassHandle) (tbl : ResourceTable ρ),
    (∀ p ∈ ps, ∀ e ∈ passEdges es p, (tbl.entry e.res).isSome = true) →
    ∃ tbl1 out, run es tbl ps = some (tbl1, out) ∧ out.map Prod.fst = ps ∧
      (∀ id, (tbl1.entry id).isSome = (tbl.entry id).isSome) ∧
      (∀ id r, tbl.entry id = some r → ∃ st, tbl1.entry id = some { r with state := st }) := by
  intro ps
  induction ps with
  | nil =>
    intro tbl _
    exact ⟨tbl, [], rfl, rfl, fun _ => rfl, fun id r h => ⟨r.state, h⟩⟩
  | cons p ps ih =>
    intro tbl hreg
    obtain ⟨tbl1, b, hedges, hsome1, hkeep1, _, _⟩ :=
      edges_total (passEdges es p) tbl (hreg p (List.mem_cons_self _ _))
    have hreg1 : ∀ q ∈ ps, ∀ e ∈ passEdges es q, (tbl1.entry e.res).isSome = true := by
      intro q hq e he
      rw [hsome1]
      exact hreg q (List.mem_cons_of_mem _ hq) e he
    obtain ⟨tbl2, out, hrun, hmap, hsome2, hkeep2⟩ := ih tbl1 hreg1
    refine ⟨tbl2, (p, b) :: out, by simp [run, hedges, hrun], by simp [hmap], ?_, ?_⟩
    · intro id; rw [hsome2, hsome1]
    · intro id r h
      obtain ⟨st1, h1⟩ := hkeep1 id r h
      obtain ⟨st2, h2⟩ := hkeep2 id _ h1
      exact ⟨st2, h2⟩

/-- Edges over a synthetic resource (null handle): no barrier on it, neither a
transition nor a UAV barrier. -/
theorem edges_synthetic (R : ρ) : ∀ (es : List (Edge ρ)) (tbl : ResourceTable ρ)
    (r : FrameResource ρ),
    (∀ e ∈ es, (tbl.entry e.res).isSome = true) →
    tbl.entry R = some r → r.handle = none →
    ∃ tbl1 bs st, edges tbl es = some (tbl1, bs) ∧
      (∀ id, (tbl1.entry id).isSome = (tbl.entry id).isSome) ∧
      tbl1.entry R = some { r with state := st } ∧
      Barrier.UAV R ∉ bs ∧ bs.countP (isTransitionOf R) = 0 := by
  intro es
  induction es with
  | nil =>
    intro tbl r _ hent _
    exact ⟨tbl, [], r.state, rfl, fun _ => rfl, hent, by simp, by simp⟩
  | cons e es ih =>
    intro tbl r hreg hent hnull
    obtain ⟨r2, hr2⟩ := Option.isSome_iff_exists.mp (hreg e (List.mem_cons_self _ _))
    obtain ⟨tbl1, b1, hedge, hsame, hother, h1, h2, h3⟩ := edge_of_entry tbl e r2 hr2
    obtain ⟨tbl1b, b1b, hedgeb, _, _, hsome1, _, hne1, _, _⟩ := edge_facts tbl e r2 hr2 R
    have heq : (tbl1, b1) = (tbl1b, b1b) := Option.some.inj (hedge.symm.trans hedgeb)
    obtain ⟨ht, hb⟩ := Prod.mk.inj heq
    subst ht; subst hb
    have hfree : Barrier.UAV R ∉ b1 ∧ b1.countP (isTransitionOf R) = 0 := by
      by_cases hR : e.res = R
      · have hrr : r2 = r := by
          rw [hR, hent] at hr2
          exact (Option.some.inj hr2).symm
        have hno : r2.handle.isSome = false := by rw [hrr, hnull]; rfl
        have hnil : b1 = [] := by
          by_cases hst : r2.state = e.state
          · by_cases huav : e.state = D3D12_RESOURCE_STATES.UNORDERED_ACCESS
            · rw [h2 hst huav, hno]; rfl
            · exact h3 hst huav
          · rw [h1 hst, hno]; rfl
        rw [hnil]; simp
      · exact ⟨(hne1 hR).2, (hne1 hR).1⟩
    have hent1 : ∃ st, tbl1.entry R = some { r with state := st } := by
      by_cases hR : e.res = R
      · have hrr : r2 = r := by
          rw [hR, hent] at hr2
          exact (Option.some.inj hr2).symm
        exact ⟨e.state, by rw [← hR, hsame, hrr]⟩
      · exact ⟨r.state, by rw [hother R (fun hh => hR hh.symm)]; exact hent⟩
    obtain ⟨st1, hst1⟩ := hent1
    have hreg1 : ∀ e2 ∈ es, (tbl1.entry e2.res).isSome = true := by
      intro e2 he2
      rw [hsome1]
      exact hreg e2 (List.mem_cons_of_mem _ he2)
    obtain ⟨tbl2, b2, st2, hedges, hsome2, hent2, hu2, hc2⟩ :=
      ih tbl1 { r with state := st1 } hreg1 hst1 hnull
    refine ⟨tbl2, b1 ++ b2, st2, by simp [edges, hedge, hedges], ?_, hent2, ?_, ?_⟩
    · intro id; rw [hsome2, hsome1]
    · rw [List.mem_append]
      rintro (h | h)
      · exact hfree.1 h
      · exact hu2 h
    · rw [List.countP_append, hfree.2, hc2]

/-- Passes over a synthetic resource (null handle): barrier synthesis runs
through and no batch holds a barrier on it. -/
theorem run_synthetic (es : List (Edge ρ)) (R : ρ) : ∀ (ps : List PassHandle)
    (tbl : ResourceTable ρ) (r : FrameResource ρ),
    (∀ p ∈ ps, ∀ e ∈ passEdges es p, (tbl.entry e.res).isSome = true) →
    tbl.entry R = some r → r.handle = none →
    ∃ tbl1 out, run es tbl ps = some (tbl1, out) ∧ out.map Prod.fst = ps ∧
      ∀ pb ∈ out, Barrier.UAV R ∉ pb.2 ∧ pb.2.countP (isTransitionOf R) = 0 := by
  intro ps
  induction ps with
  | nil =>
    intro tbl r _ _ _
    exact ⟨tbl, [], rfl, rfl, by simp⟩
  | cons p ps ih =>
    intro tbl r hreg hent hnull
    obtain ⟨tbl1, b, st, hedges, hsome1, hent1, hu, hc⟩ :=
      edges_synthetic R (passEdges es p) tbl r (hreg p (List.mem_cons_self _ _)) hent hnull
    have hreg1 : ∀ q ∈ ps, ∀ e ∈ passEdges es q, (tbl1.entry e.res).isSome = true := by
      intro q hq e he
      rw [hsome1]
      exact hreg q (List.mem_cons_of_mem _ hq) e he
    obtain ⟨tbl2, out, hrun, hmap, hout⟩ := ih tbl1 { r with state := st } hreg1 hent1 hnull
    refine ⟨tbl2, (p, b) :: out, by simp [run, hedges, hrun], by simp [hmap], ?_⟩
    intro pb hpb
    rcases List.mem_cons.mp hpb with h | h
    · subst h; exact ⟨hu, hc⟩
    · exact hout pb h

/-- The batches of a run, one after the other, are the barriers of the edges of
the passes taken as one sequence. -/
theorem run_flatten (es : List (Edge ρ)) : ∀ (ps : List PassHandle) (tbl t1 : ResourceTable ρ)
    (out : List (PassHandle × List (Barrier ρ))),
    run es tbl ps = some (t1, out) →
    edges tbl (ps.map (passEdges es)).flatten = some (t1, (out.map Prod.snd).flatten) := by
  intro ps
  induction ps with
  | nil =>
    intro tbl t1 out h
    simp only [run, Option.some.injEq, Prod.mk.injEq] at h
    obtain ⟨rfl, rfl⟩ := h
    rfl
  | cons p ps ih =>
    intro tbl t1 out h
    simp only [run] at h
    cases hx : edges tbl (passEdges es p) with
    | none => simp [hx] at h
    | some w =>
      obtain ⟨ta, ba⟩ := w
      rw [hx] at h
      cases hxs : run es ta ps with
      | none => simp [hxs] at h
      | some q =>
        obtain ⟨tb, ob⟩ := q
        simp only [hxs, Option.some.injEq, Prod.mk.injEq] at h
        obtain ⟨rfl, rfl⟩ := h
        simp only [List.map_cons, List.flatten_cons]
        exact edges_append_some _ _ tbl ta tb ba _ hx (ih ta tb ob hxs)

end BarrierSynthesizer

/-! ## Claims on barrier synthesis -/

/-- C3 (amended): for a resource registered with a storage handle, barrier
synthesis emits a state transition for an edge exactly when the recorded
current state of the resource differs from the state the edge requires, and it
then records the required state; for a synthetic resource (null handle) the
required state is recorded and no barrier is emitted.  In a sequence of edges
the recorded state an edge meets is the state required by the last edge before
it on the same resource (the registered state when there is none), and the
batches of a run are the barriers of the edges of its passes taken in order.
Consequently, when the first consumer `c` of a resource `R` and the passes after
it all require the same state `S` of `R`, at most one transition of `R` is
emitted, in the batch before `c`, and none in the batches of the later passes. -/
theorem transition_iff_state_differs {ρ : Type} [DecidableEq ρ] (es : List (Edge ρ))
    (tbl : ResourceTable ρ) (R : ρ) (S : D3D12_RESOURCE_STATES) (c : PassHandle)
    (rest : List PassHandle)
    (hreg : ∀ p ∈ c :: rest, ∀ e ∈ BarrierSynthesizer.passEdges es p,
      (tbl.entry e.res).isSome = true)
    (hsame : ∀ p ∈ c :: rest, ∀ e ∈ BarrierSynthesizer.passEdges es p,
      e.res = R → e.state = S)
    (hfirst : ∃ e ∈ BarrierSynthesizer.passEdges es c, e.res = R) :
    (∀ (t : ResourceTable ρ) (e : Edge ρ) (r : FrameResource ρ),
      t.entry e.res = some r → r.handle.isSome = true →
      ∃ t1 bs, BarrierSynthesizer.edge t e = some (t1, bs) ∧
        ((∃ b ∈ bs, ∃ res old new, b = Barrier.Transition res old new) ↔
          r.state ≠ e.state) ∧
        (r.state ≠ e.state → bs = [Barrier.Transition e.res r.state e.state]) ∧
        t1.CurrentState e.res = some e.state) ∧
    (∀ (t : ResourceTable ρ) (e : Edge ρ) (r : FrameResource ρ),
      t.entry e.res = some r → r.handle = none →
      ∃ t1, BarrierSynthesizer.edge t e = some (t1, []) ∧
        t1.CurrentState e.res = some e.state) ∧
    (∀ (t : ResourceTable ρ) (pre post : List (Edge ρ)) (e : Edge ρ) (r : FrameResource ρ),
      (∀ x ∈ pre ++ e :: post, (t.entry x.res).isSome = true) →
      t.entry e.res = some r → r.handle.isSome = true →
      ∃ t1 b1 old t2 be t3 b2,
        BarrierSynthesizer.edges t pre = some (t1, b1) ∧
        t1.CurrentState e.res = some old ∧
        BarrierSynthesizer.edge t1 e = some (t2, be) ∧
        BarrierSynthesizer.edges t2 post = some (t3, b2) ∧
        BarrierSynthesizer.edges t (pre ++ e :: post) = some (t3, b1 ++ be ++ b2) ∧
        ((∀ m ∈ pre, m.res ≠ e.res) → old = r.state) ∧
        (∀ p0 e0 mid, pre = p0 ++ e0 :: mid → e0.res = e.res →
          (∀ m ∈ mid, m.res ≠ e.res) → old = e0.state) ∧
        ((∃ b ∈ be, ∃ res o n, b = Barrier.Transition res o n) ↔ old ≠ e.state) ∧
        (old ≠ e.state → be = [Barrier.Transition e.res old e.state]) ∧
        t2.CurrentState e.res = some e.state) ∧
    (∀ (ps : List PassHandle) (t : ResourceTable ρ),
      (∀ p ∈ ps, ∀ e ∈ BarrierSynthesizer.passEdges es p, (t.entry e.res).isSome = true) →
      ∃ t1 out, BarrierSynthesizer.run es t ps = some (t1, out) ∧ out.map Prod.fst = ps ∧
        BarrierSynthesizer.edges t (ps.map (BarrierSynthesizer.passEdges es)).flatten =
          some (t1, (out.map Prod.snd).flatten)) ∧
    ∃ tbl1 b0 out, BarrierSynthesizer.run es tbl (c :: rest) = some (tbl1, (c, b0) :: out) ∧
      out.map Prod.fst = rest ∧
      b0.countP (BarrierSynthesizer.isTransitionOf R) ≤ 1 ∧
      ∀ pb ∈ out, pb.2.countP (BarrierSynthesizer.isTransitionOf R) = 0 := by
  have one : ∀ (t : ResourceTable ρ) (e : Edge ρ) (r : FrameResource ρ),
      t.entry e.res = some r → r.handle.isSome = true →
      ∃ t1 bs, BarrierSynthesizer.edge t e = some (t1, bs) ∧
        ((∃ b ∈ bs, ∃ res old new, b = Barrier.Transition res old new) ↔
          r.state ≠ e.state) ∧
        (r.state ≠ e.state → bs = [Barrier.Transition e.res r.state e.state]) ∧
        t1.CurrentState e.res = some e.state := by
    intro t e r hent hhandle
    obtain ⟨t1, bs, hedge, hsame1, _, h1, h2, h3⟩ :=
      BarrierSynthesizer.edge_of_entry t e r hent
    refine ⟨t1, bs, hedge, ?_, ?_, ?_⟩
    · by_cases hst : r.state = e.state
      · by_cases huav : e.state = D3D12_RESOURCE_STATES.UNORDERED_ACCESS
        · rw [h2 hst huav, if_pos hhandle]
          simp [hst]
        · rw [h3 hst huav]
          simp [hst]
      · rw [h1 hst, if_pos hhandle]
        simp [hst]
    · intro hst
      rw [h1 hst, if_pos hhandle]
    · unfold ResourceTable.CurrentState
      rw [hsame1]
      rfl
  refine ⟨one, ?_, ?_, ?_, ?_⟩
  · intro t e r hent hnull
    obtain ⟨t1, bs, hedge, hsame1, _, h1, h2, h3⟩ :=
      BarrierSynthesizer.edge_of_entry t e r hent
    have hno : r.handle.isSome = false := by rw [hnull]; rfl
    have hnil : bs = [] := by
      by_cases hst : r.state = e.state
      · by_cases huav : e.state = D3D12_RESOURCE_STATES.UNORDERED_ACCESS
        · rw [h2 hst huav, hno]; rfl
        · exact h3 hst huav
      · rw [h1 hst, hno]; rfl
    refine ⟨t1, by rw [hedge, hnil], ?_⟩
    unfold ResourceTable.CurrentState
    rw [hsame1]
    rfl
  · intro t pre post e r hregs hent hhandle
    obtain ⟨t1, b1, hpre, hsome1, hkeep1, hun1, hlast1⟩ :=
      BarrierSynthesizer.edges_total pre t
        (fun x hx => hregs x (List.mem_append_left _ hx))
    obtain ⟨old, hold⟩ := hkeep1 e.res r hent
    obtain ⟨t2, be, hedge, hiff, htrans, hcur2⟩ :=
      one t1 e { r with state := old } hold hhandle
    obtain ⟨t2b, beb, hedgeb, _, _, hsome2, _⟩ :=
      BarrierSynthesizer.edge_facts t1 e { r with state := old } hold e.res
    have heq : (t2, be) = (t2b, beb) := Option.some.inj (hedge.symm.trans hedgeb)
    obtain ⟨ht, hb⟩ := Prod.mk.inj heq
    subst ht; subst hb
    obtain ⟨t3, b2, hpost, _⟩ :=
      BarrierSynthesizer.edges_total post t2 (fun x hx => by
        rw [hsome2, hsome1]
        exact hregs x (List.mem_append_right _ (List.mem_cons_of_mem _ hx)))
    have hstep : BarrierSynthesizer.edges t1 (e :: post) = some (t3, be ++ b2) := by
      simp [BarrierSynthesizer.edges, hedge, hpost]
    refine ⟨t1, b1, old, t2, be, t3, b2, hpre, ?_, hedge, hpost, ?_, ?_, ?_, hiff, htrans, hcur2⟩
    · unfold ResourceTable.CurrentState
      rw [hold]
      rfl
    · rw [List.append_assoc]
      exact BarrierSynthesizer.edges_append_some pre (e :: post) t t1 t3 b1 (be ++ b2) hpre hstep
    · intro hno
      have h := hun1 e.res hno
      rw [hold, hent] at h
      exact congrArg FrameResource.state (Option.some.inj h)
    · intro p0 e0 mid hsplit hres hmid
      have h := hlast1 p0 e0 mid hsplit (fun m hm => by rw [hres]; exact hmid m hm)
      unfold ResourceTable.CurrentState at h
      rw [hres, hold] at h
      exact Option.some.inj h
  · intro ps t hregs
    obtain ⟨t1, out, hrun, hmap, _⟩ := BarrierSynthesizer.run_total es ps t hregs
    exact ⟨t1, out, hrun, hmap, BarrierSynthesizer.run_flatten es ps t t1 out hrun⟩
  · obtain ⟨tbl1, b0, hedges, hsome1, hle, _, hex⟩ :=
      BarrierSynthesizer.edges_same_state R S (BarrierSynthesizer.passEdges es c) tbl
        (hreg c (List.mem_cons_self _ _)) (hsame c (List.mem_cons_self _ _))
    have hreg1 : ∀ q ∈ rest, ∀ e ∈ BarrierSynthesizer.passEdges es q,
        (tbl1.entry e.res).isSome = true := by
      intro q hq e he
      rw [hsome1]
      exact hreg q (List.mem_cons_of_mem _ hq) e he
    obtain ⟨tbl2, out, hrun, hmap, hzero, _⟩ :=
      BarrierSynthesizer.run_same_state es R S rest tbl1 hreg1
        (fun q hq => hsame q (List.mem_cons_of_mem _ hq)) (hex hfirst)
    exact ⟨tbl2, b0, out, by simp [BarrierSynthesizer.run, hedges, hrun], hmap, hle, hzero⟩

/-- C3, a producer and two consumers: after the producer left X in
unordered-access state, the consumers 1 and 2 that read it as shader-resource
get one transition, before consumer 1, and none before consumer 2. -/
theorem transition_iff_state_differs_witness :
    BarrierSynthesizer.run Scenario.fanOut.edges Scenario.fanOutProduced [1, 2] =
        some ([⟨"X", some "X", .ALL_SHADER_RESOURCE⟩],
          [(1, [Barrier.Transition "X" .UNORDERED_ACCESS .ALL_SHADER_RESOURCE]), (2, [])]) ∧
      ∃ tbl1 b0 out, BarrierSynthesizer.run Scenario.fanOut.edges Scenario.fanOutProduced
          (1 :: [2]) = some (tbl1, (1, b0) :: out) ∧
        out.map Prod.fst = [2] ∧
        b0.countP (BarrierSynthesizer.isTransitionOf "X") ≤ 1 ∧
        ∀ pb ∈ out, pb.2.countP (BarrierSynthesizer.isTransitionOf "X") = 0 :=
  ⟨by decide,
    (transition_iff_state_differs Scenario.fanOut.edges Scenario.fanOutProduced "X"
      .ALL_SHADER_RESOURCE 1 [2] (by decide) (by decide) (by decide)).2.2.2.2⟩

/-- C3 as stated fails for a synthetic resource: the dummy resource is
registered with the null handle in state COMMON, the first edge on it requires
unordered-access, the states differ, and no transition is emitted (the
required state is recorded). -/
theorem transition_iff_state_differs_counterexample :
    ResourceTable.CurrentState Scenario.dummyTable Scenario.dummyEdge.res =
        some D3D12_RESOURCE_STATES.COMMON ∧
      D3D12_RESOURCE_STATES.COMMON ≠ Scenario.dummyEdge.state ∧
      BarrierSynthesizer.edge Scenario.dummyTable Scenario.dummyEdge =
        some ([⟨.Dummy .RES_1, none, .UNORDERED_ACCESS⟩], []) := by
  decide

/-- C4 (amended): for every resource registered with a storage handle, when pass
`P1` and later pass `P2` both output it and `P1`, the passes between them and
`P2` use it only in unordered-access state, barrier synthesis puts a UAV barrier
for it into the batch recorded before `P2` (after `P1`) and no state transition
into that batch or the batches between the two passes, and the recorded state is
unordered-access after `P1` and still after `P2`, whatever the passes after `P2`
do.  When the resource is registered in unordered-access state and the passes
before `P1` use it only in that state too, the batch of `P1` holds a UAV barrier
as well and no batch up to `P2` holds a state transition of it.  A synthetic
resource (null handle) gets no barrier in any batch. -/
theorem uav_barrier_between_writers {ρ : Type} [DecidableEq ρ] (es : List (Edge ρ))
    (tbl : ResourceTable ρ) (R : ρ) (r : FrameResource ρ) (P1 P2 : PassHandle)
    (pre mid post : List PassHandle)
    (hent : tbl.entry R = some r) (hhandle : r.handle.isSome = true)
    (hreg : ∀ p ∈ pre ++ P1 :: (mid ++ P2 :: post), ∀ e ∈ BarrierSynthesizer.passEdges es p,
      (tbl.entry e.res).isSome = true)
    (huav : ∀ p ∈ P1 :: (mid ++ [P2]), ∀ e ∈ BarrierSynthesizer.passEdges es p,
      e.res = R → e.state = D3D12_RESOURCE_STATES.UNORDERED_ACCESS)
    (hw1 : ∃ e ∈ BarrierSynthesizer.passEdges es P1, e.res = R ∧ e.dir = Direction.output)
    (hw2 : ∃ e ∈ BarrierSynthesizer.passEdges es P2, e.res = R ∧ e.dir = Direction.output) :
    (∃ t1 t2 t3 o1 b1 o2 b2 o3,
      BarrierSynthesizer.run es tbl (pre ++ [P1]) = some (t1, o1 ++ [(P1, b1)]) ∧
      BarrierSynthesizer.run es t1 (mid ++ [P2]) = some (t2, o2 ++ [(P2, b2)]) ∧
      BarrierSynthesizer.run es t2 post = some (t3, o3) ∧
      BarrierSynthesizer.run es tbl (pre ++ P1 :: (mid ++ P2 :: post)) =
        some (t3, o1 ++ (P1, b1) :: (o2 ++ (P2, b2) :: o3)) ∧
      o1.map Prod.fst = pre ∧ o2.map Prod.fst = mid ∧ o3.map Prod.fst = post ∧
      t1.CurrentState R = some D3D12_RESOURCE_STATES.UNORDERED_ACCESS ∧
      t2.CurrentState R = some D3D12_RESOURCE_STATES.UNORDERED_ACCESS ∧
      Barrier.UAV R ∈ b2 ∧
      (∀ pb ∈ o2 ++ [(P2, b2)], pb.2.countP (BarrierSynthesizer.isTransitionOf R) = 0) ∧
      (r.state = D3D12_RESOURCE_STATES.UNORDERED_ACCESS →
        (∀ p ∈ pre, ∀ e ∈ BarrierSynthesizer.passEdges es p,
          e.res = R → e.state = D3D12_RESOURCE_STATES.UNORDERED_ACCESS) →
        Barrier.UAV R ∈ b1 ∧
          ∀ pb ∈ o1 ++ [(P1, b1)], pb.2.countP (BarrierSynthesizer.isTransitionOf R) = 0)) ∧
    ∀ (ps : List PassHandle) (t : ResourceTable ρ) (R0 : ρ) (r0 : FrameResource ρ),
      (∀ p ∈ ps, ∀ e ∈ BarrierSynthesizer.passEdges es p, (t.entry e.res).isSome = true) →
      t.entry R0 = some r0 → r0.handle = none →
      ∃ t1 out, BarrierSynthesizer.run es t ps = some (t1, out) ∧ out.map Prod.fst = ps ∧
        ∀ pb ∈ out, Barrier.UAV R0 ∉ pb.2 ∧
          pb.2.countP (BarrierSynthesizer.isTransitionOf R0) = 0 := by
  refine ⟨?_, fun ps t R0 r0 h1 h2 h3 => BarrierSynthesizer.run_synthetic es R0 ps t r0 h1 h2 h3⟩
  -- the passes before `P1`
  obtain ⟨t0, o1, hrun0, hmap0, hsome0, hkeep0⟩ :=
    BarrierSynthesizer.run_total es pre tbl
      (fun p hp => hreg p (List.mem_append_left _ hp))
  obtain ⟨st0, hent0⟩ := hkeep0 R r hent
  -- the pass `P1`
  have hregP1 : ∀ e ∈ BarrierSynthesizer.passEdges es P1, (t0.entry e.res).isSome = true := by
    intro e he
    rw [hsome0]
    exact hreg P1 (List.mem_append_right _ (List.mem_cons_self _ _)) e he
  obtain ⟨t1, b1, hedges1, hsome1, _, _, hex1⟩ :=
    BarrierSynthesizer.edges_same_state R D3D12_RESOURCE_STATES.UNORDERED_ACCESS
      (BarrierSynthesizer.passEdges es P1) t0 hregP1 (huav P1 (List.mem_cons_self _ _))
  obtain ⟨t1b, b1b, hedges1b, _, hkeep1, _, _⟩ :=
    BarrierSynthesizer.edges_total (BarrierSynthesizer.passEdges es P1) t0 hregP1
  have heq1 : (t1, b1) = (t1b, b1b) := Option.some.inj (hedges1.symm.trans hedges1b)
  obtain ⟨ht, hb⟩ := Prod.mk.inj heq1
  subst ht; subst hb
  have hcur1 : t1.CurrentState R = some D3D12_RESOURCE_STATES.UNORDERED_ACCESS := by
    obtain ⟨e, he, hres, _⟩ := hw1
    exact hex1 ⟨e, he, hres⟩
  obtain ⟨st1, hent1⟩ := hkeep1 R _ hent0
  have hst1 : st1 = D3D12_RESOURCE_STATES.UNORDERED_ACCESS := by
    unfold ResourceTable.CurrentState at hcur1
    rw [hent1] at hcur1
    exact Option.some.inj hcur1
  subst hst1
  have hrunP1 : BarrierSynthesizer.run es t0 [P1] = some (t1, [(P1, b1)]) := by
    simp [BarrierSynthesizer.run, hedges1]
  -- the passes between and `P2`
  have hreg2 : ∀ p ∈ mid ++ [P2], ∀ e ∈ BarrierSynthesizer.passEdges es p,
      (t1.entry e.res).isSome = true := by
    intro p hp e he
    rw [hsome1, hsome0]
    refine hreg p (List.mem_append_right _ (List.mem_cons_of_mem _ ?_)) e he
    rcases List.mem_append.mp hp with h | h
    · exact List.mem_append_left _ h
    · rw [List.mem_singleton.mp h]
      exact List.mem_append_right _ (List.mem_cons_self _ _)
  have huav2 : ∀ p ∈ mid ++ [P2], ∀ e ∈ BarrierSynthesizer.passEdges es p,
      e.res = R → e.state = D3D12_RESOURCE_STATES.UNORDERED_ACCESS :=
    fun p hp => huav p (List.mem_cons_of_mem _ hp)
  obtain ⟨t2, out2, hrun2, hmap2, hsome2, _, huavs2⟩ :=
    BarrierSynthesizer.run_uav es R
      { r with state := D3D12_RESOURCE_STATES.UNORDERED_ACCESS } hhandle rfl
      (mid ++ [P2]) t1 hreg2 huav2 hent1
  obtain ⟨t2b, out2b, hrun2b, _, hzero2, hcur2⟩ :=
    BarrierSynthesizer.run_same_state es R D3D12_RESOURCE_STATES.UNORDERED_ACCESS
      (mid ++ [P2]) t1 hreg2 huav2 hcur1
  have heq2 : (t2, out2) = (t2b, out2b) := Option.some.inj (hrun2.symm.trans hrun2b)
  obtain ⟨ht, ho⟩ := Prod.mk.inj heq2
  subst ht; subst ho
  obtain ⟨o2, last, hout2, ho2, hlast⟩ := List.map_eq_append_iff.mp hmap2
  obtain ⟨x2, nil2, hlasteq, hx2, hnil2⟩ := List.map_eq_cons_iff.mp hlast
  have hnil : nil2 = [] := List.map_eq_nil_iff.mp hnil2
  obtain ⟨p2, b2⟩ := x2
  simp only at hx2
  subst hx2; subst hnil; subst hlasteq; subst hout2
  -- the passes after `P2`
  have hreg3 : ∀ p ∈ post, ∀ e ∈ BarrierSynthesizer.passEdges es p,
      (t2.entry e.res).isSome = true := by
    intro p hp e he
    rw [hsome2, hsome1, hsome0]
    exact hreg p (List.mem_append_right _ (List.mem_cons_of_mem _
      (List.mem_append_right _ (List.mem_cons_of_mem _ hp)))) e he
  obtain ⟨t3, o3, hrun3, hmap3, _, _⟩ := BarrierSynthesizer.run_total es post t2 hreg3
  have hrunA2 : BarrierSynthesizer.run es tbl (pre ++ [P1]) = some (t1, o1 ++ [(P1, b1)]) :=
    BarrierSynthesizer.run_append_some es pre [P1] tbl t0 t1 o1 [(P1, b1)] hrun0 hrunP1
  have hrunB := BarrierSynthesizer.run_append_some es (mid ++ [p2]) post t1 t2 t3 _ o3 hrun2 hrun3
  have hrunC := BarrierSynthesizer.run_append_some es (pre ++ [P1]) ((mid ++ [p2]) ++ post)
    tbl t1 t3 _ _ hrunA2 hrunB
  refine ⟨t1, t2, t3, o1, b1, o2, b2, o3, hrunA2, hrun2, hrun3, ?_, hmap0, ho2, hmap3, hcur1,
    hcur2, ?_, hzero2, ?_⟩
  · simpa using hrunC
  · obtain ⟨e, he, hres, _⟩ := hw2
    exact huavs2 (p2, b2) (by simp) ⟨e, he, hres⟩
  · intro hstate hpre
    have hregA : ∀ p ∈ pre ++ [P1], ∀ e ∈ BarrierSynthesizer.passEdges es p,
        (tbl.entry e.res).isSome = true := by
      intro p hp e he
      refine hreg p ?_ e he
      rcases List.mem_append.mp hp with h | h
      · exact List.mem_append_left _ h
      · rw [List.mem_singleton.mp h]
        exact List.mem_append_right _ (List.mem_cons_self _ _)
    have huavA : ∀ p ∈ pre ++ [P1], ∀ e ∈ BarrierSynthesizer.passEdges es p,
        e.res = R → e.state = D3D12_RESOURCE_STATES.UNORDERED_ACCESS := by
      intro p hp
      rcases List.mem_append.mp hp with h | h
      · exact hpre p h
      · rw [List.mem_singleton.mp h]
        exact huav P1 (List.mem_cons_self _ _)
    have hcur : tbl.CurrentState R = some D3D12_RESOURCE_STATES.UNORDERED_ACCESS := by
      unfold ResourceTable.CurrentState
      rw [hent, ← hstate]; rfl
    obtain ⟨ta, outa, hruna, _, _, _, huavsa⟩ :=
      BarrierSynthesizer.run_uav es R r hhandle hstate (pre ++ [P1]) tbl hregA huavA hent
    obtain ⟨tb, outb, hrunb, _, hzerob, _⟩ :=
      BarrierSynthesizer.run_same_state es R D3D12_RESOURCE_STATES.UNORDERED_ACCESS
        (pre ++ [P1]) tbl hregA huavA hcur
    have heqa : (ta, outa) = (t1, o1 ++ [(P1, b1)]) := Option.some.inj (hruna.symm.trans hrunA2)
    have heqb : (tb, outb) = (t1, o1 ++ [(P1, b1)]) := Option.some.inj (hrunb.symm.trans hrunA2)
    obtain ⟨_, hoa⟩ := Prod.mk.inj heqa
    obtain ⟨_, hob⟩ := Prod.mk.inj heqb
    subst hoa; subst hob
    refine ⟨?_, hzerob⟩
    obtain ⟨e, he, hres, _⟩ := hw1
    exact huavsa (P1, b1) (by simp) ⟨e, he, hres⟩

/-- C4, two writers of a resource with storage followed by a reader: U is
registered in unordered-access state, written by pass 0 and then pass 1 and read
as shader-resource by pass 2; a UAV barrier and no transition is recorded
before pass 1, the transition to shader-resource only before pass 2. -/
theorem uav_barrier_between_writers_witness :
    BarrierSynthesizer.run Scenario.uavWritersThenReader.edges Scenario.uavWritersTable
        [0, 1, 2] =
        some ([⟨"U", some "U", .ALL_SHADER_RESOURCE⟩],
          [(0, [Barrier.UAV "U"]), (1, [Barrier.UAV "U"]),
            (2, [Barrier.Transition "U" .UNORDERED_ACCESS .ALL_SHADER_RESOURCE])]) ∧
      ∃ t1 t2 t3 o1 b1 o2 b2 o3,
        BarrierSynthesizer.run Scenario.uavWritersThenReader.edges Scenario.uavWritersTable
          ([] ++ [0]) = some (t1, o1 ++ [(0, b1)]) ∧
        BarrierSynthesizer.run Scenario.uavWritersThenReader.edges t1 ([] ++ [1]) =
          some (t2, o2 ++ [(1, b2)]) ∧
        BarrierSynthesizer.run Scenario.uavWritersThenReader.edges t2 [2] = some (t3, o3) ∧
        BarrierSynthesizer.run Scenario.uavWritersThenReader.edges Scenario.uavWritersTable
            ([] ++ 0 :: ([] ++ 1 :: [2])) =
          some (t3, o1 ++ (0, b1) :: (o2 ++ (1, b2) :: o3)) ∧
        o1.map Prod.fst = [] ∧ o2.map Prod.fst = [] ∧ o3.map Prod.fst = [2] ∧
        t1.CurrentState "U" = some D3D12_RESOURCE_STATES.UNORDERED_ACCESS ∧
        t2.CurrentState "U" = some D3D12_RESOURCE_STATES.UNORDERED_ACCESS ∧
        Barrier.UAV "U" ∈ b2 ∧
        (∀ pb ∈ o2 ++ [(1, b2)],
          pb.2.countP (BarrierSynthesizer.isTransitionOf "U") = 0) ∧
        ((⟨"U", some "U", .UNORDERED_ACCESS⟩ : FrameResource String).state =
            D3D12_RESOURCE_STATES.UNORDERED_ACCESS →
          (∀ p ∈ ([] : List PassHandle),
            ∀ e ∈ BarrierSynthesizer.passEdges Scenario.uavWritersThenReader.edges p,
            e.res = "U" → e.state = D3D12_RESOURCE_STATES.UNORDERED_ACCESS) →
          Barrier.UAV "U" ∈ b1 ∧
            ∀ pb ∈ o1 ++ [(0, b1)],
              pb.2.countP (BarrierSynthesizer.isTransitionOf "U") = 0) :=
  ⟨by decide,
    (uav_barrier_between_writers Scenario.uavWritersThenReader.edges Scenario.uavWritersTable
      "U" ⟨"U", some "U", .UNORDERED_ACCESS⟩ 0 1 [] [] [2] (by decide) (by decide)
      (by decide) (by decide) (by decide) (by decide)).1⟩

/-- C4 as stated fails for a synthetic resource: registered with the null
handle in unordered-access state and written by pass 0 and then pass 1, it gets
no UAV barrier between the two passes; both batches are empty. -/
theorem uav_barrier_between_writers_counterexample :
    ResourceTable.ofRegistrations Scenario.syntheticWriters.resources [] =
        some Scenario.syntheticWritersTable ∧
      Scenario.syntheticWriters.Build = some [0, 1] ∧
      BarrierSynthesizer.run Scenario.syntheticWriters.edges Scenario.syntheticWritersTable
        [0, 1] = some (Scenario.syntheticWritersTable, [(0, []), (1, [])]) := by
  decide

/-! ## PostProcessor and GBuffer: what the calls add up to -/

namespace PostProcessor

/-- `Register` when the TAA pass is registered. -/
theorem Register_taa (app : App) (settings : RenderSettings) (data : PostProcessData)
    (rg : RenderGraph PathID) (hfc : app.TotalFrameCount > 2) (htaa : settings.TAA = true) :
    Register app settings data rg =
      (⟨rg.passes.length, data.Fsr2PassHandle, rg.passes.length + 1, rg.passes.length + 2,
          rg.passes.length + 3⟩,
        ⟨rg.passes ++ [⟨"TAA", .COMPUTE⟩, ⟨"LuminanceReduction", .COMPUTE⟩,
            ⟨"FinalPass", .RENDER⟩, ⟨"GuiPass", .RENDER⟩],
          rg.resources ++ [⟨.TaaOutput .OUTPUT_A, some (.TaaOutput .OUTPUT_A), .COMMON⟩,
            ⟨.TaaOutput .OUTPUT_B, some (.TaaOutput .OUTPUT_B), .COMMON⟩,
            ⟨.LumReductionAvgLum, some .LumReductionAvgLum, .COMMON⟩,
            ⟨.BackBuffer app.CurrBackBuffer, some (.BackBuffer app.CurrBackBuffer), .COMMON⟩,
            ⟨.Dummy .RES_1, none, .COMMON⟩],
          rg.edges⟩) := by
  simp [Register, RenderGraph.RegisterRenderPass, RenderGraph.RegisterResource, hfc, htaa]

/-- `Register` when the FSR2 pass is registered. -/
theorem Register_fsr2 (app : App) (settings : RenderSettings) (data : PostProcessData)
    (rg : RenderGraph PathID) (hfc : app.TotalFrameCount > 2) (htaa : settings.TAA = false)
    (hfsr : settings.Fsr2 = true) :
    Register app settings data rg =
      (⟨data.TaaHandle, rg.passes.length, rg.passes.length + 1, rg.passes.length + 2,
          rg.passes.length + 3⟩,
        ⟨rg.passes ++ [⟨"FSR2", .COMPUTE⟩, ⟨"LuminanceReduction", .COMPUTE⟩,
            ⟨"FinalPass", .RENDER⟩, ⟨"GuiPass", .RENDER⟩],
          rg.resources ++ [⟨.Fsr2Upscaled, some .Fsr2Upscaled, .COMMON⟩,
            ⟨.LumReductionAvgLum, some .LumReductionAvgLum, .COMMON⟩,
            ⟨.BackBuffer app.CurrBackBuffer, some (.BackBuffer app.CurrBackBuffer), .COMMON⟩,
            ⟨.Dummy .RES_1, none, .COMMON⟩],
          rg.edges⟩) := by
  simp [Register, RenderGraph.RegisterRenderPass, RenderGraph.RegisterResource, hfc, htaa, hfsr]

/-- `Register` when no upscaler is registered. -/
theorem Register_plain (app : App) (settings : RenderSettings) (data : PostProcessData)
    (rg : RenderGraph PathID)
    (h : ¬ app.TotalFrameCount > 2 ∨ (settings.TAA = false ∧ settings.Fsr2 = false)) :
    Register app settings data rg =
      (⟨data.TaaHandle, data.Fsr2PassHandle, rg.passes.length, rg.passes.length + 1,
          rg.passes.length + 2⟩,
        ⟨rg.passes ++ [⟨"LuminanceReduction", .COMPUTE⟩,
            ⟨"FinalPass", .RENDER⟩, ⟨"GuiPass", .RENDER⟩],
          rg.resources ++ [⟨.LumReductionAvgLum, some .LumReductionAvgLum, .COMMON⟩,
            ⟨.BackBuffer app.CurrBackBuffer, some (.BackBuffer app.CurrBackBuffer), .COMMON⟩,
            ⟨.Dummy .RES_1, none, .COMMON⟩],
          rg.edges⟩) := by
  rcases h with h | ⟨h1, h2⟩
  · simp [Register, RenderGraph.RegisterRenderPass, RenderGraph.RegisterResource, h]
  · simp [Register, RenderGraph.RegisterRenderPass, RenderGraph.RegisterResource, h1, h2]

/-- The three ways `Register` can go. -/
theorem upscaler_cases (app : App) (settings : RenderSettings) :
    (app.TotalFrameCount > 2 ∧ settings.TAA = true) ∨
    (app.TotalFrameCount > 2 ∧ settings.TAA = false ∧ settings.Fsr2 = true) ∨
    (¬ app.TotalFrameCount > 2 ∨ (settings.TAA = false ∧ settings.Fsr2 = false)) := by
  by_cases hfc : app.TotalFrameCount > 2
  · cases htaa : settings.TAA
    · cases hfsr : settings.Fsr2
      · exact Or.inr (Or.inr (Or.inr ⟨rfl, rfl⟩))
      · exact Or.inr (Or.inl ⟨hfc, rfl, rfl⟩)
    · exact Or.inl ⟨hfc, rfl⟩
  · exact Or.inr (Or.inr (Or.inl hfc))

/-- `DeclareAdjacencies` leaves passes and resources as they are and appends
its edges: the block of the upscaler, the edges of luminance reduction and of
the final pass, and the closing edges on the back buffer and the dummy
resource. -/
theorem DeclareAdjacencies_eq (app : App) (settings : RenderSettings)
    (rt : RayTracerData) (pd : PostProcessData) (rg : RenderGraph PathID) :
    DeclareAdjacencies app settings rt pd rg =
      ⟨rg.passes, rg.resources,
        rg.edges ++
          ((if app.TotalFrameCount > 2 then
            if settings.TAA = true then
              [⟨pd.TaaHandle, .GBufferDepth app.CurrOutIdx, .ALL_SHADER_RESOURCE, .input⟩,
                ⟨pd.TaaHandle, .HdrLightAccumTex, .ALL_SHADER_RESOURCE, .input⟩,
                ⟨pd.TaaHandle,
                  .TaaOutput (if app.CurrOutIdx = 0 then .OUTPUT_A else .OUTPUT_B),
                  .ALL_SHADER_RESOURCE, .input⟩,
                ⟨pd.TaaHandle,
                  .TaaOutput (if app.CurrOutIdx = 0 then .OUTPUT_B else .OUTPUT_A),
                  .UNORDERED_ACCESS, .output⟩,
                ⟨pd.TaaHandle, .Dummy .RES_2, .UNORDERED_ACCESS, .input⟩,
                ⟨pd.FinalPassHandle,
                  .TaaOutput (if app.CurrOutIdx = 0 then .OUTPUT_B else .OUTPUT_A),
                  .ALL_SHADER_RESOURCE, .input⟩]
            else if settings.Fsr2 = true then
              [⟨pd.Fsr2PassHandle, .GBufferDepth app.CurrOutIdx, .ALL_SHADER_RESOURCE, .input⟩,
                ⟨pd.Fsr2PassHandle, .HdrLightAccumTex, .ALL_SHADER_RESOURCE, .input⟩,
                ⟨pd.Fsr2PassHandle, .GBufferMotionVec, .ALL_SHADER_RESOURCE, .input⟩,
                ⟨pd.Fsr2PassHandle, .Dummy .RES_2, .UNORDERED_ACCESS, .input⟩,
                ⟨pd.Fsr2PassHandle, .Fsr2Upscaled, .UNORDERED_ACCESS, .output⟩,
                ⟨pd.FinalPassHandle, .Fsr2Upscaled, .ALL_SHADER_RESOURCE, .input⟩]
            else []
          else []) ++
          ([⟨pd.LumReductionPassHandle, .Dummy .RES_2, .UNORDERED_ACCESS, .input⟩,
            ⟨pd.LumReductionPassHandle, .HdrLightAccumTex, .ALL_SHADER_RESOURCE, .input⟩,
            ⟨pd.LumReductionPassHandle, .LumReductionAvgLum, .UNORDERED_ACCESS, .output⟩,
            ⟨pd.FinalPassHandle, .LumReductionAvgLum, .ALL_SHADER_RESOURCE, .input⟩] ++
          ((if (settings.RTIndirectDiffuse && rt.TLASIsInitialized) = true then
            ⟨pd.FinalPassHandle, .IndirectDiffuseLi, .ALL_SHADER_RESOURCE, .input⟩ ::
              (if settings.DenoiseIndirectDiffuse = true then
                [⟨pd.FinalPassHandle,
                    .SvgfOutput (if app.CurrOutIdx = 0 then .TEMPORAL_CACHE_COL_LUM_B
                      else .TEMPORAL_CACHE_COL_LUM_A),
                    .ALL_SHADER_RESOURCE, .input⟩,
                  ⟨pd.FinalPassHandle, .SvgfOutput .SPATIAL_VAR, .ALL_SHADER_RESOURCE, .input⟩]
              else [])
          else []) ++
          [⟨pd.FinalPassHandle, .BackBuffer app.CurrBackBuffer, .RENDER_TARGET, .output⟩,
            ⟨pd.FinalPassHandle, .Dummy .RES_1, .UNORDERED_ACCESS, .output⟩,
            ⟨pd.ImGuiPassHandle, .Dummy .RES_1, .UNORDERED_ACCESS, .input⟩,
            ⟨pd.ImGuiPassHandle, .BackBuffer app.CurrBackBuffer, .RENDER_TARGET,
              .output⟩])))⟩ := by
  unfold DeclareAdjacencies
  by_cases hfc : app.TotalFrameCount > 2 <;> cases htaa : settings.TAA <;>
    cases hfsr : settings.Fsr2 <;>
    cases hrt : (settings.RTIndirectDiffuse && rt.TLASIsInitialized) <;>
    cases hdn : settings.DenoiseIndirectDiffuse <;>
    simp [RenderGraph.AddInput, RenderGraph.AddOutput, hfc]

/-- `Register` does not touch the edges. -/
theorem Register_edges (app : App) (settings : RenderSettings) (data : PostProcessData)
    (rg : RenderGraph PathID) : (Register app settings data rg).2.edges = rg.edges := by
  rcases upscaler_cases app settings with ⟨h1, h2⟩ | ⟨h1, h2, h3⟩ | h
  · rw [Register_taa app settings data rg h1 h2]
  · rw [Register_fsr2 app settings data rg h1 h2 h3]
  · rw [Register_plain app settings data rg h]

/-- The graph after the frame is the graph before it with the declared edges
appended to its edges. -/
theorem frame_edges (app : App) (settings : RenderSettings) (rt : RayTracerData)
    (data : PostProcessData) (rg : RenderGraph PathID) :
    (frame app settings rt data rg).edges = rg.edges ++ declaredEdges app settings rt data rg := by
  unfold declaredEdges frame
  rw [DeclareAdjacencies_eq]
  simp only [Register_edges]
  rw [List.drop_left]

/-- `DeclareAdjacencies` registers no pass. -/
theorem frame_passes (app : App) (settings : RenderSettings) (rt : RayTracerData)
    (data : PostProcessData) (rg : RenderGraph PathID) :
    (frame app settings rt data rg).passes = (Register app settings data rg).2.passes := by
  unfold frame
  rw [DeclareAdjacencies_eq]

/-- The edges declared in a frame with TAA. -/
theorem declaredEdges_taa (app : App) (settings : RenderSettings) (rt : RayTracerData)
    (data : PostProcessData) (rg : RenderGraph PathID)
    (hfc : app.TotalFrameCount > 2) (htaa : settings.TAA = true) :
    declaredEdges app settings rt data rg =
      [⟨rg.passes.length, .GBufferDepth app.CurrOutIdx, .ALL_SHADER_RESOURCE, .input⟩,
          ⟨rg.passes.length, .HdrLightAccumTex, .ALL_SHADER_RESOURCE, .input⟩,
          ⟨rg.passes.length, .TaaOutput (if app.CurrOutIdx = 0 then .OUTPUT_A else .OUTPUT_B),
            .ALL_SHADER_RESOURCE, .input⟩,
          ⟨rg.passes.length, .TaaOutput (if app.CurrOutIdx = 0 then .OUTPUT_B else .OUTPUT_A),
            .UNORDERED_ACCESS, .output⟩,
          ⟨rg.passes.length, .Dummy .RES_2, .UNORDERED_ACCESS, .input⟩,
          ⟨rg.passes.length + 2, .TaaOutput (if app.CurrOutIdx = 0 then .OUTPUT_B else .OUTPUT_A),
            .ALL_SHADER_RESOURCE, .input⟩] ++
        ([⟨rg.passes.length + 1, .Dummy .RES_2, .UNORDERED_ACCESS, .input⟩,
            ⟨rg.passes.length + 1, .HdrLightAccumTex, .ALL_SHADER_RESOURCE, .input⟩,
            ⟨rg.passes.length + 1, .LumReductionAvgLum, .UNORDERED_ACCESS, .output⟩,
            ⟨rg.passes.length + 2, .LumReductionAvgLum, .ALL_SHADER_RESOURCE, .input⟩] ++
          ((if (settings.RTIndirectDiffuse && rt.TLASIsInitialized) = true then
            ⟨rg.passes.length + 2, .IndirectDiffuseLi, .ALL_SHADER_RESOURCE, .input⟩ ::
              (if settings.DenoiseIndirectDiffuse = true then
                [⟨rg.passes.length + 2,
                    .SvgfOutput (if app.CurrOutIdx = 0 then .TEMPORAL_CACHE_COL_LUM_B
                      else .TEMPORAL_CACHE_COL_LUM_A),
                    .ALL_SHADER_RESOURCE, .input⟩,
                  ⟨rg.passes.length + 2, .SvgfOutput .SPATIAL_VAR, .ALL_SHADER_RESOURCE, .input⟩]
              else [])
          else []) ++
          [⟨rg.passes.length + 2, .BackBuffer app.CurrBackBuffer, .RENDER_TARGET, .output⟩,
            ⟨rg.passes.length + 2, .Dummy .RES_1, .UNORDERED_ACCESS, .output⟩,
            ⟨rg.passes.length + 3, .Dummy .RES_1, .UNORDERED_ACCESS, .input⟩,
            ⟨rg.passes.length + 3, .BackBuffer app.CurrBackBuffer, .RENDER_TARGET, .output⟩])) := by
  unfold declaredEdges frame
  rw [DeclareAdjacencies_eq, Register_taa app settings data rg hfc htaa]
  simp only [hfc, htaa, if_true]
  rw [List.drop_left]

/-- The edges declared in a frame with FSR2. -/
theorem declaredEdges_fsr2 (app : App) (settings : RenderSettings) (rt : RayTracerData)
    (data : PostProcessData) (rg : RenderGraph PathID)
    (hfc : app.TotalFrameCount > 2) (htaa : settings.TAA = false)
    (hfsr : settings.Fsr2 = true) :
    declaredEdges app settings rt data rg =
      [⟨rg.passes.length, .GBufferDepth app.CurrOutIdx, .ALL_SHADER_RESOURCE, .input⟩,
          ⟨rg.passes.length, .HdrLightAccumTex, .ALL_SHADER_RESOURCE, .input⟩,
          ⟨rg.passes.length, .GBufferMotionVec, .ALL_SHADER_RESOURCE, .input⟩,
          ⟨rg.passes.length, .Dummy .RES_2, .UNORDERED_ACCESS, .input⟩,
          ⟨rg.passes.length, .Fsr2Upscaled, .UNORDERED_ACCESS, .output⟩,
          ⟨rg.passes.length + 2, .Fsr2Upscaled, .ALL_SHADER_RESOURCE, .input⟩] ++
        ([⟨rg.passes.length + 1, .Dummy .RES_2, .UNORDERED_ACCESS, .input⟩,
            ⟨rg.passes.length + 1, .HdrLightAccumTex, .ALL_SHADER_RESOURCE, .input⟩,
            ⟨rg.passes.length + 1, .LumReductionAvgLum, .UNORDERED_ACCESS, .output⟩,
            ⟨rg.passes.length + 2, .LumReductionAvgLum, .ALL_SHADER_RESOURCE, .input⟩] ++
          ((if (settings.RTIndirectDiffuse && rt.TLASIsInitialized) = true then
            ⟨rg.passes.length + 2, .IndirectDiffuseLi, .ALL_SHADER_RESOURCE, .input⟩ ::
              (if settings.DenoiseIndirectDiffuse = true then
                [⟨rg.passes.length + 2,
                    .SvgfOutput (if app.CurrOutIdx = 0 then .TEMPORAL_CACHE_COL_LUM_B
                      else .TEMPORAL_CACHE_COL_LUM_A),
                    .ALL_SHADER_RESOURCE, .input⟩,
                  ⟨rg.passes.length + 2, .SvgfOutput .SPATIAL_VAR, .ALL_SHADER_RESOURCE, .input⟩]
              else [])
          else []) ++
          [⟨rg.passes.length + 2, .BackBuffer app.CurrBackBuffer, .RENDER_TARGET, .output⟩,
            ⟨rg.passes.length + 2, .Dummy .RES_1, .UNORDERED_ACCESS, .output⟩,
            ⟨rg.passes.length + 3, .Dummy .RES_1, .UNORDERED_ACCESS, .input⟩,
            ⟨rg.passes.length + 3, .BackBuffer app.CurrBackBuffer, .RENDER_TARGET, .output⟩])) := by
  unfold declaredEdges frame
  rw [DeclareAdjacencies_eq, Register_fsr2 app settings data rg hfc htaa hfsr]
  simp only [hfc, htaa, hfsr, if_true]
  simp

/-- The edges declared in a frame without upscaler. -/
theorem declaredEdges_plain (app : App) (settings : RenderSettings) (rt : RayTracerData)
    (data : PostProcessData) (rg : RenderGraph PathID)
    (h : ¬ app.TotalFrameCount > 2 ∨ (settings.TAA = false ∧ settings.Fsr2 = false)) :
    declaredEdges app settings rt data rg =
      ([⟨rg.passes.length, .Dummy .RES_2, .UNORDERED_ACCESS, .input⟩,
            ⟨rg.passes.length, .HdrLightAccumTex, .ALL_SHADER_RESOURCE, .input⟩,
            ⟨rg.passes.length, .LumReductionAvgLum, .UNORDERED_ACCESS, .output⟩,
            ⟨rg.passes.length + 1, .LumReductionAvgLum, .ALL_SHADER_RESOURCE, .input⟩] ++
          ((if (settings.RTIndirectDiffuse && rt.TLASIsInitialized) = true then
            ⟨rg.passes.length + 1, .IndirectDiffuseLi, .ALL_SHADER_RESOURCE, .input⟩ ::
              (if settings.DenoiseIndirectDiffuse = true then
                [⟨rg.passes.length + 1,
                    .SvgfOutput (if app.CurrOutIdx = 0 then .TEMPORAL_CACHE_COL_LUM_B
                      else .TEMPORAL_CACHE_COL_LUM_A),
                    .ALL_SHADER_RESOURCE, .input⟩,
                  ⟨rg.passes.length + 1, .SvgfOutput .SPATIAL_VAR, .ALL_SHADER_RESOURCE, .input⟩]
              else [])
          else []) ++
          [⟨rg.passes.length + 1, .BackBuffer app.CurrBackBuffer, .RENDER_TARGET, .output⟩,
            ⟨rg.passes.length + 1, .Dummy .RES_1, .UNORDERED_ACCESS, .output⟩,
            ⟨rg.passes.length + 2, .Dummy .RES_1, .UNORDERED_ACCESS, .input⟩,
            ⟨rg.passes.length + 2, .BackBuffer app.CurrBackBuffer, .RENDER_TARGET, .output⟩])) := by
  unfold declaredEdges frame
  rw [DeclareAdjacencies_eq, Register_plain app settings data rg h]
  rcases h with h | ⟨h1, h2⟩
  · simp [h]
  · simp [h1, h2]

end PostProcessor

namespace DependencyGraph

variable {ρ : Type} [DecidableEq ρ]

/-- When every edge declared after an output edge on the same resource belongs
to a pass with the same or a higher handle, and every output edge declared
after an input edge on the same resource belongs to the same pass, adjacency
goes from lower to higher handles. -/
theorem adjacent_lt_of_pairwise (es : List (Edge ρ))
    (h : es.Pairwise (fun e e2 => e2.res = e.res →
      (e.dir = Direction.output → e.pass ≤ e2.pass) ∧
      (e.dir = Direction.input → e2.dir = Direction.output → e.pass = e2.pass))) :
    ∀ a b, adjacent es a b = true → a < b := by
  intro a b hab
  obtain ⟨hne, pre, e2, post, hsplit, e, he, ho⟩ := (adjacent_iff es a b).mp hab
  rw [hsplit, List.pairwise_append] at h
  unfold orders at ho
  cases hp : produced pre e2.res with
  | true =>
    simp only [hp, Bool.and_eq_true, Bool.or_eq_true, decide_eq_true_eq] at ho
    obtain ⟨hres, ⟨hpa, hpb⟩, hdir⟩ := ho
    obtain ⟨hout, hin⟩ := h.2.2 e he e2 (List.mem_cons_self _ _) hres
    cases hd : e.dir with
    | output =>
      have hle := hout hd
      rw [hpa, hpb] at hle
      exact Nat.lt_of_le_of_ne hle hne
    | input =>
      have hd2 : e2.dir = Direction.output := by
        rcases hdir with h1 | h1
        · rw [hd] at h1; cases h1
        · exact h1
      have heq := hin hd hd2
      rw [hpa, hpb] at heq
      exact absurd heq hne
  | false =>
    simp only [hp, Bool.and_eq_true, decide_eq_true_eq] at ho
    obtain ⟨hres, ⟨hpb, hpa⟩, hdo⟩ := ho
    obtain ⟨_, hin⟩ := h.2.2 e he e2 (List.mem_cons_self _ _) hres
    have hdi : e.dir = Direction.input := input_of_not_produced pre e2.res hp e he hres.symm
    have heq := hin hdi hdo
    rw [hpb, hpa] at heq
    exact absurd heq.symm hne

end DependencyGraph

namespace Scheduler

/-- When adjacency goes from lower to higher handles, the passes from `k` on,
taken in registration order, come out in registration order. -/
theorem sortLoop_range (adj : PassHandle → PassHandle → Bool)
    (hlt : ∀ a b, adj a b = true → a < b) :
    ∀ (m k : Nat) (sorted : List PassHandle),
      sortLoop adj m (List.range' k m) sorted = some (sorted ++ List.range' k m) := by
  intro m
  induction m with
  | zero => intro k sorted; simp [sortLoop]
  | succ m ih =>
    intro k sorted
    have hready : ready adj (k :: List.range' (k + 1) m) k = true := by
      unfold ready
      rw [List.all_eq_true]
      intro q hq
      cases hqk : adj q k with
      | false => rfl
      | true =>
        have h1 : q < k := hlt q k hqk
        rcases List.mem_cons.mp hq with h | h
        · exact absurd (h ▸ h1) (Nat.lt_irrefl _)
        · have h2 : k + 1 ≤ q := (List.mem_range'_1.mp h).1
          exact absurd (Nat.lt_trans (Nat.lt_of_succ_le h2) h1) (Nat.lt_irrefl _)
    rw [List.range'_succ]
    simp only [sortLoop, List.find?_cons, hready, List.erase_cons_head]
    rw [ih (k + 1) (sorted ++ [k])]
    simp

end Scheduler

namespace RenderGraph

variable {ρ : Type} [DecidableEq ρ]

/-- When every dependency goes from a lower to a higher handle, `Build` returns
the registration order. -/
theorem Build_eq_range_of_lt (rg : RenderGraph ρ) (hreg : rg.HandlesRegistered)
    (hlt : ∀ a b, rg.DependsOn a b → a < b) :
    rg.Build = some (List.range rg.passes.length) := by
  have hall : rg.edges.all (fun e => decide (e.pass < rg.passes.length)) = true := by
    rw [List.all_eq_true]
    intro e he
    simpa using hreg e he
  unfold Build
  rw [if_pos hall]
  unfold Scheduler.sort
  rw [List.range_eq_range', Scheduler.sortLoop_range _ hlt]
  simp

end RenderGraph

namespace PostProcessor

/-- Every edge declared after an output edge on the same resource belongs to a
pass registered no earlier than the one of the output edge. -/
theorem declaredEdges_after_output (app : App) (settings : RenderSettings) (rt : RayTracerData)
    (data : PostProcessData) (rg : RenderGraph PathID) :
    (declaredEdges app settings rt data rg).Pairwise
      (fun e e2 => e.dir = Direction.output → e2.res = e.res → e.pass ≤ e2.pass) := by
  rcases upscaler_cases app settings with ⟨h1, h2⟩ | ⟨h1, h2, h3⟩ | h
  · rw [declaredEdges_taa app settings rt data rg h1 h2]
    cases hrt : (settings.RTIndirectDiffuse && rt.TLASIsInitialized) <;>
      cases hdn : settings.DenoiseIndirectDiffuse <;>
      simp [List.pairwise_append, List.pairwise_cons]
  · rw [declaredEdges_fsr2 app settings rt data rg h1 h2 h3]
    cases hrt : (settings.RTIndirectDiffuse && rt.TLASIsInitialized) <;>
      cases hdn : settings.DenoiseIndirectDiffuse <;>
      simp [List.pairwise_append, List.pairwise_cons]
  · rw [declaredEdges_plain app settings rt data rg h]
    cases hrt : (settings.RTIndirectDiffuse && rt.TLASIsInitialized) <;>
      cases hdn : settings.DenoiseIndirectDiffuse <;>
      simp [List.pairwise_append, List.pairwise_cons]

/-- With TAA: an output edge declared after an input edge on the same resource
belongs to the same pass. -/
theorem declaredEdges_input_first_taa (app : App) (settings : RenderSettings)
    (rt : RayTracerData) (data : PostProcessData) (rg : RenderGraph PathID)
    (h1 : app.TotalFrameCount > 2) (h2 : settings.TAA = true) :
    (declaredEdges app settings rt data rg).Pairwise
      (fun e e2 => e.dir = Direction.input → e2.dir = Direction.output →
        e2.res = e.res → e.pass = e2.pass) := by
  rw [declaredEdges_taa app settings rt data rg h1 h2]
  cases hrt : (settings.RTIndirectDiffuse && rt.TLASIsInitialized) <;>
    cases hdn : settings.DenoiseIndirectDiffuse <;>
    simp [List.pairwise_append, List.pairwise_cons]

/-- With FSR2: an output edge declared after an input edge on the same resource
belongs to the same pass. -/
theorem declaredEdges_input_first_fsr2 (app : App) (settings : RenderSettings)
    (rt : RayTracerData) (data : PostProcessData) (rg : RenderGraph PathID)
    (h1 : app.TotalFrameCount > 2) (h2 : settings.TAA = false) (h3 : settings.Fsr2 = true) :
    (declaredEdges app settings rt data rg).Pairwise
      (fun e e2 => e.dir = Direction.input → e2.dir = Direction.output →
        e2.res = e.res → e.pass = e2.pass) := by
  rw [declaredEdges_fsr2 app settings rt data rg h1 h2 h3]
  cases hrt : (settings.RTIndirectDiffuse && rt.TLASIsInitialized) <;>
    cases hdn : settings.DenoiseIndirectDiffuse <;>
    simp [List.pairwise_append, List.pairwise_cons]

/-- Without upscaler: an output edge declared after an input edge on the same
resource belongs to the same pass. -/
theorem declaredEdges_input_first_plain (app : App) (settings : RenderSettings)
    (rt : RayTracerData) (data : PostProcessData) (rg : RenderGraph PathID)
    (h : ¬ app.TotalFrameCount > 2 ∨ (settings.TAA = false ∧ settings.Fsr2 = false)) :
    (declaredEdges app settings rt data rg).Pairwise
      (fun e e2 => e.dir = Direction.input → e2.dir = Direction.output →
        e2.res = e.res → e.pass = e2.pass) := by
  rw [declaredEdges_plain app settings rt data rg h]
  cases hrt : (settings.RTIndirectDiffuse && rt.TLASIsInitialized) <;>
    cases hdn : settings.DenoiseIndirectDiffuse <;>
    simp [List.pairwise_append, List.pairwise_cons]

/-- An output edge declared after an input edge on the same resource belongs to the
same pass: no pass inputs a resource before another pass is declared to output
it. -/
theorem declaredEdges_input_first (app : App) (settings : RenderSettings) (rt : RayTracerData)
    (data : PostProcessData) (rg : RenderGraph PathID) :
    (declaredEdges app settings rt data rg).Pairwise
      (fun e e2 => e.dir = Direction.input → e2.dir = Direction.output →
        e2.res = e.res → e.pass = e2.pass) := by
  rcases upscaler_cases app settings with ⟨h1, h2⟩ | ⟨h1, h2, h3⟩ | h
  · exact declaredEdges_input_first_taa app settings rt data rg h1 h2
  · exact declaredEdges_input_first_fsr2 app settings rt data rg h1 h2 h3
  · exact declaredEdges_input_first_plain app settings rt data rg h

/-- Every edge declared after an output edge on the same resource belongs to a
pass registered no earlier than the one of the output edge, and no pass inputs
a resource before another pass is declared to output it. -/
theorem declaredEdges_forward (app : App) (settings : RenderSettings) (rt : RayTracerData)
    (data : PostProcessData) (rg : RenderGraph PathID) :
    (declaredEdges app settings rt data rg).Pairwise
      (fun e e2 => e2.res = e.res →
        (e.dir = Direction.output → e.pass ≤ e2.pass) ∧
        (e.dir = Direction.input → e2.dir = Direction.output → e.pass = e2.pass)) :=
  ((declaredEdges_after_output app settings rt data rg).and
    (declaredEdges_input_first app settings rt data rg)).imp
    (fun h hres => ⟨fun hd => h.1 hd hres, fun hd hd2 => h.2 hd hd2 hres⟩)

/-- Every declared edge is on a handle that `Register` assigned in the frame. -/
theorem declaredEdges_handles (app : App) (settings : RenderSettings) (rt : RayTracerData)
    (data : PostProcessData) (rg : RenderGraph PathID) :
    ∀ e ∈ declaredEdges app settings rt data rg,
      rg.passes.length ≤ e.pass ∧ e.pass < (Register app settings data rg).2.passes.length := by
  rcases upscaler_cases app settings with ⟨h1, h2⟩ | ⟨h1, h2, h3⟩ | h
  · rw [declaredEdges_taa app settings rt data rg h1 h2, Register_taa app settings data rg h1 h2]
    cases hrt : (settings.RTIndirectDiffuse && rt.TLASIsInitialized) <;>
      cases hdn : settings.DenoiseIndirectDiffuse <;>
      simp
  · rw [declaredEdges_fsr2 app settings rt data rg h1 h2 h3,
      Register_fsr2 app settings data rg h1 h2 h3]
    cases hrt : (settings.RTIndirectDiffuse && rt.TLASIsInitialized) <;>
      cases hdn : settings.DenoiseIndirectDiffuse <;>
      simp
  · rw [declaredEdges_plain app settings rt data rg h, Register_plain app settings data rg h]
    cases hrt : (settings.RTIndirectDiffuse && rt.TLASIsInitialized) <;>
      cases hdn : settings.DenoiseIndirectDiffuse <;>
      simp

end PostProcessor

namespace PostProcessor

/-- A list that ends in four edges, split around the second and third of them. -/
theorem split_last_four (X : List (Edge PathID)) (e1 e2 e3 e4 : Edge PathID) :
    X ++ [e1, e2, e3, e4] = (X ++ [e1]) ++ e2 :: e3 :: [e4] := by
  simp

/-- Looking up a position past the first of two appended lists. -/
theorem getElem?_append_add {α : Type} (l r : List α) (k : Nat) :
    (l ++ r)[l.length + k]? = r[k]? := by
  rw [List.getElem?_append_right (Nat.le_add_right _ _), Nat.add_sub_cancel_left]

/-- The handles `Register` leaves for FinalPass and GuiPass are consecutive and
name these two passes. -/
theorem registered_final_gui (app : App) (settings : RenderSettings) (data : PostProcessData)
    (rg : RenderGraph PathID) :
    (registered app settings data rg).ImGuiPassHandle =
        (registered app settings data rg).FinalPassHandle + 1 ∧
      (Register app settings data rg).2.passes[(registered app settings data rg).FinalPassHandle]? =
        some ⟨"FinalPass", .RENDER⟩ ∧
      (Register app settings data rg).2.passes[(registered app settings data rg).ImGuiPassHandle]? =
        some ⟨"GuiPass", .RENDER⟩ := by
  unfold registered
  rcases upscaler_cases app settings with ⟨h1, h2⟩ | ⟨h1, h2, h3⟩ | h
  · rw [Register_taa app settings data rg h1 h2]
    exact ⟨rfl, (getElem?_append_add _ _ 2).trans rfl, (getElem?_append_add _ _ 3).trans rfl⟩
  · rw [Register_fsr2 app settings data rg h1 h2 h3]
    exact ⟨rfl, (getElem?_append_add _ _ 2).trans rfl, (getElem?_append_add _ _ 3).trans rfl⟩
  · rw [Register_plain app settings data rg h]
    exact ⟨rfl, (getElem?_append_add _ _ 1).trans rfl, (getElem?_append_add _ _ 2).trans rfl⟩

/-- The declared edges end with the output of the dummy resource by FinalPass
directly followed by its input by GuiPass. -/
theorem declaredEdges_dummy (app : App) (settings : RenderSettings) (rt : RayTracerData)
    (data : PostProcessData) (rg : RenderGraph PathID) :
    ∃ pre post, declaredEdges app settings rt data rg =
      pre ++ ⟨(registered app settings data rg).FinalPassHandle, .Dummy .RES_1,
          .UNORDERED_ACCESS, .output⟩ ::
        ⟨(registered app settings data rg).ImGuiPassHandle, .Dummy .RES_1,
          .UNORDERED_ACCESS, .input⟩ :: post := by
  rcases upscaler_cases app settings with ⟨h1, h2⟩ | ⟨h1, h2, h3⟩ | h
  · have hr : registered app settings data rg = ⟨rg.passes.length, data.Fsr2PassHandle,
        rg.passes.length + 1, rg.passes.length + 2, rg.passes.length + 3⟩ := by
      unfold registered; rw [Register_taa app settings data rg h1 h2]
    rw [declaredEdges_taa app settings rt data rg h1 h2, hr, ← List.append_assoc,
      ← List.append_assoc]
    exact ⟨_, _, split_last_four _ _ _ _ _⟩
  · have hr : registered app settings data rg = ⟨data.TaaHandle, rg.passes.length,
        rg.passes.length + 1, rg.passes.length + 2, rg.passes.length + 3⟩ := by
      unfold registered; rw [Register_fsr2 app settings data rg h1 h2 h3]
    rw [declaredEdges_fsr2 app settings rt data rg h1 h2 h3, hr, ← List.append_assoc,
      ← List.append_assoc]
    exact ⟨_, _, split_last_four _ _ _ _ _⟩
  · have hr : registered app settings data rg = ⟨data.TaaHandle, data.Fsr2PassHandle,
        rg.passes.length, rg.passes.length + 1, rg.passes.length + 2⟩ := by
      unfold registered; rw [Register_plain app settings data rg h]
    rw [declaredEdges_plain app settings rt data rg h, hr, ← List.append_assoc]
    exact ⟨_, _, split_last_four _ _ _ _ _⟩

/-- Every declared edge on the dummy resource requires unordered-access. -/
theorem declaredEdges_dummy_state (app : App) (settings : RenderSettings) (rt : RayTracerData)
    (data : PostProcessData) (rg : RenderGraph PathID) :
    ∀ e ∈ declaredEdges app settings rt data rg, e.res = PathID.Dummy DUMMY_RES.RES_1 →
      e.state = D3D12_RESOURCE_STATES.UNORDERED_ACCESS := by
  rcases upscaler_cases app settings with ⟨h1, h2⟩ | ⟨h1, h2, h3⟩ | h
  · rw [declaredEdges_taa app settings rt data rg h1 h2]
    cases hrt : (settings.RTIndirectDiffuse && rt.TLASIsInitialized) <;>
      cases hdn : settings.DenoiseIndirectDiffuse <;>
      simp
  · rw [declaredEdges_fsr2 app settings rt data rg h1 h2 h3]
    cases hrt : (settings.RTIndirectDiffuse && rt.TLASIsInitialized) <;>
      cases hdn : settings.DenoiseIndirectDiffuse <;>
      simp
  · rw [declaredEdges_plain app settings rt data rg h]
    cases hrt : (settings.RTIndirectDiffuse && rt.TLASIsInitialized) <;>
      cases hdn : settings.DenoiseIndirectDiffuse <;>
      simp

/-- The dummy resource is registered once, with the null handle. -/
theorem registeredResources_dummy (app : App) (settings : RenderSettings)
    (data : PostProcessData) (rg : RenderGraph PathID) :
    (⟨.Dummy .RES_1, none, .COMMON⟩ : FrameResource PathID) ∈
        registeredResources app settings data rg ∧
      ∀ r ∈ registeredResources app settings data rg,
        r.id = PathID.Dummy DUMMY_RES.RES_1 → r.handle = none := by
  unfold registeredResources
  rcases upscaler_cases app settings with ⟨h1, h2⟩ | ⟨h1, h2, h3⟩ | h
  · rw [Register_taa app settings data rg h1 h2]; simp
  · rw [Register_fsr2 app settings data rg h1 h2 h3]; simp
  · rw [Register_plain app settings data rg h]; simp

end PostProcessor

/-! ## Claims on the owners -/

/-- C5: for every settings value and frame count, `PostProcessor` registers the
dummy resource RES_1 with a null handle and declares it as an output of
FinalPass and afterwards as an input of GuiPass, both in unordered-access
state; so GuiPass depends on FinalPass under the producer-to-consumer rule, any
order `Build` returns puts FinalPass before GuiPass, and every edge on RES_1
requires the same state. -/
theorem dummy_res_orders_gui_after_final (app : App) (settings : RenderSettings)
    (rt : RayTracerData) (data : PostProcessData) (rg : RenderGraph PathID) :
    ((⟨.Dummy .RES_1, none, .COMMON⟩ : FrameResource PathID) ∈
        PostProcessor.registeredResources app settings data rg ∧
      ∀ r ∈ PostProcessor.registeredResources app settings data rg,
        r.id = PathID.Dummy DUMMY_RES.RES_1 → r.handle = none) ∧
    ((PostProcessor.Register app settings data rg).2.passes[
          (PostProcessor.registered app settings data rg).FinalPassHandle]? =
        some ⟨"FinalPass", .RENDER⟩ ∧
      (PostProcessor.Register app settings data rg).2.passes[
          (PostProcessor.registered app settings data rg).ImGuiPassHandle]? =
        some ⟨"GuiPass", .RENDER⟩) ∧
    (∃ pre post, PostProcessor.declaredEdges app settings rt data rg =
      pre ++ ⟨(PostProcessor.registered app settings data rg).FinalPassHandle, .Dummy .RES_1,
          .UNORDERED_ACCESS, .output⟩ ::
        ⟨(PostProcessor.registered app settings data rg).ImGuiPassHandle, .Dummy .RES_1,
          .UNORDERED_ACCESS, .input⟩ :: post) ∧
    (PostProcessor.frame app settings rt data rg).DependsOn
      (PostProcessor.registered app settings data rg).FinalPassHandle
      (PostProcessor.registered app settings data rg).ImGuiPassHandle ∧
    (∀ order, (PostProcessor.frame app settings rt data rg).Build = some order →
      Precedes order (PostProcessor.registered app settings data rg).FinalPassHandle
        (PostProcessor.registered app settings data rg).ImGuiPassHandle) ∧
    (∀ e ∈ PostProcessor.declaredEdges app settings rt data rg,
      e.res = PathID.Dummy DUMMY_RES.RES_1 →
      e.state = D3D12_RESOURCE_STATES.UNORDERED_ACCESS) := by
  obtain ⟨hgui, hfinalName, hguiName⟩ := PostProcessor.registered_final_gui app settings data rg
  obtain ⟨pre, post, hsplit⟩ := PostProcessor.declaredEdges_dummy app settings rt data rg
  have hdep : (PostProcessor.frame app settings rt data rg).DependsOn
      (PostProcessor.registered app settings data rg).FinalPassHandle
      (PostProcessor.registered app settings data rg).ImGuiPassHandle := by
    unfold RenderGraph.DependsOn
    rw [PostProcessor.frame_edges, hsplit, ← List.append_assoc]
    exact DependencyGraph.adjacent_of_append (rg.edges ++ pre) [] post
      ⟨(PostProcessor.registered app settings data rg).FinalPassHandle, .Dummy .RES_1,
        .UNORDERED_ACCESS, .output⟩
      ⟨(PostProcessor.registered app settings data rg).ImGuiPassHandle, .Dummy .RES_1,
        .UNORDERED_ACCESS, .input⟩ rfl rfl (by rw [hgui]; exact Nat.ne_of_lt (Nat.lt_succ_self _))
  exact ⟨PostProcessor.registeredResources_dummy app settings data rg,
    ⟨hfinalName, hguiName⟩, ⟨pre, post, hsplit⟩, hdep,
    fun order ho => (RenderGraph.Build_some _ order ho).2 _ _ hdep,
    PostProcessor.declaredEdges_dummy_state app settings rt data rg⟩

/-- C7: for every settings value and total frame count, every pass handle that
`PostProcessor::DeclareAdjacencies` passes to `AddInput` or `AddOutput` was
assigned by `RegisterRenderPass` in `PostProcessor::Register` of the same frame:
it lies in the range of handles that `Register` appended and names one of the
passes registered there; the handles that `PostProcessData` held before the
frame have no influence on the declared edges. -/
theorem declared_handles_are_fresh (app : App) (settings : RenderSettings)
    (rt : RayTracerData) (data : PostProcessData) (rg : RenderGraph PathID) :
    (PostProcessor.Register app settings data rg).2.passes =
        rg.passes ++ PostProcessor.registeredPasses app settings data rg ∧
    (∀ e ∈ PostProcessor.declaredEdges app settings rt data rg,
      rg.passes.length ≤ e.pass ∧
      e.pass < rg.passes.length + (PostProcessor.registeredPasses app settings data rg).length ∧
      ∃ node ∈ PostProcessor.registeredPasses app settings data rg,
        (PostProcessor.Register app settings data rg).2.passes[e.pass]? = some node) ∧
    (∀ stale : PostProcessData,
      PostProcessor.declaredEdges app settings rt stale rg =
        PostProcessor.declaredEdges app settings rt data rg) := by
  have hpasses : (PostProcessor.Register app settings data rg).2.passes =
      rg.passes ++ PostProcessor.registeredPasses app settings data rg := by
    unfold PostProcessor.registeredPasses
    rcases PostProcessor.upscaler_cases app settings with ⟨h1, h2⟩ | ⟨h1, h2, h3⟩ | h
    · rw [PostProcessor.Register_taa app settings data rg h1 h2]; simp
    · rw [PostProcessor.Register_fsr2 app settings data rg h1 h2 h3]; simp
    · rw [PostProcessor.Register_plain app settings data rg h]; simp
  refine ⟨hpasses, ?_, ?_⟩
  · intro e he
    obtain ⟨hlo, hhi⟩ := PostProcessor.declaredEdges_handles app settings rt data rg e he
    rw [hpasses, List.length_append] at hhi
    refine ⟨hlo, hhi, ?_⟩
    have hlt : e.pass - rg.passes.length <
        (PostProcessor.registeredPasses app settings data rg).length :=
      Nat.sub_lt_left_of_lt_add hlo hhi
    refine ⟨(PostProcessor.registeredPasses app settings data rg)[e.pass - rg.passes.length],
      List.getElem_mem _, ?_⟩
    rw [hpasses, List.getElem?_append_right hlo]
    exact List.getElem?_eq_getElem hlt
  · intro stale
    rcases PostProcessor.upscaler_cases app settings with ⟨h1, h2⟩ | ⟨h1, h2, h3⟩ | h
    · rw [PostProcessor.declaredEdges_taa app settings rt data rg h1 h2,
        PostProcessor.declaredEdges_taa app settings rt stale rg h1 h2]
    · rw [PostProcessor.declaredEdges_fsr2 app settings rt data rg h1 h2 h3,
        PostProcessor.declaredEdges_fsr2 app settings rt stale rg h1 h2 h3]
    · rw [PostProcessor.declaredEdges_plain app settings rt data rg h,
        PostProcessor.declaredEdges_plain app settings rt stale rg h]

namespace PostProcessor

/-- In the graph of the declared edges a dependency goes from a pass
registered earlier to a pass registered later. -/
theorem declaredEdges_adjacent_lt (app : App) (settings : RenderSettings)
    (rt : RayTracerData) (data : PostProcessData) (rg : RenderGraph PathID) :
    ∀ a b, DependencyGraph.adjacent (declaredEdges app settings rt data rg) a b = true →
      a < b :=
  DependencyGraph.adjacent_lt_of_pairwise _ (declaredEdges_forward app settings rt data rg)

/-- With TAA registered: its handle, its history input, its output, and no
output edge on the history texture. -/
theorem taa_edges (app : App) (settings : RenderSettings) (rt : RayTracerData)
    (data : PostProcessData) (rg : RenderGraph PathID)
    (hfc : app.TotalFrameCount > 2) (htaa : settings.TAA = true) :
    (registered app settings data rg).TaaHandle = rg.passes.length ∧
    (Register app settings data rg).2.passes[rg.passes.length]? = some ⟨"TAA", .COMPUTE⟩ ∧
    (⟨rg.passes.length, .TaaOutput (if app.CurrOutIdx = 0 then .OUTPUT_A else .OUTPUT_B),
        .ALL_SHADER_RESOURCE, .input⟩ : Edge PathID) ∈ declaredEdges app settings rt data rg ∧
    (⟨rg.passes.length, .TaaOutput (if app.CurrOutIdx = 0 then .OUTPUT_B else .OUTPUT_A),
        .UNORDERED_ACCESS, .output⟩ : Edge PathID) ∈ declaredEdges app settings rt data rg ∧
    (∀ e ∈ declaredEdges app settings rt data rg, e.dir = Direction.output →
      e.res ≠ PathID.TaaOutput
        (if app.CurrOutIdx = 0 then TAA_SHADER_OUT_RES.OUTPUT_A
          else TAA_SHADER_OUT_RES.OUTPUT_B)) ∧
    (∀ e ∈ declaredEdges app settings rt data rg, e.pass = rg.passes.length →
      ∀ x, e.res = PathID.TaaOutput x →
        (e.dir = Direction.input ∧ e.state = D3D12_RESOURCE_STATES.ALL_SHADER_RESOURCE ∧
          x = (if app.CurrOutIdx = 0 then TAA_SHADER_OUT_RES.OUTPUT_A
            else TAA_SHADER_OUT_RES.OUTPUT_B)) ∨
        (e.dir = Direction.output ∧ e.state = D3D12_RESOURCE_STATES.UNORDERED_ACCESS ∧
          x = (if app.CurrOutIdx = 0 then TAA_SHADER_OUT_RES.OUTPUT_B
            else TAA_SHADER_OUT_RES.OUTPUT_A))) := by
  refine ⟨?_, ?_, ?_, ?_, ?_, ?_⟩
  · unfold registered; rw [Register_taa app settings data rg hfc htaa]
  · rw [Register_taa app settings data rg hfc htaa]
    exact (getElem?_append_add _ _ 0).trans rfl
  · rw [declaredEdges_taa app settings rt data rg hfc htaa]; simp
  · rw [declaredEdges_taa app settings rt data rg hfc htaa]; simp
  · rw [declaredEdges_taa app settings rt data rg hfc htaa]
    by_cases hidx : app.CurrOutIdx = 0 <;>
      cases hrt : (settings.RTIndirectDiffuse && rt.TLASIsInitialized) <;>
      cases hdn : settings.DenoiseIndirectDiffuse <;>
      simp [hidx]
  · rw [declaredEdges_taa app settings rt data rg hfc htaa]
    by_cases hidx : app.CurrOutIdx = 0 <;>
      cases hrt : (settings.RTIndirectDiffuse && rt.TLASIsInitialized) <;>
      cases hdn : settings.DenoiseIndirectDiffuse <;>
      simp [hidx]

/-- No pass is a predecessor, in the graph of the declared edges, of the first
pass `Register` registers. -/
theorem no_predecessor_of_first (app : App) (settings : RenderSettings)
    (rt : RayTracerData) (data : PostProcessData) (rg : RenderGraph PathID) :
    ∀ a, DependencyGraph.adjacent (declaredEdges app settings rt data rg) a
      rg.passes.length = false := by
  intro a
  cases hadj : DependencyGraph.adjacent (declaredEdges app settings rt data rg) a
      rg.passes.length with
  | false => rfl
  | true =>
    have hlt : a < rg.passes.length := declaredEdges_adjacent_lt app settings rt data rg _ _ hadj
    obtain ⟨_, ⟨e, he, hpa⟩, _⟩ := DependencyGraph.adjacent_mem _ _ _ hadj
    have hge : rg.passes.length ≤ e.pass := (declaredEdges_handles app settings rt data rg e he).1
    rw [hpa] at hge
    exact absurd (Nat.lt_of_lt_of_le hlt hge) (Nat.lt_irrefl _)

/-- The names of the passes `Register` registers, in registration order. -/
theorem registeredPasses_names (app : App) (settings : RenderSettings)
    (data : PostProcessData) (rg : RenderGraph PathID) :
    (registeredPasses app settings data rg).map (fun p => p.name) =
      (if app.TotalFrameCount > 2 then
        (if settings.TAA = true then ["TAA"] else if settings.Fsr2 = true then ["FSR2"] else [])
      else []) ++ ["LuminanceReduction", "FinalPass", "GuiPass"] := by
  unfold registeredPasses
  rcases upscaler_cases app settings with ⟨h1, h2⟩ | ⟨h1, h2, h3⟩ | h
  · rw [Register_taa app settings data rg h1 h2]; simp [h1, h2]
  · rw [Register_fsr2 app settings data rg h1 h2 h3]; simp [h1, h2, h3]
  · rw [Register_plain app settings data rg h]
    rcases h with h | ⟨h2, h3⟩
    · simp [h]
    · simp [h2, h3]

end PostProcessor

/-- C9: with the TAA pass registered (TAA enabled, more than two frames), for
both values of the double-buffer index the TAA pass declares its history input
and its output on the two different ping-pong textures (index 0: reads
OUTPUT_A, writes OUTPUT_B; index 1: reads OUTPUT_B, writes OUTPUT_A), the roles
swap when the index flips, no edge declared by `PostProcessor` outputs the
history texture, and no pass is a predecessor of the TAA pass in the graph of
the declared edges. -/
theorem taa_ping_pong (fc bb : Nat) (settings : RenderSettings) (rt : RayTracerData)
    (data : PostProcessData) (rg : RenderGraph PathID)
    (hfc : fc > 2) (htaa : settings.TAA = true) :
    ((PostProcessor.registered ⟨fc, 0, bb⟩ settings data rg).TaaHandle = rg.passes.length ∧
      (⟨rg.passes.length, .TaaOutput .OUTPUT_A, .ALL_SHADER_RESOURCE, .input⟩ : Edge PathID) ∈
        PostProcessor.declaredEdges ⟨fc, 0, bb⟩ settings rt data rg ∧
      (⟨rg.passes.length, .TaaOutput .OUTPUT_B, .UNORDERED_ACCESS, .output⟩ : Edge PathID) ∈
        PostProcessor.declaredEdges ⟨fc, 0, bb⟩ settings rt data rg ∧
      (∀ e ∈ PostProcessor.declaredEdges ⟨fc, 0, bb⟩ settings rt data rg,
        e.dir = Direction.output → e.res ≠ PathID.TaaOutput TAA_SHADER_OUT_RES.OUTPUT_A) ∧
      (∀ a, DependencyGraph.adjacent
        (PostProcessor.declaredEdges ⟨fc, 0, bb⟩ settings rt data rg) a rg.passes.length =
          false)) ∧
    ((PostProcessor.registered ⟨fc, 1, bb⟩ settings data rg).TaaHandle = rg.passes.length ∧
      (⟨rg.passes.length, .TaaOutput .OUTPUT_B, .ALL_SHADER_RESOURCE, .input⟩ : Edge PathID) ∈
        PostProcessor.declaredEdges ⟨fc, 1, bb⟩ settings rt data rg ∧
      (⟨rg.passes.length, .TaaOutput .OUTPUT_A, .UNORDERED_ACCESS, .output⟩ : Edge PathID) ∈
        PostProcessor.declaredEdges ⟨fc, 1, bb⟩ settings rt data rg ∧
      (∀ e ∈ PostProcessor.declaredEdges ⟨fc, 1, bb⟩ settings rt data rg,
        e.dir = Direction.output → e.res ≠ PathID.TaaOutput TAA_SHADER_OUT_RES.OUTPUT_B) ∧
      (∀ a, DependencyGraph.adjacent
        (PostProcessor.declaredEdges ⟨fc, 1, bb⟩ settings rt data rg) a rg.passes.length =
          false)) ∧
    PathID.TaaOutput TAA_SHADER_OUT_RES.OUTPUT_A ≠ PathID.TaaOutput TAA_SHADER_OUT_RES.OUTPUT_B := by
  obtain ⟨a1, _, a3, a4, a5, _⟩ := PostProcessor.taa_edges ⟨fc, 0, bb⟩ settings rt data rg hfc htaa
  obtain ⟨b1, _, b3, b4, b5, _⟩ := PostProcessor.taa_edges ⟨fc, 1, bb⟩ settings rt data rg hfc htaa
  simp only [if_true] at a3 a4 a5
  simp only [Nat.succ_ne_zero, if_false, one_ne_zero] at b3 b4 b5
  exact ⟨⟨a1, a3, a4, a5, PostProcessor.no_predecessor_of_first _ settings rt data rg⟩,
    ⟨b1, b3, b4, b5, PostProcessor.no_predecessor_of_first _ settings rt data rg⟩, by decide⟩

/-- C9 at frame 3 with TAA enabled, from an empty graph. -/
theorem taa_ping_pong_witness :
    ((3 : Nat) > 2 ∧ (⟨true, false, false, false⟩ : RenderSettings).TAA = true) ∧
    (⟨0, .TaaOutput .OUTPUT_A, .ALL_SHADER_RESOURCE, .input⟩ : Edge PathID) ∈
      PostProcessor.declaredEdges ⟨3, 0, 0⟩ ⟨true, false, false, false⟩ ⟨true, true⟩
        ⟨0, 0, 0, 0, 0⟩ RenderGraph.empty ∧
    (⟨0, .TaaOutput .OUTPUT_B, .ALL_SHADER_RESOURCE, .input⟩ : Edge PathID) ∈
      PostProcessor.declaredEdges ⟨3, 1, 0⟩ ⟨true, false, false, false⟩ ⟨true, true⟩
        ⟨0, 0, 0, 0, 0⟩ RenderGraph.empty :=
  have h := taa_ping_pong 3 0 ⟨true, false, false, false⟩ ⟨true, true⟩ ⟨0, 0, 0, 0, 0⟩
    RenderGraph.empty (by decide) rfl
  ⟨⟨by decide, rfl⟩, h.1.2.1, h.2.1.2.1⟩

/-- C10: for every settings value, double-buffer index and frame count, in the
pass graph induced by the edges `PostProcessor` declares every dependency goes
from a pass registered earlier to a pass registered later, so the graph is
acyclic and the registration order of `PostProcessor::Register` (upscaler if
any, LuminanceReduction, FinalPass, GuiPass) is a topological order of it; built
on its own, the graph is scheduled in registration order. -/
theorem postprocessor_graph_acyclic (app : App) (settings : RenderSettings)
    (rt : RayTracerData) (data : PostProcessData) (rg : RenderGraph PathID) :
    (∀ a b, DependencyGraph.adjacent (PostProcessor.declaredEdges app settings rt data rg) a b =
      true → a < b) ∧
    ¬ RenderGraph.Cyclic (⟨(PostProcessor.Register app settings data rg).2.passes,
      (PostProcessor.Register app settings data rg).2.resources,
      PostProcessor.declaredEdges app settings rt data rg⟩ : RenderGraph PathID) ∧
    (PostProcessor.registeredPasses app settings data rg).map (fun p => p.name) =
      (if app.TotalFrameCount > 2 then
        (if settings.TAA = true then ["TAA"] else if settings.Fsr2 = true then ["FSR2"] else [])
      else []) ++ ["LuminanceReduction", "FinalPass", "GuiPass"] ∧
    (PostProcessor.frame app settings rt data RenderGraph.empty).Build =
      some (List.range
        (PostProcessor.registeredPasses app settings data RenderGraph.empty).length) := by
  have hlt := PostProcessor.declaredEdges_adjacent_lt app settings rt data rg
  refine ⟨hlt, RenderGraph.not_cyclic_of_lt _ hlt,
    PostProcessor.registeredPasses_names app settings data rg, ?_⟩
  have hedges : (PostProcessor.frame app settings rt data RenderGraph.empty).edges =
      PostProcessor.declaredEdges app settings rt data RenderGraph.empty := by
    rw [PostProcessor.frame_edges]; rfl
  have hpasses : (PostProcessor.frame app settings rt data RenderGraph.empty).passes.length =
      (PostProcessor.registeredPasses app settings data RenderGraph.empty).length := by
    rw [PostProcessor.frame_passes]
    unfold PostProcessor.registeredPasses
    simp [RenderGraph.empty]
  have hreg : (PostProcessor.frame app settings rt data RenderGraph.empty).HandlesRegistered := by
    intro e he
    rw [hedges] at he
    rw [PostProcessor.frame_passes]
    exact (PostProcessor.declaredEdges_handles app settings rt data RenderGraph.empty e he).2
  have hdep : ∀ a b, (PostProcessor.frame app settings rt data RenderGraph.empty).DependsOn a b →
      a < b := by
    intro a b hab
    unfold RenderGraph.DependsOn at hab
    rw [hedges] at hab
    exact PostProcessor.declaredEdges_adjacent_lt app settings rt data RenderGraph.empty a b hab
  rw [RenderGraph.Build_eq_range_of_lt _ hreg hdep, hpasses]

namespace GBuffer

/-- `Register`, spelled out. -/
theorem gbuffer_register_eq (rt : RayTracerData) (data : GBufferData) (rg : RenderGraph PathID) :
    Register data rt rg =
      (if rt.RtASIsReady = true then
        (⟨rg.passes.length⟩,
          ⟨rg.passes ++ [⟨"GBuffer", .COMPUTE⟩],
            rg.resources ++
              [⟨.GBufferNormal 0, some (.GBufferNormal 0), .COMMON⟩,
                ⟨.GBufferDepth 0, some (.GBufferDepth 0), .COMMON⟩,
                ⟨.GBufferMetallicRoughness 0, some (.GBufferMetallicRoughness 0), .COMMON⟩,
                ⟨.GBufferBaseColor 0, some (.GBufferBaseColor 0), .COMMON⟩,
                ⟨.GBufferNormal 1, some (.GBufferNormal 1), .COMMON⟩,
                ⟨.GBufferDepth 1, some (.GBufferDepth 1), .COMMON⟩,
                ⟨.GBufferMetallicRoughness 1, some (.GBufferMetallicRoughness 1), .COMMON⟩,
                ⟨.GBufferBaseColor 1, some (.GBufferBaseColor 1), .COMMON⟩,
                ⟨.GBufferMotionVec, some .GBufferMotionVec, .COMMON⟩,
                ⟨.GBufferEmissiveColor, some .GBufferEmissiveColor, .COMMON⟩,
                ⟨.GBufferCurvature, some .GBufferCurvature, .COMMON⟩],
            rg.edges⟩)
      else (data, rg)) := by
  cases hready : rt.RtASIsReady <;>
    simp [Register, RegisterLoopBody, RenderGraph.RegisterRenderPass,
      RenderGraph.RegisterResource, hready, List.range, List.range.loop]

/-- `DeclareAdjacencies`, spelled out. -/
theorem gbuffer_adjacencies_eq (app : App) (rt : RayTracerData) (data : GBufferData)
    (rg : RenderGraph PathID) :
    DeclareAdjacencies app data rt rg =
      (if rt.RtASIsReady = true then
        ⟨rg.passes, rg.resources,
          rg.edges ++
            [⟨data.GBufferPassHandle, .TLAS, .RAYTRACING_ACCELERATION_STRUCTURE, .input⟩,
              ⟨data.GBufferPassHandle, .GBufferBaseColor app.CurrOutIdx, .UNORDERED_ACCESS,
                .output⟩,
              ⟨data.GBufferPassHandle, .GBufferNormal app.CurrOutIdx, .UNORDERED_ACCESS,
                .output⟩,
              ⟨data.GBufferPassHandle, .GBufferMetallicRoughness app.CurrOutIdx,
                .UNORDERED_ACCESS, .output⟩,
              ⟨data.GBufferPassHandle, .GBufferMotionVec, .UNORDERED_ACCESS, .output⟩,
              ⟨data.GBufferPassHandle, .GBufferEmissiveColor, .UNORDERED_ACCESS, .output⟩,
              ⟨data.GBufferPassHandle, .GBufferDepth app.CurrOutIdx, .UNORDERED_ACCESS,
                .output⟩,
              ⟨data.GBufferPassHandle, .GBufferCurvature, .UNORDERED_ACCESS, .output⟩]⟩
      else rg) := by
  cases hready : rt.RtASIsReady <;>
    simp [DeclareAdjacencies, RenderGraph.AddInput, RenderGraph.AddOutput, hready]

/-- The resources registered when the acceleration structure is ready. -/
theorem registeredResources_ready (rt : RayTracerData) (data : GBufferData)
    (rg : RenderGraph PathID) (hready : rt.RtASIsReady = true) :
    registeredResources rt data rg =
      [⟨.GBufferNormal 0, some (.GBufferNormal 0), .COMMON⟩,
        ⟨.GBufferDepth 0, some (.GBufferDepth 0), .COMMON⟩,
        ⟨.GBufferMetallicRoughness 0, some (.GBufferMetallicRoughness 0), .COMMON⟩,
        ⟨.GBufferBaseColor 0, some (.GBufferBaseColor 0), .COMMON⟩,
        ⟨.GBufferNormal 1, some (.GBufferNormal 1), .COMMON⟩,
        ⟨.GBufferDepth 1, some (.GBufferDepth 1), .COMMON⟩,
        ⟨.GBufferMetallicRoughness 1, some (.GBufferMetallicRoughness 1), .COMMON⟩,
        ⟨.GBufferBaseColor 1, some (.GBufferBaseColor 1), .COMMON⟩,
        ⟨.GBufferMotionVec, some .GBufferMotionVec, .COMMON⟩,
        ⟨.GBufferEmissiveColor, some .GBufferEmissiveColor, .COMMON⟩,
        ⟨.GBufferCurvature, some .GBufferCurvature, .COMMON⟩] := by
  unfold registeredResources
  rw [gbuffer_register_eq, if_pos hready]
  simp

/-- The edges declared when the acceleration structure is ready. -/
theorem declaredEdges_ready (app : App) (rt : RayTracerData) (data : GBufferData)
    (rg : RenderGraph PathID) (hready : rt.RtASIsReady = true) :
    declaredEdges app rt data rg =
      [⟨rg.passes.length, .TLAS, .RAYTRACING_ACCELERATION_STRUCTURE, .input⟩,
        ⟨rg.passes.length, .GBufferBaseColor app.CurrOutIdx, .UNORDERED_ACCESS, .output⟩,
        ⟨rg.passes.length, .GBufferNormal app.CurrOutIdx, .UNORDERED_ACCESS, .output⟩,
        ⟨rg.passes.length, .GBufferMetallicRoughness app.CurrOutIdx, .UNORDERED_ACCESS,
          .output⟩,
        ⟨rg.passes.length, .GBufferMotionVec, .UNORDERED_ACCESS, .output⟩,
        ⟨rg.passes.length, .GBufferEmissiveColor, .UNORDERED_ACCESS, .output⟩,
        ⟨rg.passes.length, .GBufferDepth app.CurrOutIdx, .UNORDERED_ACCESS, .output⟩,
        ⟨rg.passes.length, .GBufferCurvature, .UNORDERED_ACCESS, .output⟩] := by
  unfold declaredEdges frame
  rw [gbuffer_adjacencies_eq, gbuffer_register_eq, if_pos hready, if_pos hready]
  simp

end GBuffer

/-- C8: when the acceleration structure is not ready, `GBuffer::Register` and
`GBuffer::DeclareAdjacencies` leave the render graph (and the data) unchanged:
no pass, no resource, no edge; when it is ready, `Register` registers exactly
one compute pass named "GBuffer" (and the eleven G-buffer resources) and
`DeclareAdjacencies` declares, on the handle of that pass, exactly one input
(the TLAS in acceleration-structure state) and seven outputs, all in
unordered-access state. -/
theorem gbuffer_omitted_unless_ready (app : App) (rt : RayTracerData) (data : GBufferData)
    (rg : RenderGraph PathID) :
    GBuffer.Register data rt rg =
      (if rt.RtASIsReady = true then
        (⟨rg.passes.length⟩,
          ⟨rg.passes ++ [⟨"GBuffer", .COMPUTE⟩],
            rg.resources ++
              [⟨.GBufferNormal 0, some (.GBufferNormal 0), .COMMON⟩,
                ⟨.GBufferDepth 0, some (.GBufferDepth 0), .COMMON⟩,
                ⟨.GBufferMetallicRoughness 0, some (.GBufferMetallicRoughness 0), .COMMON⟩,
                ⟨.GBufferBaseColor 0, some (.GBufferBaseColor 0), .COMMON⟩,
                ⟨.GBufferNormal 1, some (.GBufferNormal 1), .COMMON⟩,
                ⟨.GBufferDepth 1, some (.GBufferDepth 1), .COMMON⟩,
                ⟨.GBufferMetallicRoughness 1, some (.GBufferMetallicRoughness 1), .COMMON⟩,
                ⟨.GBufferBaseColor 1, some (.GBufferBaseColor 1), .COMMON⟩,
                ⟨.GBufferMotionVec, some .GBufferMotionVec, .COMMON⟩,
                ⟨.GBufferEmissiveColor, some .GBufferEmissiveColor, .COMMON⟩,
                ⟨.GBufferCurvature, some .GBufferCurvature, .COMMON⟩],
            rg.edges⟩)
      else (data, rg)) ∧
    GBuffer.DeclareAdjacencies app data rt rg =
      (if rt.RtASIsReady = true then
        ⟨rg.passes, rg.resources,
          rg.edges ++
            [⟨data.GBufferPassHandle, .TLAS, .RAYTRACING_ACCELERATION_STRUCTURE, .input⟩,
              ⟨data.GBufferPassHandle, .GBufferBaseColor app.CurrOutIdx, .UNORDERED_ACCESS,
                .output⟩,
              ⟨data.GBufferPassHandle, .GBufferNormal app.CurrOutIdx, .UNORDERED_ACCESS,
                .output⟩,
              ⟨data.GBufferPassHandle, .GBufferMetallicRoughness app.CurrOutIdx,
                .UNORDERED_ACCESS, .output⟩,
              ⟨data.GBufferPassHandle, .GBufferMotionVec, .UNORDERED_ACCESS, .output⟩,
              ⟨data.GBufferPassHandle, .GBufferEmissiveColor, .UNORDERED_ACCESS, .output⟩,
              ⟨data.GBufferPassHandle, .GBufferDepth app.CurrOutIdx, .UNORDERED_ACCESS,
                .output⟩,
              ⟨data.GBufferPassHandle, .GBufferCurvature, .UNORDERED_ACCESS, .output⟩]⟩
      else rg) ∧
    (GBuffer.Register data rt rg).1.GBufferPassHandle =
      (if rt.RtASIsReady = true then rg.passes.length else data.GBufferPassHandle) := by
  refine ⟨GBuffer.gbuffer_register_eq rt data rg, GBuffer.gbuffer_adjacencies_eq app rt data rg, ?_⟩
  rw [GBuffer.gbuffer_register_eq]
  split <;> rfl

namespace PostProcessor

/-- Every output edge `DeclareAdjacencies` declares is on a resource that
`Register` registers in the frame. -/
theorem outputs_registered (app : App) (settings : RenderSettings) (rt : RayTracerData)
    (pdata : PostProcessData) (rgP : RenderGraph PathID) :
    ∀ e ∈ declaredEdges app settings rt pdata rgP, e.dir = Direction.output →
      ∃ r ∈ registeredResources app settings pdata rgP, r.id = e.res := by
  unfold registeredResources
  rcases upscaler_cases app settings with ⟨h1, h2⟩ | ⟨h1, h2, h3⟩ | h
  · rw [declaredEdges_taa app settings rt pdata rgP h1 h2,
      Register_taa app settings pdata rgP h1 h2]
    by_cases hi : app.CurrOutIdx = 0 <;>
      cases hrt : (settings.RTIndirectDiffuse && rt.TLASIsInitialized) <;>
      cases hdn : settings.DenoiseIndirectDiffuse <;>
      simp [hi]
  · rw [declaredEdges_fsr2 app settings rt pdata rgP h1 h2 h3,
      Register_fsr2 app settings pdata rgP h1 h2 h3]
    cases hrt : (settings.RTIndirectDiffuse && rt.TLASIsInitialized) <;>
      cases hdn : settings.DenoiseIndirectDiffuse <;>
      simp
  · rw [declaredEdges_plain app settings rt pdata rgP h,
      Register_plain app settings pdata rgP h]
    cases hrt : (settings.RTIndirectDiffuse && rt.TLASIsInitialized) <;>
      cases hdn : settings.DenoiseIndirectDiffuse <;>
      simp

/-- The resources of the output edges `DeclareAdjacencies` declares. -/
theorem outputs_list (app : App) (settings : RenderSettings) (rt : RayTracerData)
    (pdata : PostProcessData) (rgP : RenderGraph PathID) :
    ∀ e ∈ declaredEdges app settings rt pdata rgP, e.dir = Direction.output →
      e.res ∈ [PathID.TaaOutput (if app.CurrOutIdx = 0 then TAA_SHADER_OUT_RES.OUTPUT_B
          else TAA_SHADER_OUT_RES.OUTPUT_A),
        PathID.Fsr2Upscaled, PathID.LumReductionAvgLum, PathID.BackBuffer app.CurrBackBuffer,
        PathID.Dummy DUMMY_RES.RES_1] := by
  rcases upscaler_cases app settings with ⟨h1, h2⟩ | ⟨h1, h2, h3⟩ | h
  · rw [declaredEdges_taa app settings rt pdata rgP h1 h2]
    by_cases hi : app.CurrOutIdx = 0 <;>
      cases hrt : (settings.RTIndirectDiffuse && rt.TLASIsInitialized) <;>
      cases hdn : settings.DenoiseIndirectDiffuse <;>
      simp [hi]
  · rw [declaredEdges_fsr2 app settings rt pdata rgP h1 h2 h3]
    by_cases hi : app.CurrOutIdx = 0 <;>
      cases hrt : (settings.RTIndirectDiffuse && rt.TLASIsInitialized) <;>
      cases hdn : settings.DenoiseIndirectDiffuse <;>
      simp [hi]
  · rw [declaredEdges_plain app settings rt pdata rgP h]
    by_cases hi : app.CurrOutIdx = 0 <;>
      cases hrt : (settings.RTIndirectDiffuse && rt.TLASIsInitialized) <;>
      cases hdn : settings.DenoiseIndirectDiffuse <;>
      simp [hi]

end PostProcessor

/-- C6: every resource id that an owner declares as an output edge is
registered by the same owner in the same frame.  For `GBuffer`, with the
double-buffer index in {0,1} and the acceleration structure ready, the seven
outputs are among the eleven registered resources; for `PostProcessor`, for
every settings value and frame count, each declared output (the current TAA
output, the FSR2 upscaled output, the average-luminance buffer, the back buffer,
the dummy resource RES_1) is registered by `PostProcessor::Register`. -/
theorem outputs_are_registered (app : App) (rt : RayTracerData) (gdata : GBufferData)
    (settings : RenderSettings) (pdata : PostProcessData) (rgG rgP : RenderGraph PathID)
    (hidx : app.CurrOutIdx < 2) (hready : rt.RtASIsReady = true) :
    (∀ e ∈ GBuffer.declaredEdges app rt gdata rgG, e.dir = Direction.output →
      ∃ r ∈ GBuffer.registeredResources rt gdata rgG, r.id = e.res) ∧
    ((GBuffer.declaredEdges app rt gdata rgG).filter
      (fun e => decide (e.dir = Direction.output))).length = 7 ∧
    (GBuffer.registeredResources rt gdata rgG).length = 11 ∧
    (∀ e ∈ PostProcessor.declaredEdges app settings rt pdata rgP, e.dir = Direction.output →
      ∃ r ∈ PostProcessor.registeredResources app settings pdata rgP, r.id = e.res) ∧
    (∀ e ∈ PostProcessor.declaredEdges app settings rt pdata rgP, e.dir = Direction.output →
      e.res ∈ [PathID.TaaOutput (if app.CurrOutIdx = 0 then TAA_SHADER_OUT_RES.OUTPUT_B
          else TAA_SHADER_OUT_RES.OUTPUT_A),
        PathID.Fsr2Upscaled, PathID.LumReductionAvgLum, PathID.BackBuffer app.CurrBackBuffer,
        PathID.Dummy DUMMY_RES.RES_1]) := by
  refine ⟨?_, ?_, ?_, ?_, ?_⟩
  · rw [GBuffer.declaredEdges_ready app rt gdata rgG hready,
      GBuffer.registeredResources_ready rt gdata rgG hready]
    have h01 : app.CurrOutIdx = 0 ∨ app.CurrOutIdx = 1 := by omega
    rcases h01 with h | h <;> simp [h]
  · rw [GBuffer.declaredEdges_ready app rt gdata rgG hready]
    simp
  · rw [GBuffer.registeredResources_ready rt gdata rgG hready]
    rfl
  · exact PostProcessor.outputs_registered app settings rt pdata rgP
  · exact PostProcessor.outputs_list app settings rt pdata rgP

/-- C6 at frame 3 with TAA enabled, double-buffer index 1 and a ready
acceleration structure, from empty graphs. -/
theorem outputs_are_registered_witness :
    ((⟨3, 1, 0⟩ : App).CurrOutIdx < 2 ∧ (⟨true, true⟩ : RayTracerData).RtASIsReady = true) ∧
    (∀ e ∈ GBuffer.declaredEdges ⟨3, 1, 0⟩ ⟨true, true⟩ ⟨0⟩ RenderGraph.empty,
      e.dir = Direction.output →
      ∃ r ∈ GBuffer.registeredResources ⟨true, true⟩ ⟨0⟩ RenderGraph.empty, r.id = e.res) ∧
    (∀ e ∈ PostProcessor.declaredEdges ⟨3, 1, 0⟩ ⟨true, false, false, false⟩ ⟨true, true⟩
        ⟨0, 0, 0, 0, 0⟩ RenderGraph.empty,
      e.dir = Direction.output →
      ∃ r ∈ PostProcessor.registeredResources ⟨3, 1, 0⟩ ⟨true, false, false, false⟩
        ⟨0, 0, 0, 0, 0⟩ RenderGraph.empty, r.id = e.res) :=
  have h := outputs_are_registered ⟨3, 1, 0⟩ ⟨true, true⟩ ⟨0⟩ ⟨true, false, false, false⟩
    ⟨0, 0, 0, 0, 0⟩ RenderGraph.empty RenderGraph.empty (by decide) rfl
  ⟨⟨by decide, rfl⟩, h.1, h.2.2.2.1⟩

/-! ## Material and DirectLighting -/

namespace Material

/-- Whether `x & (1 << 30)` is nonzero is bit 30 of `x`. -/
theorem and_bit30_ne_zero (x : Nat) : ((x &&& (1 <<< 30)) != 0) = x.testBit 30 := by
  rw [Nat.one_shiftLeft]
  cases h : x.testBit 30 with
  | true =>
    have hb : (x &&& 2 ^ 30).testBit 30 = true := by
      rw [Nat.testBit_and, h, Nat.testBit_two_pow_self]; rfl
    have hne : x &&& 2 ^ 30 ≠ 0 := by
      intro h0
      rw [h0, Nat.zero_testBit] at hb
      cases hb
    simpa using hne
  | false =>
    have h0 : x &&& 2 ^ 30 = 0 := by
      apply Nat.eq_of_testBit_eq
      intro i
      rw [Nat.testBit_and, Nat.testBit_two_pow, Nat.zero_testBit]
      by_cases hi : 30 = i
      · subst hi; simp [h]
      · simp [hi]
    rw [h0]; rfl

/-- The getter `IsDoubleSided` reads bit 30 of `Packed`. -/
theorem IsDoubleSided_eq (m : Material) : m.IsDoubleSided = m.Packed.testBit 30 :=
  and_bit30_ne_zero m.Packed

/-- The getter `GpuBufferIndex` reads the low 28 bits of `Packed`. -/
theorem GpuBufferIndex_eq (m : Material) : m.GpuBufferIndex = m.Packed % 2 ^ 28 := by
  unfold GpuBufferIndex
  exact Nat.and_pow_two_sub_one_eq_mod m.Packed 28

/-- Or-ing in a multiple of 2^28 and reducing to 32 bits keeps the low 28 bits. -/
theorem low28_or_shift (p k s : Nat) (hs : 28 ≤ s) :
    ((p ||| (k <<< s) % 2 ^ 32) % 2 ^ 32) % 2 ^ 28 = p % 2 ^ 28 := by
  apply Nat.eq_of_testBit_eq
  intro i
  simp only [Nat.testBit_mod_two_pow, Nat.testBit_or, Nat.testBit_shiftLeft]
  by_cases hi : i < 28
  · have h1 : i < 32 := by omega
    have h2 : ¬ i ≥ s := by omega
    simp [hi, h1, h2]
  · simp [hi]

end Material

/-- C11: for a default-constructed `Material` and every `idx < 1,000,000`, after
`SetGpuBufferIndex(idx)` the getter `GpuBufferIndex()` returns `idx`. -/
theorem gpu_buffer_index_round_trip (idx : Nat) (h : idx < 1000000) :
    (Material.ctor.SetGpuBufferIndex idx).GpuBufferIndex = idx := by
  rw [Material.GpuBufferIndex_eq]
  simp only [Material.SetGpuBufferIndex, Material.ctor, Nat.zero_or]
  rw [Nat.mod_eq_of_lt (by omega), Nat.mod_eq_of_lt (by omega)]

/-- C11 at index 999,999, the largest one the assertion admits. -/
theorem gpu_buffer_index_round_trip_witness :
    (999999 : Nat) < 1000000 ∧
      (Material.ctor.SetGpuBufferIndex 999999).GpuBufferIndex = 999999 :=
  ⟨by decide, gpu_buffer_index_round_trip 999999 (by decide)⟩

/-- C12: for every `Material` state, every `ALPHA_MODE` value and every bool
`b`, `SetAlphaMode(mode)` and `SetDoubleSided(b)` leave `GpuBufferIndex()`
unchanged. -/
theorem alpha_and_double_sided_keep_index (m : Material) (mode : ALPHA_MODE) (b : Bool) :
    (m.SetAlphaMode mode).GpuBufferIndex = m.GpuBufferIndex ∧
      (m.SetDoubleSided b).GpuBufferIndex = m.GpuBufferIndex := by
  simp only [Material.GpuBufferIndex_eq, Material.SetAlphaMode, Material.SetDoubleSided]
  exact ⟨Material.low28_or_shift _ _ 28 (Nat.le_refl _),
    Material.low28_or_shift _ _ 30 (by decide)⟩

/-- C16: `IsDoubleSided()` is false for a default-constructed `Material`, true
after `SetDoubleSided(true)`, equal to `b` after `SetDoubleSided(b)` on a
default-constructed one, and it is changed neither by `SetAlphaMode(m)` for any
alpha mode (OPAQUE, MASK, BLEND among them) nor by `SetGpuBufferIndex(idx)` for
`idx < 1,000,000`. -/
theorem double_sided_flag (m : Material) (mode : ALPHA_MODE) (b : Bool) (idx : Nat)
    (hidx : idx < 1000000) :
    Material.ctor.IsDoubleSided = false ∧
      (m.SetDoubleSided true).IsDoubleSided = true ∧
      (Material.ctor.SetDoubleSided b).IsDoubleSided = b ∧
      (m.SetAlphaMode mode).IsDoubleSided = m.IsDoubleSided ∧
      (m.SetGpuBufferIndex idx).IsDoubleSided = m.IsDoubleSided := by
  simp only [Material.IsDoubleSided_eq, Material.SetDoubleSided, Material.SetAlphaMode,
    Material.SetGpuBufferIndex, Material.ctor, Nat.testBit_mod_two_pow, Nat.testBit_or,
    Nat.testBit_shiftLeft, Nat.zero_testBit]
  refine ⟨trivial, ?_, ?_, ?_, ?_⟩
  · simp
  · cases b <;> simp
  · cases mode <;>
      simp [ALPHA_MODE.toNat, show Nat.testBit 1 2 = false by decide,
        show Nat.testBit 2 2 = false by decide, show Nat.testBit 3 2 = false by decide]
  · have : idx.testBit 30 = false := Nat.testBit_lt_two_pow (by omega)
    simp [this]

/-- C16 at alpha mode BLEND and index 999,999 on a material whose flag is set. -/
theorem double_sided_flag_witness :
    (999999 : Nat) < 1000000 ∧
      ((Material.ctor.SetDoubleSided true).SetAlphaMode ALPHA_MODE.BLEND).IsDoubleSided =
        true ∧
      ((Material.ctor.SetDoubleSided true).SetGpuBufferIndex 999999).IsDoubleSided = true :=
  have h := double_sided_flag (Material.ctor.SetDoubleSided true) ALPHA_MODE.BLEND true
    999999 (by decide)
  ⟨by decide, h.2.2.2.1.trans (by decide), h.2.2.2.2.trans (by decide)⟩

namespace DirectLighting

/-- The conversion to `uint16_t` keeps a value between 0 and 65535. -/
theorem toUint16_of_lt (x : Int) (h0 : 0 ≤ x) (h1 : x < 65536) :
    (toUint16 x : Int) = x := by
  unfold toUint16
  rw [Int.emod_eq_of_lt h0 h1]
  exact Int.toNat_of_nonneg h0

end DirectLighting

/-- C17 (amended): for every `numSampleSets` and `sampleSetSize` between 1 and
65535, the assertion of `SetLightPresamplingEnabled` holds and after
`SetLightPresamplingEnabled(true, numSampleSets, sampleSetSize)` presampling is
enabled and the constant buffer holds `NumSampleSets = numSampleSets` and
`SampleSetSize = sampleSetSize`, both nonzero. -/
theorem presampling_counts_stored (self : DirectLighting) (numSampleSets sampleSetSize : Int)
    (hn0 : 0 < numSampleSets) (hn1 : numSampleSets < 65536)
    (hs0 : 0 < sampleSetSize) (hs1 : sampleSetSize < 65536) :
    DirectLighting.presamplingAssert true numSampleSets sampleSetSize = true ∧
      (self.SetLightPresamplingEnabled true numSampleSets sampleSetSize).m_preSampling = true ∧
      ((self.SetLightPresamplingEnabled true numSampleSets
        sampleSetSize).m_cbSpatioTemporal.NumSampleSets : Int) = numSampleSets ∧
      ((self.SetLightPresamplingEnabled true numSampleSets
        sampleSetSize).m_cbSpatioTemporal.SampleSetSize : Int) = sampleSetSize ∧
      (self.SetLightPresamplingEnabled true numSampleSets
        sampleSetSize).m_cbSpatioTemporal.NumSampleSets ≠ 0 ∧
      (self.SetLightPresamplingEnabled true numSampleSets
        sampleSetSize).m_cbSpatioTemporal.SampleSetSize ≠ 0 := by
  have hn := DirectLighting.toUint16_of_lt numSampleSets (Int.le_of_lt hn0) hn1
  have hs := DirectLighting.toUint16_of_lt sampleSetSize (Int.le_of_lt hs0) hs1
  simp only [DirectLighting.SetLightPresamplingEnabled, if_true]
  refine ⟨?_, trivial, hn, hs, ?_, ?_⟩
  · simp [DirectLighting.presamplingAssert, Int.ne_of_gt hn0, Int.ne_of_gt hs0]
  · intro h; rw [h] at hn; omega
  · intro h; rw [h] at hs; omega

/-- C17 at 128 sample sets of size 512. -/
theorem presampling_counts_stored_witness :
    ((0 : Int) < 128 ∧ (128 : Int) < 65536 ∧ (0 : Int) < 512 ∧ (512 : Int) < 65536) ∧
      (((⟨false, ⟨0, 0⟩⟩ : DirectLighting).SetLightPresamplingEnabled true 128
        512).m_cbSpatioTemporal.NumSampleSets : Int) = 128 ∧
      (((⟨false, ⟨0, 0⟩⟩ : DirectLighting).SetLightPresamplingEnabled true 128
        512).m_cbSpatioTemporal.SampleSetSize : Int) = 512 :=
  have h := presampling_counts_stored ⟨false, ⟨0, 0⟩⟩ 128 512 (by decide) (by decide)
    (by decide) (by decide)
  ⟨⟨by decide, by decide, by decide, by decide⟩, h.2.2.1, h.2.2.2.1⟩

/-- C17 as stated fails: with `numSampleSets = 65536` and `sampleSetSize = 1`
the assertion holds (both are nonzero) and the constant buffer holds
`NumSampleSets = 0`. -/
theorem presampling_counts_stored_counterexample :
    DirectLighting.presamplingAssert true 65536 1 = true ∧
      ((⟨false, ⟨0, 0⟩⟩ : DirectLighting).SetLightPresamplingEnabled true 65536
        1).m_cbSpatioTemporal.NumSampleSets = 0 ∧
      ((⟨false, ⟨0, 0⟩⟩ : DirectLighting).SetLightPresamplingEnabled true 65536
        1).m_cbSpatioTemporal.SampleSetSize = 1 := by
  decide

/-! ## PostProcessor::Update -/

namespace PostProcessor

/-- With TAA enabled `UpdatePasses` leaves the TAA pass initialized and the
shared SRV table allocated; it initializes the FSR2 pass only if it was. -/
theorem UpdatePasses_taa (settings : RenderSettings) (pp : PostProcessPasses)
    (htaa : settings.TAA = true) :
    (UpdatePasses settings pp).TaaPassIsInitialized = true ∧
      (∃ srv, (UpdatePasses settings pp).TaaOrFsr2OutSRV = DescriptorTable.allocated srv) ∧
      ((UpdatePasses settings pp).Fsr2PassIsInitialized = true →
        pp.Fsr2PassIsInitialized = true) := by
  rcases pp with ⟨t, f, srv, hdr, fl⟩
  cases hfsr : settings.Fsr2 <;> cases t <;> cases f <;> cases srv <;>
    simp [UpdatePasses, DescriptorTable.IsEmpty, htaa, hfsr]

/-- With FSR2 enabled and TAA disabled `UpdatePasses` leaves the FSR2 pass
initialized and the shared SRV table allocated. -/
theorem UpdatePasses_fsr2 (settings : RenderSettings) (pp : PostProcessPasses)
    (htaa : settings.TAA = false) (hfsr : settings.Fsr2 = true) :
    (UpdatePasses settings pp).Fsr2PassIsInitialized = true ∧
      ∃ srv, (UpdatePasses settings pp).TaaOrFsr2OutSRV = DescriptorTable.allocated srv := by
  rcases pp with ⟨t, f, srv, hdr, fl⟩
  cases t <;> cases f <;> cases srv <;>
    simp [UpdatePasses, DescriptorTable.IsEmpty, htaa, hfsr]

/-- With TAA enabled and FSR2 disabled `UpdateDescriptors` after `UpdatePasses`
creates the SRV of the current TAA output in the shared table. -/
theorem UpdateDescriptors_taa (app : App) (settings : RenderSettings) (pp : PostProcessPasses)
    (htaa : settings.TAA = true) (hfsr : settings.Fsr2 = false) :
    ∃ pp1, UpdateDescriptors app settings (UpdatePasses settings pp) = some pp1 ∧
      pp1.TaaOrFsr2OutSRV = DescriptorTable.allocated (some (PathID.TaaOutput
        (if app.CurrOutIdx = 0 then TAA_SHADER_OUT_RES.OUTPUT_B
          else TAA_SHADER_OUT_RES.OUTPUT_A))) := by
  obtain ⟨_, ⟨srv, hsrv⟩, _⟩ := UpdatePasses_taa settings pp htaa
  refine ⟨_, by simp only [UpdateDescriptors, hfsr, htaa]; rfl, ?_⟩
  simp only [hsrv, DescriptorTable.CreateTexture2DSRV]

/-- With FSR2 enabled and TAA disabled the assertions of `UpdateDescriptors`
hold after `UpdatePasses`, and the SRV of the upscaled output is created in the
shared table. -/
theorem UpdateDescriptors_fsr2 (app : App) (settings : RenderSettings)
    (pp : PostProcessPasses) (htaa : settings.TAA = false) (hfsr : settings.Fsr2 = true) :
    ∃ pp1, UpdateDescriptors app settings (UpdatePasses settings pp) = some pp1 ∧
      pp1.TaaOrFsr2OutSRV = DescriptorTable.allocated (some PathID.Fsr2Upscaled) := by
  obtain ⟨hinit, ⟨srv, hsrv⟩⟩ := UpdatePasses_fsr2 settings pp htaa hfsr
  refine ⟨_, by simp [UpdateDescriptors, hfsr, hinit, hsrv, DescriptorTable.IsEmpty]; rfl, ?_⟩
  simp only [hsrv, DescriptorTable.CreateTexture2DSRV]

/-- With exactly one upscaler enabled `Update` binds the shared SRV table as
FINAL_LIGHTING, holding the current TAA output or the FSR2 upscaled output. -/
theorem Update_upscaler (app : App) (settings : RenderSettings) (pp : PostProcessPasses)
    (hone : (settings.TAA = true ∧ settings.Fsr2 = false) ∨
      (settings.TAA = false ∧ settings.Fsr2 = true)) :
    ∃ pp1, Update app settings pp = some pp1 ∧
      pp1.finalLightingTexture = some (if settings.TAA = true then
        PathID.TaaOutput (if app.CurrOutIdx = 0 then TAA_SHADER_OUT_RES.OUTPUT_B
          else TAA_SHADER_OUT_RES.OUTPUT_A)
        else PathID.Fsr2Upscaled) := by
  rcases hone with ⟨htaa, hfsr⟩ | ⟨htaa, hfsr⟩
  · obtain ⟨pp1, h1, h2⟩ := UpdateDescriptors_taa app settings pp htaa hfsr
    refine ⟨{ pp1 with FinalLighting := some .TaaOrFsr2OutSRV }, ?_, ?_⟩
    · simp only [Update, h1, htaa, if_true]
    · simp [PostProcessPasses.finalLightingTexture, h2, DescriptorTable.texture, htaa]
  · obtain ⟨pp1, h1, h2⟩ := UpdateDescriptors_fsr2 app settings pp htaa hfsr
    refine ⟨{ pp1 with FinalLighting := some .TaaOrFsr2OutSRV }, ?_, ?_⟩
    · simp [Update, h1, htaa, hfsr]
    · simp [PostProcessPasses.finalLightingTexture, h2, DescriptorTable.texture, htaa]

/-- With an upscaler registered, `DeclareAdjacencies` declares its output as an
input of the final pass in shader-resource state. -/
theorem final_input_declared (app : App) (settings : RenderSettings) (rt : RayTracerData)
    (data : PostProcessData) (rg : RenderGraph PathID) (hfc : app.TotalFrameCount > 2)
    (hany : settings.TAA = true ∨ settings.Fsr2 = true) :
    (⟨(registered app settings data rg).FinalPassHandle,
        if settings.TAA = true then
          PathID.TaaOutput (if app.CurrOutIdx = 0 then TAA_SHADER_OUT_RES.OUTPUT_B
            else TAA_SHADER_OUT_RES.OUTPUT_A)
        else PathID.Fsr2Upscaled,
        D3D12_RESOURCE_STATES.ALL_SHADER_RESOURCE, Direction.input⟩ : Edge PathID) ∈
      declaredEdges app settings rt data rg := by
  cases htaa : settings.TAA with
  | true =>
    have hr : (registered app settings data rg).FinalPassHandle = rg.passes.length + 2 := by
      unfold registered; rw [Register_taa app settings data rg hfc htaa]
    rw [declaredEdges_taa app settings rt data rg hfc htaa, hr]
    simp
  | false =>
    have hfsr : settings.Fsr2 = true := by
      rcases hany with h | h
      · rw [htaa] at h; cases h
      · exact h
    have hr : (registered app settings data rg).FinalPassHandle = rg.passes.length + 2 := by
      unfold registered; rw [Register_fsr2 app settings data rg hfc htaa hfsr]
    rw [declaredEdges_fsr2 app settings rt data rg hfc htaa hfsr, hr]
    simp

/-- With TAA enabled, every output edge and every edge of the final pass that
`DeclareAdjacencies` declares on a TAA texture is on the current TAA output. -/
theorem taa_texture_edges (app : App) (settings : RenderSettings) (rt : RayTracerData)
    (data : PostProcessData) (rg : RenderGraph PathID) (htaa : settings.TAA = true) :
    ∀ e ∈ declaredEdges app settings rt data rg, ∀ x, e.res = PathID.TaaOutput x →
      (e.dir = Direction.output ∨ e.pass = (registered app settings data rg).FinalPassHandle) →
      x = (if app.CurrOutIdx = 0 then TAA_SHADER_OUT_RES.OUTPUT_B
        else TAA_SHADER_OUT_RES.OUTPUT_A) := by
  by_cases hfc : app.TotalFrameCount > 2
  · have hr : (registered app settings data rg).FinalPassHandle = rg.passes.length + 2 := by
      unfold registered; rw [Register_taa app settings data rg hfc htaa]
    rw [declaredEdges_taa app settings rt data rg hfc htaa, hr]
    by_cases hidx : app.CurrOutIdx = 0 <;>
      cases hrt : (settings.RTIndirectDiffuse && rt.TLASIsInitialized) <;>
      cases hdn : settings.DenoiseIndirectDiffuse <;>
      simp [hidx]
  · rw [declaredEdges_plain app settings rt data rg (Or.inl hfc)]
    cases hrt : (settings.RTIndirectDiffuse && rt.TLASIsInitialized) <;>
      cases hdn : settings.DenoiseIndirectDiffuse <;>
      simp

end PostProcessor
/-- C13: evaluation of `PostProcessor::Update` on the assertions of the FSR2
branch of `UpdateDescriptors`.  With FSR2 enabled and TAA disabled they hold for
every prior state: `UpdatePasses` has initialized the FSR2 pass and allocated
the SRV table.  With TAA and FSR2 both enabled and the FSR2 pass not yet
initialized, `UpdatePasses` takes its TAA branch and leaves the FSR2 pass
uninitialized while `UpdateDescriptors` takes its FSR2 branch, whose first
assertion then fails. -/
theorem update_fsr2_assertions (app : App) :
    (∀ (settings : RenderSettings) (pp : PostProcessPasses),
      settings.Fsr2 = true → settings.TAA = false →
      (PostProcessor.UpdatePasses settings pp).Fsr2PassIsInitialized = true ∧
        (PostProcessor.UpdatePasses settings pp).TaaOrFsr2OutSRV.IsEmpty = false ∧
        (PostProcessor.UpdateDescriptors app settings
          (PostProcessor.UpdatePasses settings pp)).isSome = true) ∧
    (PostProcessor.UpdatePasses ⟨true, true, false, false⟩
      (PostProcessor.Init PostProcessPasses.ctor)).Fsr2PassIsInitialized = false ∧
    PostProcessor.UpdateDescriptors app ⟨true, true, false, false⟩
      (PostProcessor.UpdatePasses ⟨true, true, false, false⟩
        (PostProcessor.Init PostProcessPasses.ctor)) = none ∧
    PostProcessor.Update app ⟨true, true, false, false⟩
      (PostProcessor.Init PostProcessPasses.ctor) = none := by
  refine ⟨?_, by decide, ?_, ?_⟩
  · intro settings pp hfsr htaa
    obtain ⟨hinit, ⟨srv, hsrv⟩⟩ := PostProcessor.UpdatePasses_fsr2 settings pp htaa hfsr
    obtain ⟨pp1, h1, _⟩ := PostProcessor.UpdateDescriptors_fsr2 app settings pp htaa hfsr
    exact ⟨hinit, by rw [hsrv]; rfl, by rw [h1]; rfl⟩
  · rfl
  · rfl

/-- C14 (amended): when the total frame count exceeds 2 and exactly one of TAA
and FSR2 is enabled, `Update` succeeds from every prior state, the texture whose
SRV it binds as FINAL_LIGHTING of the final pass is the current TAA output or
the FSR2 upscaled output, and `DeclareAdjacencies` declares that texture as an
input edge of the final pass in shader-resource state. -/
theorem final_lighting_is_declared (app : App) (settings : RenderSettings)
    (rt : RayTracerData) (pp : PostProcessPasses) (data : PostProcessData)
    (rg : RenderGraph PathID) (hfc : app.TotalFrameCount > 2)
    (hone : (settings.TAA = true ∧ settings.Fsr2 = false) ∨
      (settings.TAA = false ∧ settings.Fsr2 = true)) :
    ∃ pp1 tex, PostProcessor.Update app settings pp = some pp1 ∧
      pp1.finalLightingTexture = some tex ∧
      tex = (if settings.TAA = true then
        PathID.TaaOutput (if app.CurrOutIdx = 0 then TAA_SHADER_OUT_RES.OUTPUT_B
          else TAA_SHADER_OUT_RES.OUTPUT_A)
        else PathID.Fsr2Upscaled) ∧
      (⟨(PostProcessor.registered app settings data rg).FinalPassHandle, tex,
          D3D12_RESOURCE_STATES.ALL_SHADER_RESOURCE, Direction.input⟩ : Edge PathID) ∈
        PostProcessor.declaredEdges app settings rt data rg := by
  obtain ⟨pp1, h1, h2⟩ := PostProcessor.Update_upscaler app settings pp hone
  have hany : settings.TAA = true ∨ settings.Fsr2 = true := by
    rcases hone with ⟨h, _⟩ | ⟨_, h⟩
    · exact Or.inl h
    · exact Or.inr h
  exact ⟨pp1, _, h1, h2, rfl,
    PostProcessor.final_input_declared app settings rt data rg hfc hany⟩

/-- C14 at frame 3 with FSR2 enabled, right after `Init`, from an empty graph:
the upscaled output is bound and declared. -/
theorem final_lighting_is_declared_witness :
    ((⟨3, 0, 0⟩ : App).TotalFrameCount > 2 ∧
      (((⟨false, true, false, false⟩ : RenderSettings).TAA = true ∧
          (⟨false, true, false, false⟩ : RenderSettings).Fsr2 = false) ∨
        ((⟨false, true, false, false⟩ : RenderSettings).TAA = false ∧
          (⟨false, true, false, false⟩ : RenderSettings).Fsr2 = true))) ∧
    ∃ pp1 tex, PostProcessor.Update ⟨3, 0, 0⟩ ⟨false, true, false, false⟩
        (PostProcessor.Init PostProcessPasses.ctor) = some pp1 ∧
      pp1.finalLightingTexture = some tex ∧
      tex = PathID.Fsr2Upscaled ∧
      (⟨(PostProcessor.registered ⟨3, 0, 0⟩ ⟨false, true, false, false⟩ ⟨0, 0, 0, 0, 0⟩
            RenderGraph.empty).FinalPassHandle, tex,
          D3D12_RESOURCE_STATES.ALL_SHADER_RESOURCE, Direction.input⟩ : Edge PathID) ∈
        PostProcessor.declaredEdges ⟨3, 0, 0⟩ ⟨false, true, false, false⟩ ⟨true, true⟩
          ⟨0, 0, 0, 0, 0⟩ RenderGraph.empty :=
  ⟨⟨by decide, Or.inr ⟨rfl, rfl⟩⟩,
    final_lighting_is_declared ⟨3, 0, 0⟩ ⟨false, true, false, false⟩ ⟨true, true⟩
      (PostProcessor.Init PostProcessPasses.ctor) ⟨0, 0, 0, 0, 0⟩ RenderGraph.empty
      (by decide) (Or.inr ⟨rfl, rfl⟩)⟩

/-- C14 as stated fails.  At frame 0 with TAA enabled `Update` binds the TAA
output OUTPUT_B as FINAL_LIGHTING while `DeclareAdjacencies` declares no edge of
the final pass on it; at frame 3 with neither TAA nor FSR2 enabled `Update`
binds the HDR light-accumulation texture while `DeclareAdjacencies` declares no
edge of the final pass on it. -/
theorem final_lighting_is_declared_counterexample :
    ((PostProcessor.Update ⟨0, 0, 0⟩ ⟨true, false, false, false⟩
        (PostProcessor.Init PostProcessPasses.ctor)).map
          PostProcessPasses.finalLightingTexture =
        some (some (PathID.TaaOutput TAA_SHADER_OUT_RES.OUTPUT_B)) ∧
      ∀ e ∈ PostProcessor.declaredEdges ⟨0, 0, 0⟩ ⟨true, false, false, false⟩ ⟨true, true⟩
          ⟨0, 0, 0, 0, 0⟩ RenderGraph.empty,
        e.pass = (PostProcessor.registered ⟨0, 0, 0⟩ ⟨true, false, false, false⟩
          ⟨0, 0, 0, 0, 0⟩ RenderGraph.empty).FinalPassHandle →
        e.res ≠ PathID.TaaOutput TAA_SHADER_OUT_RES.OUTPUT_B) ∧
    ((PostProcessor.Update ⟨3, 0, 0⟩ ⟨false, false, false, false⟩
        (PostProcessor.Init PostProcessPasses.ctor)).map
          PostProcessPasses.finalLightingTexture =
        some (some PathID.HdrLightAccumTex) ∧
      ∀ e ∈ PostProcessor.declaredEdges ⟨3, 0, 0⟩ ⟨false, false, false, false⟩ ⟨true, true⟩
          ⟨0, 0, 0, 0, 0⟩ RenderGraph.empty,
        e.pass = (PostProcessor.registered ⟨3, 0, 0⟩ ⟨false, false, false, false⟩
          ⟨0, 0, 0, 0, 0⟩ RenderGraph.empty).FinalPassHandle →
        e.res ≠ PathID.HdrLightAccumTex) := by
  decide

/-- C15 (amended): when the total frame count exceeds 2, with TAA enabled and
FSR2 disabled, for every double-buffer index the TAA output whose SRV
`UpdateDescriptors` creates in `TaaOrFsr2OutSRV` (OUTPUT_B when the index is 0,
OUTPUT_A otherwise) is the texture that `DeclareAdjacencies` declares as the
output of the TAA pass and as an input of the final pass in that frame, and it
is the texture of every output edge and of every edge of the final pass declared
on a TAA texture. -/
theorem taa_srv_matches_declared_output (app : App) (settings : RenderSettings)
    (rt : RayTracerData) (pp : PostProcessPasses) (data : PostProcessData)
    (rg : RenderGraph PathID) (hfc : app.TotalFrameCount > 2) (htaa : settings.TAA = true)
    (hfsr : settings.Fsr2 = false) :
    (∃ pp1, PostProcessor.UpdateDescriptors app settings
        (PostProcessor.UpdatePasses settings pp) = some pp1 ∧
      pp1.TaaOrFsr2OutSRV = DescriptorTable.allocated (some (PathID.TaaOutput
        (if app.CurrOutIdx = 0 then TAA_SHADER_OUT_RES.OUTPUT_B
          else TAA_SHADER_OUT_RES.OUTPUT_A)))) ∧
    (⟨(PostProcessor.registered app settings data rg).TaaHandle,
        PathID.TaaOutput (if app.CurrOutIdx = 0 then TAA_SHADER_OUT_RES.OUTPUT_B
          else TAA_SHADER_OUT_RES.OUTPUT_A),
        D3D12_RESOURCE_STATES.UNORDERED_ACCESS, Direction.output⟩ : Edge PathID) ∈
      PostProcessor.declaredEdges app settings rt data rg ∧
    (⟨(PostProcessor.registered app settings data rg).FinalPassHandle,
        PathID.TaaOutput (if app.CurrOutIdx = 0 then TAA_SHADER_OUT_RES.OUTPUT_B
          else TAA_SHADER_OUT_RES.OUTPUT_A),
        D3D12_RESOURCE_STATES.ALL_SHADER_RESOURCE, Direction.input⟩ : Edge PathID) ∈
      PostProcessor.declaredEdges app settings rt data rg ∧
    ∀ e ∈ PostProcessor.declaredEdges app settings rt data rg, ∀ x,
      e.res = PathID.TaaOutput x →
      (e.dir = Direction.output ∨
        e.pass = (PostProcessor.registered app settings data rg).FinalPassHandle) →
      x = (if app.CurrOutIdx = 0 then TAA_SHADER_OUT_RES.OUTPUT_B
        else TAA_SHADER_OUT_RES.OUTPUT_A) := by
  obtain ⟨h1, _, _, h4, _, _⟩ := PostProcessor.taa_edges app settings rt data rg hfc htaa
  have h5 := PostProcessor.final_input_declared app settings rt data rg hfc (Or.inl htaa)
  rw [if_pos htaa] at h5
  refine ⟨PostProcessor.UpdateDescriptors_taa app settings pp htaa hfsr, ?_, h5,
    PostProcessor.taa_texture_edges app settings rt data rg htaa⟩
  rw [h1]
  exact h4

/-- C15 at frame 3 with double-buffer index 1, right after `Init`, from an
empty graph: OUTPUT_A is written to the table and declared as the output of the
TAA pass (handle 0) and as an input of the final pass (handle 2). -/
theorem taa_srv_matches_declared_output_witness :
    ((⟨3, 1, 0⟩ : App).TotalFrameCount > 2 ∧
      (⟨true, false, false, false⟩ : RenderSettings).TAA = true ∧
      (⟨true, false, false, false⟩ : RenderSettings).Fsr2 = false) ∧
    (PostProcessor.UpdateDescriptors ⟨3, 1, 0⟩ ⟨true, false, false, false⟩
      (PostProcessor.UpdatePasses ⟨true, false, false, false⟩
        (PostProcessor.Init PostProcessPasses.ctor))).map
          (fun p => p.TaaOrFsr2OutSRV.texture) =
      some (some (PathID.TaaOutput TAA_SHADER_OUT_RES.OUTPUT_A)) ∧
    (⟨0, PathID.TaaOutput TAA_SHADER_OUT_RES.OUTPUT_A,
        D3D12_RESOURCE_STATES.UNORDERED_ACCESS, Direction.output⟩ : Edge PathID) ∈
      PostProcessor.declaredEdges ⟨3, 1, 0⟩ ⟨true, false, false, false⟩ ⟨true, true⟩
        ⟨0, 0, 0, 0, 0⟩ RenderGraph.empty ∧
    (⟨2, PathID.TaaOutput TAA_SHADER_OUT_RES.OUTPUT_A,
        D3D12_RESOURCE_STATES.ALL_SHADER_RESOURCE, Direction.input⟩ : Edge PathID) ∈
      PostProcessor.declaredEdges ⟨3, 1, 0⟩ ⟨true, false, false, false⟩ ⟨true, true⟩
        ⟨0, 0, 0, 0, 0⟩ RenderGraph.empty :=
  have h := taa_srv_matches_declared_output ⟨3, 1, 0⟩ ⟨true, false, false, false⟩
    ⟨true, true⟩ (PostProcessor.Init PostProcessPasses.ctor) ⟨0, 0, 0, 0, 0⟩
    RenderGraph.empty (by decide) rfl rfl
  ⟨⟨by decide, rfl, rfl⟩, by decide, h.2.1, h.2.2.1⟩

/-- C15 as stated fails in the first three frames.  At frame 0 with TAA enabled
and FSR2 disabled `UpdateDescriptors` creates the SRV of the TAA output OUTPUT_B
in `TaaOrFsr2OutSRV`, while `Register` does not register the TAA pass and
`DeclareAdjacencies` declares no edge at all on a TAA texture: the texture is
neither the output of a TAA pass nor an input of the final pass in that frame. -/
theorem taa_srv_matches_declared_output_counterexample :
    (PostProcessor.UpdateDescriptors ⟨0, 0, 0⟩ ⟨true, false, false, false⟩
      (PostProcessor.UpdatePasses ⟨true, false, false, false⟩
        (PostProcessor.Init PostProcessPasses.ctor))).map
          (fun p => p.TaaOrFsr2OutSRV.texture) =
      some (some (PathID.TaaOutput TAA_SHADER_OUT_RES.OUTPUT_B)) ∧
    (PostProcessor.registeredPasses ⟨0, 0, 0⟩ ⟨true, false, false, false⟩ ⟨0, 0, 0, 0, 0⟩
      RenderGraph.empty).all (fun p => decide (p.name ≠ "TAA")) = true ∧
    ∀ e ∈ PostProcessor.declaredEdges ⟨0, 0, 0⟩ ⟨true, false, false, false⟩ ⟨true, true⟩
        ⟨0, 0, 0, 0, 0⟩ RenderGraph.empty,
      e.res ≠ PathID.TaaOutput TAA_SHADER_OUT_RES.OUTPUT_A ∧
        e.res ≠ PathID.TaaOutput TAA_SHADER_OUT_RES.OUTPUT_B := by
  decide

end ZetaRay
